import Mathlib

/-!
Nameservice keeper: record registry and expiry queue

A shallow embedding of `x/nameservice/keeper/keeper.go` (the record part of the
keeper) together with the properties of `ProcessSetRecord`, `processRecord` and
the record expiry queue, followed by the record queries of `grpc_query.go`, the
message validation of `types/msg.go` and `types/record_msg.go`, the presentation
of records and bonds of `gql/util.go`, and the auction message server of
`x/auction/keeper/msg_server.go`.

Conventions of the embedding:

* a Go `string` is a Lean `String`, a Go `[]byte` is a `List Nat` of byte values;
* a `time.Time` is an `Int` (nanoseconds since the epoch), a `time.Duration` an `Int`;
* the key-value store is a finite map from byte strings to byte strings, kept as a
  key-sorted association list so that prefix iteration is in ascending key order;
* a keeper method that mutates the store and returns an `error` becomes a function
  returning the state after the call together with `Option Error`
  (`none` is Go's `nil` error);
* code that lives outside the keeper (codecs, signature scheme, bond keeper,
  content addressing) is taken as a parameter, collected in `Env`.
-/

namespace Nameservice

/-! ## Basic types -/

/-- A Go byte slice. -/
abbrev Bytes := List Nat

/-- A `time.Time`, as nanoseconds since the epoch. -/
abbrev Time := Int

/-- A `time.Duration`, in nanoseconds. -/
abbrev Duration := Int

/-- UTF-8 encoding of one character, as byte values. -/
def utf8Char (c : Char) : Bytes :=
  let n := c.toNat
  if n < 0x80 then [n]
  else if n < 0x800 then [0xC0 + n / 0x40, 0x80 + n % 0x40]
  else if n < 0x10000 then [0xE0 + n / 0x1000, 0x80 + (n / 0x40) % 0x40, 0x80 + n % 0x40]
  else [0xF0 + n / 0x40000, 0x80 + (n / 0x1000) % 0x40, 0x80 + (n / 0x40) % 0x40,
        0x80 + n % 0x40]

/-- The Go conversion `[]byte(s)`. -/
def stringBytes (s : String) : Bytes :=
  s.data.flatMap utf8Char

/-- The kinds of `sdkerrors` the module returns. -/
inductive ErrKind where
  | invalidRequest
  | unauthorized
  | invalidAddress
  | unknownRequest
  | insufficientFunds
  | other
  deriving DecidableEq, Repr

/-- An error value: `sdkerrors.Wrap(kind, msg)`. -/
structure Error where
  kind : ErrKind
  msg : String
  deriving DecidableEq, Repr

/-- An `sdk.Coin`. -/
structure Coin where
  denom : String
  amount : Int
  deriving DecidableEq, Repr

/-- The closed union of values a record attribute can hold
(`interface{}` after JSON decoding); a `float64` is kept as its bit pattern. -/
inductive Value where
  | null
  | int (n : Int)
  | float (bits : Nat)
  | str (s : String)
  | bool (b : Bool)
  | obj (kvs : List (String × Value))
  | list (xs : List Value)

/-- A `map[string]interface{}`. -/
abbrev AttrMap := List (String × Value)

/-- The `types.Signature` of a payload: base64 public key and signature. -/
structure Signature where
  PubKey : String
  Sig : String
  deriving DecidableEq, Repr

/-- The stored (protobuf) `types.Record`; its attributes are JSON bytes. -/
structure Record where
  Id : String
  BondId : String
  CreateTime : Time
  ExpiryTime : Time
  Deleted : Bool
  Owners : List String
  Attributes : Bytes
  deriving DecidableEq, Repr

/-- The in-memory `types.RecordType`; its attributes are a decoded map. -/
structure RecordType where
  Id : String
  BondId : String
  CreateTime : Time
  ExpiryTime : Time
  Deleted : Bool
  Owners : List String
  Attributes : AttrMap

/-- The `types.Payload` of a message: a record and its signatures. -/
structure Payload where
  Record : Record
  Signatures : List Signature
  deriving DecidableEq, Repr

/-- The `types.PayloadType` produced by `ToReadablePayload`. -/
structure PayloadType where
  Record : AttrMap
  Signatures : List Signature

/-- The message `types.MsgSetRecord`. -/
structure MsgSetRecord where
  BondId : String
  Signer : String
  Payload : Payload
  deriving DecidableEq, Repr

/-- The module parameters read by `processRecord`. -/
structure Params where
  RecordRent : Coin
  RecordRentDuration : Duration
  deriving DecidableEq, Repr

/-! ## The key-value store -/

/-- The module's `sdk.KVStore`: key-sorted association list. -/
abbrev KVStore := List (Bytes × Bytes)

/-- The store operation `store.Get(key)`; `none` is Go's `nil`. -/
def KVStore.get (s : KVStore) (k : Bytes) : Option Bytes :=
  s.lookup k

/-- The store operation `store.Has(key)`. -/
def KVStore.has (s : KVStore) (k : Bytes) : Bool :=
  (s.get k).isSome

/-- The store operation `store.Set(key, value)`: replaces the value of an existing key,
otherwise inserts the pair at its place in key order. -/
def KVStore.set : KVStore → Bytes → Bytes → KVStore
  | [], k, v => [(k, v)]
  | (k', v') :: rest, k, v =>
    if k = k' then (k, v) :: rest
    else if k < k' then (k, v) :: (k', v') :: rest
    else (k', v') :: KVStore.set rest k v

/-- The store operation `store.Delete(key)`. -/
def KVStore.delete (s : KVStore) (k : Bytes) : KVStore :=
  s.filter (fun p => p.1 ≠ k)

/-- The pairs visited by `sdk.KVStorePrefixIterator(store, prefix)`, in ascending key order. -/
def KVStore.prefixIterator (s : KVStore) (pre : Bytes) : List (Bytes × Bytes) :=
  s.filter (fun p => pre.isPrefixOf p.1)

/-! ## Parameters of the embedding -/

/-- A decoded public key (`cryptotypes.PubKey`), kept as its key bytes. -/
abbrev PubKey := Bytes

/-- The code the keeper calls but does not define: JSON and binary codecs, content
addressing, the signature scheme, the bond keeper and module constants.
`B` is the state of the bond keeper. -/
structure Env (B : Type) where
  /-- The helper `helpers.UnMarshalMapFromJSONBytes`. -/
  unmarshalMapFromJSONBytes : Bytes → AttrMap
  /-- The helper `helpers.MarshalMapToJSONBytes`. -/
  marshalMapToJSONBytes : AttrMap → Bytes
  /-- First result of `RecordType.GetSignBytes`. -/
  getSignBytes : RecordType → Bytes
  /-- The method `RecordType.GetCID`; `none` is a non-nil error. -/
  getCID : RecordType → Option String
  /-- The helper `helpers.BytesFromBase64`. -/
  bytesFromBase64 : String → Bytes
  /-- The decoder `legacy.PubKeyFromBytes`; `none` is a non-nil error. -/
  pubKeyFromBytes : Bytes → Option PubKey
  /-- The method `pubKey.VerifySignature(msg, sig)`. -/
  verifySignature : PubKey → Bytes → Bytes → Bool
  /-- The address string `pubKey.Address().String()`. -/
  address : PubKey → String
  /-- The codec call `k.cdc.MustMarshal(&record)`. -/
  marshalRecord : Record → Bytes
  /-- The codec call `k.cdc.MustUnmarshal(bz, &record)`; `none` is a panic. -/
  unmarshalRecord : Bytes → Option Record
  /-- First result of `helpers.StrArrToBytesArr` (the keeper drops the error). -/
  strArrToBytesArr : List String → Bytes
  /-- The helper `helpers.BytesArrToStringArr`; `none` is a non-nil error. -/
  bytesArrToStringArr : Bytes → Option (List String)
  /-- The formatter `sdk.FormatTimeBytes`. -/
  formatTimeBytes : Time → Bytes
  /-- The bond keeper's `TransferCoinsToModuleAccount(ctx, bondId, module, coins)`:
  the bond keeper's state after the call and the returned error. -/
  transferCoinsToModuleAccount : B → String → String → List Coin → B × Option Error
  /-- The constructor `sdk.NewCoins(coins...)`. -/
  newCoins : List Coin → List Coin
  /-- The constant `types.RecordRentModuleAccountName`. -/
  recordRentModuleAccountName : String
  /-- Encoding of the block changeset of a height after one more record id is
  appended to it; the first argument is the changeset stored so far, if any. -/
  appendRecordToChangeSet : Option Bytes → Int → String → Bytes

/-- The part of `sdk.Context` the keeper reads: block header and module parameters. -/
structure Ctx where
  blockTime : Time
  blockHeight : Int
  params : Params
  deriving DecidableEq, Repr

/-- The mutable state a keeper call acts on: the module store and the bond keeper. -/
structure State (B : Type) where
  store : KVStore
  bond : B

/-! ## Store keys -/

/-- Prefix for the CID -> Record index (the primary index). -/
def PrefixCIDToRecordIndex : Bytes := [0x00]

/-- Prefix for the Bond ID -> [Record] index. -/
def PrefixBondIDToRecordsIndex : Bytes := [0x03]

/-- Prefix for the block changeset index. -/
def PrefixBlockChangesetIndex : Bytes := [0x04]

/-- Prefix for the Expiry Time -> [Record] index. -/
def PrefixExpiryTimeToRecordsIndex : Bytes := [0x10]

/-- Source: `GetRecordIndexKey`. -/
def GetRecordIndexKey (id : String) : Bytes :=
  PrefixCIDToRecordIndex ++ stringBytes id

/-- Source: `getBondIDToRecordsIndexKey`. -/
def getBondIDToRecordsIndexKey (bondID : String) (id : String) : Bytes :=
  (PrefixBondIDToRecordsIndex ++ stringBytes bondID) ++ stringBytes id

/-- Source: `getRecordExpiryQueueTimeKey`. -/
def getRecordExpiryQueueTimeKey {B : Type} (env : Env B) (timestamp : Time) : Bytes :=
  PrefixExpiryTimeToRecordsIndex ++ env.formatTimeBytes timestamp

/-- Big-endian encoding of `n` on `w` bytes (of `n` modulo `2^(8w)`). -/
def bigEndian : Nat → Nat → Bytes
  | 0, _ => []
  | w + 1, n => bigEndian w (n / 256) ++ [n % 256]

/-- Modelled from the spec: the key of the block changeset index, which the source
files do not contain; the store key layout gives it as the byte 0x04 followed by the
block height as a big-endian u64. -/
def getBlockChangesetIndexKey (height : Int) : Bytes :=
  PrefixBlockChangesetIndex ++ bigEndian 8 (height % 2 ^ 64).toNat

/-! ## Conversions between the record types -/

/-- Modelled from the spec: `Payload.ToReadablePayload`, which the source files do not
contain; the readable payload carries the decoded attribute map of the payload's
record and the payload's signatures. -/
def Payload.ToReadablePayload {B : Type} (env : Env B) (p : Payload) : PayloadType :=
  { Record := env.unmarshalMapFromJSONBytes p.Record.Attributes
    Signatures := p.Signatures }

/-- Modelled from the spec: `RecordType.ToRecordObj`, which the source files do not
contain; the stored record carries the same id, bond, times, tombstone and owners and
the JSON bytes of the attribute map. -/
def RecordType.ToRecordObj {B : Type} (env : Env B) (r : RecordType) : Record :=
  { Id := r.Id
    BondId := r.BondId
    CreateTime := r.CreateTime
    ExpiryTime := r.ExpiryTime
    Deleted := r.Deleted
    Owners := r.Owners
    Attributes := env.marshalMapToJSONBytes r.Attributes }

/-- Go's order on strings, `a <= b`: lexicographic comparison of the bytes. -/
def stringLE (a b : String) : Prop :=
  stringBytes a ≤ stringBytes b

/-- Go's strict order on strings, `a < b`. -/
def stringLT (a b : String) : Prop :=
  stringBytes a < stringBytes b

/-- The library call `sort.Strings`: the strings in ascending order. -/
def sortStrings (xs : List String) : List String :=
  xs.insertionSort (fun a b => stringBytes a ≤ stringBytes b)

/-! ## Keeper -/

/-- Source: `Keeper.HasRecord`. -/
def HasRecord {B : Type} (st : State B) (id : String) : Bool :=
  st.store.has (GetRecordIndexKey id)

/-- Source: `Keeper.GetRecord`; `none` is the panic of `MustUnmarshal`. For an absent
id the codec is given Go's nil slice, which is the empty byte string. -/
def GetRecord {B : Type} (env : Env B) (st : State B) (id : String) : Option Record :=
  env.unmarshalRecord ((st.store.get (GetRecordIndexKey id)).getD [])

/-- Modelled from the spec: `Keeper.updateBlockChangeSetForRecord`, which the source
files do not contain; it appends the record id to the changeset stored under the
changeset key of the current block height and stores the result there. -/
def updateBlockChangeSetForRecord {B : Type} (env : Env B) (ctx : Ctx) (st : State B)
    (id : String) : State B :=
  let key := getBlockChangesetIndexKey ctx.blockHeight
  { st with store :=
      st.store.set key (env.appendRecordToChangeSet (st.store.get key) ctx.blockHeight id) }

/-- Source: `Keeper.PutRecord`. -/
def PutRecord {B : Type} (env : Env B) (ctx : Ctx) (st : State B) (record : Record) :
    State B :=
  let st1 : State B :=
    { st with store := st.store.set (GetRecordIndexKey record.Id) (env.marshalRecord record) }
  updateBlockChangeSetForRecord env ctx st1 record.Id

/-- Source: `Keeper.AddBondToRecordIndexEntry`. -/
def AddBondToRecordIndexEntry {B : Type} (st : State B) (bondID : String) (id : String) :
    State B :=
  { st with store := st.store.set (getBondIDToRecordsIndexKey bondID id) [] }

/-- Source: `Keeper.SetRecordExpiryQueueTimeSlice`. -/
def SetRecordExpiryQueueTimeSlice {B : Type} (env : Env B) (st : State B)
    (timestamp : Time) (cids : List String) : State B :=
  let bz := env.strArrToBytesArr cids
  { st with store := st.store.set (getRecordExpiryQueueTimeKey env timestamp) bz }

/-- Source: `Keeper.DeleteRecordExpiryQueueTimeSlice`. -/
def DeleteRecordExpiryQueueTimeSlice {B : Type} (env : Env B) (st : State B)
    (timestamp : Time) : State B :=
  { st with store := st.store.delete (getRecordExpiryQueueTimeKey env timestamp) }

/-- Source: `Keeper.GetRecordExpiryQueueTimeSlice`. -/
def GetRecordExpiryQueueTimeSlice {B : Type} (env : Env B) (st : State B)
    (timestamp : Time) : List String :=
  match st.store.get (getRecordExpiryQueueTimeKey env timestamp) with
  | none => []
  | some bz =>
    match env.bytesArrToStringArr bz with
    | none => []
    | some cids => cids

/-- Source: `Keeper.InsertRecordExpiryQueue`. -/
def InsertRecordExpiryQueue {B : Type} (env : Env B) (st : State B) (val : Record) :
    State B :=
  let timeSlice := GetRecordExpiryQueueTimeSlice env st val.ExpiryTime
  let timeSlice := timeSlice ++ [val.Id]
  SetRecordExpiryQueueTimeSlice env st val.ExpiryTime timeSlice

/-- Source: `Keeper.processRecord`. Returns the state after the call, the record as
left in the caller's variable, and the error. -/
def processRecord {B : Type} (env : Env B) (ctx : Ctx) (st : State B) (record : RecordType)
    (isRenewal : Bool) : State B × RecordType × Option Error :=
  let params := ctx.params
  let rent := params.RecordRent
  match env.transferCoinsToModuleAccount st.bond record.BondId
      env.recordRentModuleAccountName (env.newCoins [rent]) with
  | (bond1, some err) => ({ st with bond := bond1 }, record, some err)
  | (bond1, none) =>
    let st := { st with bond := bond1 }
    let record := { record with CreateTime := ctx.blockTime }
    let record := { record with ExpiryTime := ctx.blockTime + params.RecordRentDuration }
    let record := { record with Deleted := false }
    let st := PutRecord env ctx st (record.ToRecordObj env)
    let st := InsertRecordExpiryQueue env st (record.ToRecordObj env)
    let st := if !isRenewal then AddBondToRecordIndexEntry st record.BondId record.Id else st
    (st, record, none)

/-- The loop over `payload.Signatures` in `ProcessSetRecord`: the owners collected so
far, or the error of the first signature that fails. -/
def checkSignatures {B : Type} (env : Env B) (resourceSignBytes : Bytes) :
    List Signature → List String → Except Error (List String)
  | [], owners => .ok owners
  | sig :: rest, owners =>
    match env.pubKeyFromBytes (env.bytesFromBase64 sig.PubKey) with
    | none => .error ⟨ErrKind.unauthorized, "Invalid public key."⟩
    | some pubKey =>
      let sigOK := env.verifySignature pubKey resourceSignBytes (env.bytesFromBase64 sig.Sig)
      if !sigOK then .error ⟨ErrKind.unauthorized, "Invalid signature."⟩
      else checkSignatures env resourceSignBytes rest (owners ++ [env.address pubKey])

/-- The record value `types.RecordType{Attributes: payload.Record, BondId: msg.BondId}`
built at the start of `ProcessSetRecord`; the other fields have Go's zero values. -/
def msgRecord {B : Type} (env : Env B) (msg : MsgSetRecord) : RecordType :=
  { Id := "", BondId := msg.BondId, CreateTime := 0, ExpiryTime := 0, Deleted := false,
    Owners := [], Attributes := (msg.Payload.ToReadablePayload env).Record }

/-- Source: `Keeper.ProcessSetRecord`. -/
def ProcessSetRecord {B : Type} (env : Env B) (ctx : Ctx) (st : State B)
    (msg : MsgSetRecord) : State B × Option Error :=
  let payload := msg.Payload.ToReadablePayload env
  let record : RecordType := msgRecord env msg
  let resourceSignBytes := env.getSignBytes record
  match env.getCID record with
  | none => (st, some ⟨ErrKind.invalidRequest, "Invalid record JSON"⟩)
  | some cid =>
    let record := { record with Id := cid }
    if HasRecord st record.Id then (st, none)
    else
      match checkSignatures env resourceSignBytes payload.Signatures [] with
      | .error err => (st, some err)
      | .ok owners =>
        let record := { record with Owners := sortStrings owners }
        let (st, _, sdkErr) := processRecord env ctx st record false
        match sdkErr with
        | some err => (st, some err)
        | none => (st, none)

/-! ## Notions used to state the properties -/

/-- The record that `ProcessSetRecord` stores for a new id `cid` once the signature loop
has collected `owners`: the fields assigned in `ProcessSetRecord` and `processRecord`,
converted by `ToRecordObj`. -/
def freshRecord {B : Type} (env : Env B) (ctx : Ctx) (msg : MsgSetRecord) (cid : String)
    (owners : List String) : Record :=
  { Id := cid
    BondId := msg.BondId
    CreateTime := ctx.blockTime
    ExpiryTime := ctx.blockTime + ctx.params.RecordRentDuration
    Deleted := false
    Owners := sortStrings owners
    Attributes :=
      env.marshalMapToJSONBytes (env.unmarshalMapFromJSONBytes msg.Payload.Record.Attributes) }

/-- The state after the three index writes `processRecord` performs for a new record:
`PutRecord`, `InsertRecordExpiryQueue`, `AddBondToRecordIndexEntry`. -/
def freshState {B : Type} (env : Env B) (ctx : Ctx) (st : State B) (r : Record) : State B :=
  AddBondToRecordIndexEntry (InsertRecordExpiryQueue env (PutRecord env ctx st r) r) r.BondId r.Id

/-- One pass of the signature loop of `ProcessSetRecord` accepts the signature: the
public key decodes and the signature verifies over the sign bytes. -/
def signatureOK {B : Type} (env : Env B) (signBytes : Bytes) (sig : Signature) : Bool :=
  match env.pubKeyFromBytes (env.bytesFromBase64 sig.PubKey) with
  | none => false
  | some pubKey => env.verifySignature pubKey signBytes (env.bytesFromBase64 sig.Sig)

/-- The addresses derived from the public keys of a list of signatures, in the order of
the signatures (a key that does not decode contributes nothing). -/
def signerAddresses {B : Type} (env : Env B) (sigs : List Signature) : List String :=
  sigs.filterMap (fun sig =>
    (env.pubKeyFromBytes (env.bytesFromBase64 sig.PubKey)).map env.address)

/-- The states reachable from the empty store by calls of `ProcessSetRecord`; the
message, block header and parameters of each call are arbitrary. -/
inductive Reachable {B : Type} (env : Env B) : State B → Prop where
  | empty (b : B) : Reachable env ⟨[], b⟩
  | step (ctx : Ctx) (st : State B) (msg : MsgSetRecord) :
      Reachable env st → Reachable env (ProcessSetRecord env ctx st msg).1

/-- The id of record `r` is queued exactly once in the bucket of its expiry time and in
no other bucket of the record expiry queue. -/
def RecordQueued {B : Type} (env : Env B) (st : State B) (r : Record) : Prop :=
  (GetRecordExpiryQueueTimeSlice env st r.ExpiryTime).count r.Id = 1 ∧
  ∀ (k bz : Bytes) (ids : List String), k.head? = some 16 →
    k ≠ getRecordExpiryQueueTimeKey env r.ExpiryTime → st.store.get k = some bz →
    env.bytesArrToStringArr bz = some ids → r.Id ∉ ids

/-- The invariant linking the primary index and the record expiry queue: every entry
under prefix 0x00 is a record stored under its own id and, unless tombstoned, queued
exactly once; every id found in a bucket has a record. -/
structure ExpiryInv {B : Type} (env : Env B) (st : State B) : Prop where
  records : ∀ (k bz : Bytes), k.head? = some 0 → st.store.get k = some bz →
    ∃ r, env.unmarshalRecord bz = some r ∧ k = GetRecordIndexKey r.Id ∧
      (r.Deleted = false → RecordQueued env st r)
  buckets : ∀ (k bz : Bytes) (ids : List String), k.head? = some 16 →
    st.store.get k = some bz → env.bytesArrToStringArr bz = some ids →
    ∀ id ∈ ids, HasRecord st id = true

/-! ## A concrete instance of the parameters

A small instance of `Env`, used to run the keeper on concrete inputs: a
length-prefixed binary codec, a signature scheme in which the signature of a message
under a key is the key followed by the message, and a bond keeper that holds one
balance per bond id. -/

/-- The character codes of a string. -/
def codes (s : String) : Bytes :=
  s.data.map Char.toNat

/-- The string with the given character codes. -/
def ofCodes (l : Bytes) : String :=
  String.mk (l.map Char.ofNat)

/-- A block of bytes preceded by its length. -/
def writeBlock (b : Bytes) : Bytes :=
  b.length :: b

/-- Reads one length-prefixed block: the block and the rest of the input. -/
def readBlock : Bytes → Option (Bytes × Bytes)
  | [] => none
  | n :: rest => if n ≤ rest.length then some (rest.take n, rest.drop n) else none

/-- Reads `n` length-prefixed blocks. -/
def readBlocks : Nat → Bytes → Option (List Bytes × Bytes)
  | 0, bz => some ([], bz)
  | n + 1, bz =>
    match readBlock bz with
    | none => none
    | some (b, rest) =>
      match readBlocks n rest with
      | none => none
      | some (bs, rest') => some (b :: bs, rest')

/-- A list of strings: their number, then one block per string. -/
def writeStrings (xs : List String) : Bytes :=
  xs.length :: xs.flatMap (fun s => writeBlock (codes s))

/-- Reads a list of strings written by `writeStrings`. -/
def readStrings : Bytes → Option (List String × Bytes)
  | [] => none
  | n :: rest =>
    match readBlocks n rest with
    | none => none
    | some (bs, rest') => some (bs.map ofCodes, rest')

/-- An integer: a sign byte, then the absolute value. -/
def writeInt (i : Int) : Bytes :=
  [if i < 0 then 1 else 0, i.natAbs]

/-- Reads an integer written by `writeInt`. -/
def readInt : Bytes → Option (Int × Bytes)
  | s :: n :: rest => some (if s = 1 then -(n : Int) else (n : Int), rest)
  | _ => none

/-- The example record codec, encoding side. -/
def writeRecord (r : Record) : Bytes :=
  writeBlock (codes r.Id) ++ (writeBlock (codes r.BondId) ++ (writeInt r.CreateTime ++
    (writeInt r.ExpiryTime ++ ((if r.Deleted then 1 else 0) ::
      (writeStrings r.Owners ++ writeBlock r.Attributes)))))

/-- The example record codec, decoding side. -/
def readRecord (bz : Bytes) : Option Record :=
  match readBlock bz with
  | none => none
  | some (id, bz1) =>
  match readBlock bz1 with
  | none => none
  | some (bond, bz2) =>
  match readInt bz2 with
  | none => none
  | some (ct, bz3) =>
  match readInt bz3 with
  | none => none
  | some (et, bz4) =>
  match bz4 with
  | [] => none
  | d :: bz5 =>
  match readStrings bz5 with
  | none => none
  | some (owners, bz6) =>
  match readBlock bz6 with
  | some (attrs, []) =>
    some { Id := ofCodes id, BondId := ofCodes bond, CreateTime := ct, ExpiryTime := et,
           Deleted := decide (d = 1), Owners := owners, Attributes := attrs }
  | _ => none

/-- The example id-list decoder: the whole input must be one list of strings. -/
def readStringArr (bz : Bytes) : Option (List String) :=
  match readStrings bz with
  | some (xs, []) => some xs
  | _ => none

/-- The sum of the amounts of a list of coins. -/
def totalAmount (coins : List Coin) : Int :=
  (coins.map (fun c => c.amount)).sum

/-- The example bond keeper state: one balance per bond id. -/
abbrev Balances := List (String × Int)

/-- The balance of a bond (zero for an unknown bond). -/
def balanceOf (b : Balances) (bondId : String) : Int :=
  (b.lookup bondId).getD 0

/-- The example bond keeper: a transfer debits the bond by the total amount, and fails
without effect when the bond is unknown or its balance is too small. -/
def debitTransfer (b : Balances) (bondId : String) (_module : String) (coins : List Coin) :
    Balances × Option Error :=
  match b.lookup bondId with
  | none => (b, some ⟨ErrKind.invalidRequest, "Bond not found."⟩)
  | some bal =>
    if totalAmount coins ≤ bal then
      (b.map (fun p => if p.1 = bondId then (p.1, p.2 - totalAmount coins) else p), none)
    else (b, some ⟨ErrKind.insufficientFunds, "Insufficient bond balance."⟩)

/-- The example `sdk.NewCoins`: coins of amount zero are dropped. -/
def dropZeroCoins (coins : List Coin) : List Coin :=
  coins.filter (fun c => c.amount ≠ 0)

/-- The example instance of the parameters. -/
def exampleEnv : Env Balances where
  unmarshalMapFromJSONBytes := fun bz => [("data", Value.str (ofCodes bz))]
  marshalMapToJSONBytes := fun m =>
    match m with
    | [(_, Value.str s)] => codes s
    | _ => []
  getSignBytes := fun r =>
    match r.Attributes with
    | [(_, Value.str s)] => codes s
    | _ => []
  getCID := fun r =>
    match r.Attributes with
    | [(_, Value.str s)] => some ("Qm" ++ s)
    | _ => none
  bytesFromBase64 := codes
  pubKeyFromBytes := fun bz => if bz = [] then none else some bz
  verifySignature := fun pk m sig => decide (sig = pk ++ m)
  address := ofCodes
  marshalRecord := writeRecord
  unmarshalRecord := readRecord
  strArrToBytesArr := writeStrings
  bytesArrToStringArr := readStringArr
  formatTimeBytes := writeInt
  transferCoinsToModuleAccount := debitTransfer
  newCoins := dropZeroCoins
  recordRentModuleAccountName := "record_rent"
  appendRecordToChangeSet := fun old _ id => old.getD [] ++ writeBlock (codes id)

/-- Example context: block time 1000, height 7, rent of one unit for 500 time units. -/
def exampleCtx : Ctx :=
  { blockTime := 1000, blockHeight := 7,
    params := { RecordRent := ⟨"aphoton", 1⟩, RecordRentDuration := 500 } }

/-- Example state: empty store, one bond holding 10 units. -/
def exampleState : State Balances :=
  { store := [], bond := [("bond1", 10)] }

/-- Example message: attributes `a`, one signature by the key `K`. -/
def exampleMsg : MsgSetRecord :=
  { BondId := "bond1", Signer := "alice",
    Payload :=
      { Record := { Id := "", BondId := "", CreateTime := 0, ExpiryTime := 0, Deleted := false,
                    Owners := [], Attributes := codes "a" }
        Signatures := [⟨"K", "Ka"⟩] } }

/-- Example message: a valid signature by `K` followed by one that does not verify. -/
def exampleBadMsg : MsgSetRecord :=
  { exampleMsg with
    Payload := { exampleMsg.Payload with Signatures := [⟨"K", "Ka"⟩, ⟨"L", "Kb"⟩] } }

/-- Example message: two valid signatures made by the same key `K`. -/
def exampleDupMsg : MsgSetRecord :=
  { exampleMsg with
    Payload := { exampleMsg.Payload with Signatures := [⟨"K", "Ka"⟩, ⟨"K", "Ka"⟩] } }

/-- Example message: valid signatures by `K1` (address `K1`) and then by `K0`
(address `K0`, which sorts before `K1`). -/
def exampleTwoMsg : MsgSetRecord :=
  { exampleMsg with
    Payload := { exampleMsg.Payload with Signatures := [⟨"K1", "K1a"⟩, ⟨"K0", "K0a"⟩] } }

/-- Example state: empty store, one bond holding nothing. -/
def examplePoorState : State Balances :=
  { store := [], bond := [("bond1", 0)] }

/-! ## Time formatting

Modelled from the spec: `sdk.FormatTimeBytes`, which the source files do not contain.
The canonical time bytes are the UTC time in the SDK's sortable layout
`2006-01-02T15:04:05.000000000`, 29 ASCII bytes for a four-digit year. The calendar is
the proleptic Gregorian one, computed on years that start on the first of March. -/

/-- Nanoseconds in a day. -/
def nsPerDay : Int := 86400000000000

/-- Century (0..3) of a day within a 400-year cycle of March-based years; the last
century has one day more. -/
def century (doe : Int) : Int :=
  min (doe / 36524) 3

/-- Day within its century, 0..36524. -/
def centuryRem (doe : Int) : Int :=
  doe - 36524 * century doe

/-- Year (0..3) of a day within a 4-year cycle; the last year has one day more. -/
def yearInQuad (r4 : Int) : Int :=
  min (r4 / 365) 3

/-- Day within its March-based year, 0..365. -/
def dayOfYear (r4 : Int) : Int :=
  r4 - 365 * yearInQuad r4

/-- The March-based year of a day counted from 0000-03-01. -/
def marchYear (z : Int) : Int :=
  400 * (z / 146097) + 100 * century (z % 146097) +
    4 * (centuryRem (z % 146097) / 1461) + yearInQuad (centuryRem (z % 146097) % 1461)

/-- The day within the March-based year of a day counted from 0000-03-01. -/
def marchDay (z : Int) : Int :=
  dayOfYear (centuryRem (z % 146097) % 1461)

/-- Month index (0 = March, ..., 11 = February) of a day of a March-based year. -/
def monthIdx (doy : Int) : Int :=
  (5 * doy + 2) / 153

/-- Day of the month, 1..31, of a day of a March-based year. -/
def dayOfMonth (doy : Int) : Int :=
  doy - (153 * monthIdx doy + 2) / 5 + 1

/-- Calendar year of a day counted from 1970-01-01. -/
def civilYear (days : Int) : Int :=
  marchYear (days + 719468) + (if monthIdx (marchDay (days + 719468)) < 10 then 0 else 1)

/-- Calendar month, 1..12, of a day counted from 1970-01-01. -/
def civilMonth (days : Int) : Int :=
  if monthIdx (marchDay (days + 719468)) < 10 then monthIdx (marchDay (days + 719468)) + 3
  else monthIdx (marchDay (days + 719468)) - 9

/-- Day of the month of a day counted from 1970-01-01. -/
def civilDay (days : Int) : Int :=
  dayOfMonth (marchDay (days + 719468))

/-- The year of a time in UTC: Go's `t.UTC().Year()`. -/
def Time.Year (t : Time) : Int :=
  civilYear (t / nsPerDay)

/-- The last `w` decimal digits of `n` as ASCII bytes, most significant first. -/
def padDigits : Nat → Nat → Bytes
  | 0, _ => []
  | w + 1, n => padDigits w (n / 10) ++ [48 + n % 10]

/-- The decimal digits of `n` as ASCII bytes, without padding. -/
def decimalDigits (n : Nat) : Bytes :=
  (Nat.toDigits 10 n).map Char.toNat

/-- Go's `appendInt(b, x, width)` of package `time`: a minus sign for a negative
number, then the decimal digits, padded with zeros up to `width` digits. -/
def appendInt (x : Int) (width : Nat) : Bytes :=
  (if x < 0 then [45] else []) ++
    (if x.natAbs < 10 ^ width then padDigits width x.natAbs else decimalDigits x.natAbs)

/-- Modelled from the spec: `sdk.FormatTimeBytes`, which the source files do not
contain: the bytes of the time in UTC in the layout `2006-01-02T15:04:05.000000000`
(year, month, day, `T`, hour, minute, second, `.`, nine digits of nanoseconds); as in
Go's `time.Format`, a year outside 0000..9999 takes a sign or more than four digits. -/
def FormatTimeBytes (t : Time) : Bytes :=
  let days := t / nsPerDay
  let sec := t % nsPerDay / 1000000000
  let nsec := t % nsPerDay % 1000000000
  appendInt (civilYear days) 4 ++ 45 ::
    (padDigits 2 (civilMonth days).toNat ++ 45 ::
      (padDigits 2 (civilDay days).toNat ++ 84 ::
        (padDigits 2 (sec / 3600).toNat ++ 58 ::
          (padDigits 2 (sec / 60 % 60).toNat ++ 58 ::
            (padDigits 2 (sec % 60).toNat ++ 46 ::
              (padDigits 9 nsec.toNat ++ []))))))

/-- The example instance with the SDK's time formatter. -/
def sdkEnv : Env Balances :=
  { exampleEnv with formatTimeBytes := FormatTimeBytes }

/-! ## Queries (`grpc_query.go`) -/

/-- The loop of `Keeper.ListRecords` over the pairs of the iterator: the value of each
key is read from the store and, when not nil, decoded and appended; `none` is the panic
of `MustUnmarshal`. -/
def listRecordsLoop {B : Type} (env : Env B) (store : KVStore) :
    List (Bytes × Bytes) → List Record → Option (List Record)
  | [], records => some records
  | (key, _) :: rest, records =>
    match store.get key with
    | none => listRecordsLoop env store rest records
    | some bz =>
      match env.unmarshalRecord bz with
      | none => none
      | some obj => listRecordsLoop env store rest (records ++ [obj])

/-- Source: `Keeper.ListRecords`. -/
def ListRecords {B : Type} (env : Env B) (st : State B) : Option (List Record) :=
  listRecordsLoop env st.store (st.store.prefixIterator PrefixCIDToRecordIndex) []

/-- Source: `Querier.ListRecords`; the response carries the records of the keeper. -/
def Querier.ListRecords {B : Type} (env : Env B) (st : State B) :
    Option (Except Error (List Record)) :=
  (Nameservice.ListRecords env st).map Except.ok

/-- Source: `Querier.GetRecord`; `none` is a panic of the keeper. -/
def Querier.GetRecord {B : Type} (env : Env B) (st : State B) (id : String) :
    Option (Except Error Record) :=
  if !HasRecord st id then
    some (.error ⟨ErrKind.unknownRequest, "Record not found."⟩)
  else
    (Nameservice.GetRecord env st id).map Except.ok

/-- Example state: the store holds one record, `Qmt`, which is tombstoned. -/
def exampleTombstoneState : State Balances :=
  { store := [(GetRecordIndexKey "Qmt",
      writeRecord { Id := "Qmt", BondId := "bond1", CreateTime := 1000, ExpiryTime := 1500,
                    Deleted := true, Owners := ["K"], Attributes := [97] })]
    bond := [("bond1", 9)] }

/-! ## Messages (`types/msg.go`, `types/record_msg.go`) -/

/-- Go's `len(s)` of a string: its number of bytes. -/
def goLen (s : String) : Nat :=
  (stringBytes s).length

/-- The message `types.MsgSetName`. -/
structure MsgSetName where
  Wrn : String
  Cid : String
  Signer : String
  deriving DecidableEq, Repr

/-- The message `types.MsgReserveAuthority`. -/
structure MsgReserveAuthority where
  Name : String
  Owner : String
  Signer : String
  deriving DecidableEq, Repr

/-- The message `types.MsgSetAuthorityBond`. -/
structure MsgSetAuthorityBond where
  Name : String
  Signer : String
  BondId : String
  deriving DecidableEq, Repr

/-- The message `types.MsgDeleteNameAuthority`. -/
structure MsgDeleteNameAuthority where
  Wrn : String
  Signer : String
  deriving DecidableEq, Repr

/-- The message `types.MsgRenewRecord`. -/
structure MsgRenewRecord where
  RecordId : String
  Signer : String
  deriving DecidableEq, Repr

/-- The message `types.MsgAssociateBond`. -/
structure MsgAssociateBond where
  BondId : String
  RecordId : String
  Signer : String
  deriving DecidableEq, Repr

/-- The message `types.MsgDissociateBond`. -/
structure MsgDissociateBond where
  RecordId : String
  Signer : String
  deriving DecidableEq, Repr

/-- The message `types.MsgDissociateRecords`. -/
structure MsgDissociateRecords where
  BondId : String
  Signer : String
  deriving DecidableEq, Repr

/-- The message `types.MsgReAssociateRecords`. -/
structure MsgReAssociateRecords where
  OldBondId : String
  NewBondId : String
  Signer : String
  deriving DecidableEq, Repr

/-- Source: `MsgSetName.ValidateBasic`; `none` is Go's `nil` error. -/
def MsgSetName.ValidateBasic (msg : MsgSetName) : Option Error :=
  if msg.Wrn = "" then some ⟨ErrKind.invalidRequest, "WRN is required."⟩
  else if msg.Cid = "" then some ⟨ErrKind.invalidRequest, "CID is required."⟩
  else if goLen msg.Signer = 0 then some ⟨ErrKind.invalidAddress, "invalid signer"⟩
  else none

/-- Source: `MsgReserveAuthority.ValidateBasic`. -/
def MsgReserveAuthority.ValidateBasic (msg : MsgReserveAuthority) : Option Error :=
  if goLen msg.Name = 0 then some ⟨ErrKind.invalidRequest, "name is required."⟩
  else if goLen msg.Signer = 0 then some ⟨ErrKind.invalidAddress, "invalid signer"⟩
  else none

/-- Source: `MsgSetAuthorityBond.ValidateBasic`. -/
def MsgSetAuthorityBond.ValidateBasic (msg : MsgSetAuthorityBond) : Option Error :=
  if goLen msg.Name = 0 then some ⟨ErrKind.invalidRequest, "name is required."⟩
  else if goLen msg.Signer = 0 then some ⟨ErrKind.invalidAddress, "invalid signer."⟩
  else if goLen msg.BondId = 0 then some ⟨ErrKind.invalidAddress, "bond id is required."⟩
  else none

/-- Source: `MsgDeleteNameAuthority.ValidateBasic`; `urlParse w` tells whether the
library call `url.Parse(w)` returns no error. -/
def MsgDeleteNameAuthority.ValidateBasic (urlParse : String → Bool)
    (msg : MsgDeleteNameAuthority) : Option Error :=
  if goLen msg.Wrn = 0 then some ⟨ErrKind.invalidRequest, "wrn is required."⟩
  else if goLen msg.Signer = 0 then some ⟨ErrKind.invalidAddress, "invalid signer."⟩
  else if !urlParse msg.Wrn then some ⟨ErrKind.invalidRequest, "invalid wrn."⟩
  else none

/-- The loop over the owners in `MsgSetRecord.ValidateBasic`: the error of the first
owner that is the empty string. -/
def checkOwners : List String → Option Error
  | [] => none
  | owner :: rest =>
    if owner = "" then some ⟨ErrKind.invalidRequest, "Record owner not set."⟩
    else checkOwners rest

/-- Source: `MsgSetRecord.ValidateBasic`. -/
def MsgSetRecord.ValidateBasic (msg : MsgSetRecord) : Option Error :=
  if goLen msg.Signer = 0 then some ⟨ErrKind.invalidAddress, msg.Signer⟩
  else
    match checkOwners msg.Payload.Record.Owners with
    | some err => some err
    | none =>
      if goLen msg.BondId = 0 then some ⟨ErrKind.unauthorized, "Bond ID is required."⟩
      else none

/-- Source: `MsgRenewRecord.ValidateBasic`. -/
def MsgRenewRecord.ValidateBasic (msg : MsgRenewRecord) : Option Error :=
  if goLen msg.RecordId = 0 then some ⟨ErrKind.invalidRequest, "record id is required."⟩
  else if goLen msg.Signer = 0 then some ⟨ErrKind.invalidAddress, "invalid signer."⟩
  else none

/-- Source: `MsgAssociateBond.ValidateBasic`. -/
def MsgAssociateBond.ValidateBasic (msg : MsgAssociateBond) : Option Error :=
  if goLen msg.RecordId = 0 then some ⟨ErrKind.invalidRequest, "record id is required."⟩
  else if goLen msg.BondId = 0 then some ⟨ErrKind.invalidRequest, "bond id is required."⟩
  else if goLen msg.Signer = 0 then some ⟨ErrKind.invalidAddress, "invalid signer."⟩
  else none

/-- Source: `MsgDissociateBond.ValidateBasic`. -/
def MsgDissociateBond.ValidateBasic (msg : MsgDissociateBond) : Option Error :=
  if goLen msg.RecordId = 0 then some ⟨ErrKind.invalidRequest, "record id is required."⟩
  else if goLen msg.Signer = 0 then some ⟨ErrKind.invalidAddress, "invalid signer."⟩
  else none

/-- Source: `MsgDissociateRecords.ValidateBasic`. -/
def MsgDissociateRecords.ValidateBasic (msg : MsgDissociateRecords) : Option Error :=
  if goLen msg.BondId = 0 then some ⟨ErrKind.invalidRequest, "bond id is required."⟩
  else if goLen msg.Signer = 0 then some ⟨ErrKind.invalidAddress, "invalid signer."⟩
  else none

/-- Source: `MsgReAssociateRecords.ValidateBasic`. -/
def MsgReAssociateRecords.ValidateBasic (msg : MsgReAssociateRecords) : Option Error :=
  if goLen msg.OldBondId = 0 then some ⟨ErrKind.invalidRequest, "old-bond-id is required."⟩
  else if goLen msg.NewBondId = 0 then some ⟨ErrKind.invalidRequest, "new-bond-id is required."⟩
  else if goLen msg.Signer = 0 then some ⟨ErrKind.invalidAddress, "invalid signer."⟩
  else none

/-- Example record held by the keeper before a renewal. -/
def exampleRecordType : RecordType :=
  { Id := "Qma", BondId := "bond1", CreateTime := 10, ExpiryTime := 510, Deleted := false,
    Owners := ["K"], Attributes := [("data", Value.str "a")] }

/-- The kind of the error returned by a validation, if any. -/
def errKind (result : Option Error) : Option ErrKind :=
  result.map (fun e => e.kind)

/-! ## Presentation of attributes (`gql/util.go`) -/

/-- Go's type `string`, under a name that the field names of the GQL models leave free. -/
abbrev GoString := String

/-- Go's type `int`, as an unbounded integer. -/
abbrev GoInt := Int

namespace Gql

/-- The GQL model `Reference`: the id of the record a link points to. -/
structure Reference where
  ID : String
  deriving DecidableEq, Repr

/-- The GQL model `Value`: one optional field per kind of value (`nil` is `none`). -/
structure Value where
  Null : Option Bool
  Int : Option GoInt
  Float : Option Nat
  String : Option GoString
  Boolean : Option Bool
  JSON : Option GoString
  Reference : Option Reference
  deriving DecidableEq, Repr

/-- The GQL model `KeyValue`. -/
structure KeyValue where
  Key : String
  Value : Value
  deriving DecidableEq, Repr

/-- The value `&Value{}` with every field nil. -/
def emptyValue : Value :=
  { Null := none, Int := none, Float := none, String := none, Boolean := none,
    JSON := none, Reference := none }

/-- One pass of the loop of `mapToKeyValuePairs`: the pair built for `key` and `value`.
`jsonMarshal` is the library call `json.Marshal` followed by `string(bytes)`. -/
def keyValuePair (jsonMarshal : Nameservice.Value → Except Error String) (key : String)
    (value : Nameservice.Value) : Except Error KeyValue :=
  -- the type switch
  let afterSwitch : Except Error Value :=
    match value with
    | .null => .ok { emptyValue with Null := some true }
    | .int val => .ok { emptyValue with Int := some val }
    | .float val => .ok { emptyValue with Float := some val }
    | .str val => .ok { emptyValue with String := some val }
    | .bool val => .ok { emptyValue with Boolean := some val }
    | .obj obj =>
      if (obj.lookup "/").isSome && obj.length == 1 then
        match obj.lookup "/" with
        | some (.str s) => .ok { emptyValue with Reference := some ⟨s⟩ }
        | _ => .ok emptyValue
      else
        match jsonMarshal (.obj obj) with
        | .error err => .error err
        | .ok jsonStr => .ok { emptyValue with JSON := some jsonStr }
    | .list _ => .ok emptyValue
  match afterSwitch with
  | .error err => .error err
  | .ok v =>
    let v := if v.Null = none then { v with Null := some false } else v
    -- reflect.ValueOf(value).Kind() == reflect.Slice
    match value with
    | .list xs =>
      match jsonMarshal (.list xs) with
      | .error err => .error err
      | .ok jsonStr => .ok { Key := key, Value := { v with JSON := some jsonStr } }
    | _ => .ok { Key := key, Value := v }

/-- The loop of `mapToKeyValuePairs` over the entries of the map, in iteration order. -/
def keyValuePairs (jsonMarshal : Nameservice.Value → Except Error String) :
    List (String × Nameservice.Value) → List KeyValue → Except Error (List KeyValue)
  | [], kvPairs => .ok kvPairs
  | (key, value) :: rest, kvPairs =>
    match keyValuePair jsonMarshal key value with
    | .error err => .error err
    | .ok kvPair => keyValuePairs jsonMarshal rest (kvPairs ++ [kvPair])

/-- Source: `mapToKeyValuePairs`; the map is given as its entries in iteration order. -/
def mapToKeyValuePairs (jsonMarshal : Nameservice.Value → Except Error String)
    (attrs : AttrMap) : Except Error (List KeyValue) :=
  keyValuePairs jsonMarshal attrs []

/-- Example of `json.Marshal`: the encoding is not computed, only its kind is told. -/
def exampleJsonMarshal : Nameservice.Value → Except Error String
  | .obj _ => .ok "{...}"
  | .list _ => .ok "[...]"
  | _ => .ok "..."

end Gql

/-- Reading of one entry of `mapToKeyValuePairs`: the pair carries the key of the map
entry; a link `{"/": s}` is presented as a reference to `s` and as nothing else; a value
of any other shape carries no reference. -/
def PresentsLink (entry : String × Value) (kv : Gql.KeyValue) : Prop :=
  kv.Key = entry.1 ∧
  (∀ s : String, entry.2 = Value.obj [("/", Value.str s)] →
    kv.Value.Reference = some ⟨s⟩ ∧ kv.Value.Int = none ∧ kv.Value.Float = none ∧
    kv.Value.String = none ∧ kv.Value.Boolean = none ∧ kv.Value.JSON = none) ∧
  ((∀ s : String, entry.2 ≠ Value.obj [("/", Value.str s)]) → kv.Value.Reference = none)

/-- Example attribute map with a link, primitives, a list and other objects. -/
def exampleAttrs : AttrMap :=
  [("link", Value.obj [("/", Value.str "Qmx")]), ("n", Value.int 3),
   ("odd", Value.obj [("/", Value.int 1)]), ("list", Value.list [Value.str "a"]),
   ("obj", Value.obj [("x", Value.null)]), ("none", Value.null), ("s", Value.str "Qmx")]

/-! ## Presentation of records (`gql/util.go`) -/

/-- Modelled from the spec: `Record.ToRecordType`, which the source files do not contain;
the in-memory record carries the same id, bond, times, tombstone and owners and the
attribute map decoded from the JSON bytes. -/
def Record.ToRecordType {B : Type} (env : Env B) (r : Nameservice.Record) : RecordType :=
  { Id := r.Id
    BondId := r.BondId
    CreateTime := r.CreateTime
    ExpiryTime := r.ExpiryTime
    Deleted := r.Deleted
    Owners := r.Owners
    Attributes := env.unmarshalMapFromJSONBytes r.Attributes }

/-- The GQL model `Record`: id, bond id, create and expiry time as text, owners,
attributes and references (`[]*Record`, a nil pointer being `none`). -/
inductive GqlRecord where
  | mk (ID : String) (BondID : String) (CreateTime : String) (ExpiryTime : String)
      (Owners : List String) (Attributes : List Gql.KeyValue)
      (References : List (Option GqlRecord))

/-- Field `ID` of the GQL record. -/
def GqlRecord.ID : GqlRecord → String
  | .mk id _ _ _ _ _ _ => id

/-- Field `BondID` of the GQL record. -/
def GqlRecord.BondID : GqlRecord → String
  | .mk _ bondID _ _ _ _ _ => bondID

/-- Field `CreateTime` of the GQL record. -/
def GqlRecord.CreateTime : GqlRecord → String
  | .mk _ _ createTime _ _ _ _ => createTime

/-- Field `ExpiryTime` of the GQL record. -/
def GqlRecord.ExpiryTime : GqlRecord → String
  | .mk _ _ _ expiryTime _ _ _ => expiryTime

/-- Field `Owners` of the GQL record. -/
def GqlRecord.Owners : GqlRecord → List String
  | .mk _ _ _ _ owners _ _ => owners

/-- Field `Attributes` of the GQL record. -/
def GqlRecord.Attributes : GqlRecord → List Gql.KeyValue
  | .mk _ _ _ _ _ attributes _ => attributes

/-- Field `References` of the GQL record. -/
def GqlRecord.References : GqlRecord → List (Option GqlRecord)
  | .mk _ _ _ _ _ _ references => references

/-- The code `gql/util.go` calls but does not define; `Q` is the state of the query
resolver, so that a call of the resolver shows in the state returned. -/
structure Presenter (Q : Type) where
  /-- The library call `json.Marshal` followed by `string(bytes)`. -/
  jsonMarshal : Value → Except Error String
  /-- The resolver method `GetRecordsByIds(ctx, ids)`. -/
  getRecordsByIds : Q → List String → Q × Except Error (List (Option GqlRecord))
  /-- The method `time.Time.String`. -/
  timeString : Time → String

/-- The loop of `getReferences` over the attribute values: the ids collected so far,
extended by the target of each value that is a one-key map `{"/": string}`. -/
def collectReferenceIds : List (String × Value) → List String → List String
  | [], ids => ids
  | (_, value) :: rest, ids =>
    match value with
    | .obj obj =>
      if (obj.lookup "/").isSome && obj.length == 1 then
        match obj.lookup "/" with
        | some (.str s) => collectReferenceIds rest (ids ++ [s])
        | _ => collectReferenceIds rest ids
      else collectReferenceIds rest ids
    | _ => collectReferenceIds rest ids

/-- Source: `getReferences`. Returns the resolver after the call with its result. -/
def getReferences {Q : Type} (p : Presenter Q) (resolver : Q) (r : RecordType) :
    Q × Except Error (List (Option GqlRecord)) :=
  p.getRecordsByIds resolver (collectReferenceIds r.Attributes [])

/-- Source: `getAttributes`. -/
def getAttributes {Q : Type} (p : Presenter Q) (r : RecordType) :
    Except Error (List Gql.KeyValue) :=
  Gql.mapToKeyValuePairs p.jsonMarshal r.Attributes

/-- Source: `getGQLRecord`; `.ok none` is the result `nil, nil`. -/
def getGQLRecord {B Q : Type} (env : Env B) (p : Presenter Q) (resolver : Q)
    (record : Nameservice.Record) : Q × Except Error (Option GqlRecord) :=
  if record.Deleted then (resolver, .ok none)
  else
    let recordType := record.ToRecordType env
    match getAttributes p recordType with
    | .error err => (resolver, .error err)
    | .ok attributes =>
      match getReferences p resolver recordType with
      | (resolver, .error err) => (resolver, .error err)
      | (resolver, .ok references) =>
        (resolver, .ok (some (GqlRecord.mk record.Id record.BondId
          (p.timeString record.CreateTime) (p.timeString record.ExpiryTime)
          record.Owners attributes references)))

/-- The link targets of the top-level values of an attribute map, in the order of the
entries: one id per value that is the one-key object `{"/": s}` with `s` a string. -/
def linkTargets (attrs : AttrMap) : List String :=
  attrs.filterMap (fun entry =>
    match entry.2 with
    | .obj [("/", .str s)] => some s
    | _ => none)

/-- The model `bondtypes.Bond`. -/
structure Bond where
  Id : String
  Owner : String
  Balance : List Coin
  deriving DecidableEq, Repr

/-- The GQL model `ValueInput`, with the field the bond filter reads
(`*string`, nil being `none`). -/
structure ValueInput where
  String : Option GoString
  deriving DecidableEq, Repr

/-- The GQL model `KeyValueInput`. -/
structure KeyValueInput where
  Key : String
  Value : ValueInput
  deriving DecidableEq, Repr

/-- The owner attribute name for a bond. -/
def OwnerAttributeName : String := "owner"

/-- Source: `matchBondOnAttributes`. -/
def matchBondOnAttributes (bondObj : Bond) : List KeyValueInput → Bool
  | [] => true
  | attr :: rest =>
    if attr.Key = OwnerAttributeName then
      match attr.Value.String with
      | none => false
      | some s => if bondObj.Owner ≠ s then false else matchBondOnAttributes bondObj rest
    else
      -- only attributes explicitly listed in the switch are queryable
      false

/-- Example presenter: a resolver that counts its calls and finds no record. -/
def examplePresenter : Presenter Nat where
  jsonMarshal := Gql.exampleJsonMarshal
  getRecordsByIds := fun calls ids => (calls + 1, .ok (ids.map (fun _ => none)))
  timeString := fun t => ofCodes (FormatTimeBytes t)

/-- Example stored record whose attributes are the bytes `a`. -/
def exampleStoredRecord : Nameservice.Record :=
  { Id := "Qma", BondId := "bond1", CreateTime := 1000, ExpiryTime := 1500, Deleted := false,
    Owners := ["K"], Attributes := [97] }

/-- The attributes of the example stored record as the GQL query presents them. -/
def exampleKeyValues : List Gql.KeyValue :=
  [{ Key := "data"
     Value := { Null := some false, Int := none, Float := none, String := some "a",
                Boolean := none, JSON := none, Reference := none } }]

/-! ## The expiry queue query and the module balances (`keeper.go`) -/

/-- The message `types.ExpiryQueueRecord`; `Id` is the Go string made of the bytes of
the key after the prefix, kept as these bytes. -/
structure ExpiryQueueRecord where
  Id : Bytes
  Value : List String
  deriving DecidableEq, Repr

/-- The loop of `Keeper.GetRecordExpiryQueue` over the pairs of the iterator; a value
that does not decode ends the loop with the entries found so far. -/
def expiryQueueLoop {B : Type} (env : Env B) :
    List (Bytes × Bytes) → List ExpiryQueueRecord → List ExpiryQueueRecord
  | [], records => records
  | (key, value) :: rest, records =>
    match env.bytesArrToStringArr value with
    | none => records
    | some record =>
      expiryQueueLoop env rest
        (records ++ [{ Id := key.drop PrefixExpiryTimeToRecordsIndex.length, Value := record }])

/-- Source: `Keeper.GetRecordExpiryQueue`. -/
def GetRecordExpiryQueue {B : Type} (env : Env B) (st : State B) : List ExpiryQueueRecord :=
  expiryQueueLoop env (st.store.prefixIterator PrefixExpiryTimeToRecordsIndex) []

/-- Example record with the given id and expiry time. -/
def exampleQueuedRecord (id : String) (expiryTime : Time) : Nameservice.Record :=
  { Id := id, BondId := "bond1", CreateTime := 0, ExpiryTime := expiryTime, Deleted := false,
    Owners := [], Attributes := [] }

/-- Example state with the SDK's time formatter: `QmLate`, expiring at
2020-09-13T12:26:40.123456789Z, is queued before `QmEarly`, expiring at
1970-01-01T00:00:00Z. -/
def exampleQueueState : State Balances :=
  InsertRecordExpiryQueue sdkEnv
    (InsertRecordExpiryQueue sdkEnv exampleState
      (exampleQueuedRecord "QmLate" 1600000000123456789))
    (exampleQueuedRecord "QmEarly" 0)

/-- Example state with the SDK's time formatter: `QmEarly` expires at
9999-12-31T23:59:59Z and `QmLate` one second later, at 10000-01-01T00:00:00Z. -/
def exampleLateState : State Balances :=
  InsertRecordExpiryQueue sdkEnv
    (InsertRecordExpiryQueue sdkEnv exampleState
      (exampleQueuedRecord "QmEarly" 253402300799000000000))
    (exampleQueuedRecord "QmLate" 253402300800000000000)

/-- The keys of a store are in strictly ascending order, as in every store built from
the empty store by `Set` and `Delete`. -/
def KVStore.WF (s : KVStore) : Prop :=
  (s.map Prod.fst).Sorted (fun a b => a < b)

instance KVStore.decidableWF (s : KVStore) : Decidable s.WF :=
  inferInstanceAs (Decidable ((s.map Prod.fst).Sorted (fun a b => a < b)))

/-- The message `types.AccountBalance`. -/
structure AccountBalance where
  AccountName : String
  Balance : List Coin
  deriving DecidableEq, Repr

/-- The account and bank keepers as `GetModuleBalances` reads them in one state;
`A` is the type of addresses. -/
structure AccountKeepers (A : Type) where
  /-- The call `accountKeeper.GetModuleAddress(name)`. -/
  getModuleAddress : String → A
  /-- Whether `accountKeeper.GetAccount(ctx, address)` is not nil. -/
  hasAccount : A → Bool
  /-- The call `bankKeeper.GetAllBalances(ctx, address)`. -/
  getAllBalances : A → List Coin
  /-- The constant `types.RecordRentModuleAccountName`. -/
  RecordRentModuleAccountName : String
  /-- The constant `types.AuthorityRentModuleAccountName`. -/
  AuthorityRentModuleAccountName : String

/-- The loop of `Keeper.GetModuleBalances` over the account names. -/
def moduleBalancesLoop {A : Type} (k : AccountKeepers A) :
    List String → List AccountBalance → List AccountBalance
  | [], balances => balances
  | accountName :: rest, balances =>
    let moduleAddress := k.getModuleAddress accountName
    if k.hasAccount moduleAddress then
      let accountBalance := k.getAllBalances moduleAddress
      moduleBalancesLoop k rest
        (balances ++ [{ AccountName := accountName, Balance := accountBalance }])
    else moduleBalancesLoop k rest balances

/-- Source: `Keeper.GetModuleBalances`. -/
def GetModuleBalances {A : Type} (k : AccountKeepers A) : List AccountBalance :=
  moduleBalancesLoop k [k.RecordRentModuleAccountName, k.AuthorityRentModuleAccountName] []

/-- Example keepers: only the record-rent module account exists, holding one unit. -/
def exampleKeepers : AccountKeepers String where
  getModuleAddress := fun name => "addr-" ++ name
  hasAccount := fun a => decide (a = "addr-record_rent")
  getAllBalances := fun a => if a = "addr-record_rent" then [⟨"aphoton", 1⟩] else []
  RecordRentModuleAccountName := "record_rent"
  AuthorityRentModuleAccountName := "authority_rent"

/-- Example message: the attributes `a` and no signature. -/
def exampleUnsignedMsg : MsgSetRecord :=
  { exampleMsg with
    Signer := "mallory"
    Payload := { exampleMsg.Payload with Signatures := [] } }

/-! ## The auction message server (`x/auction/keeper/msg_server.go`) -/

/-- An event as `sdk.NewEvent(type, attributes...)` builds it; `EventType` is the
field `Type`. -/
structure Event where
  EventType : String
  Attributes : List (String × String)
  deriving DecidableEq, Repr

/-- The message `types.MsgCreateAuction`, with the fields the handler reads. -/
structure MsgCreateAuction where
  CommitsDuration : Duration
  RevealsDuration : Duration
  CommitFee : Coin
  RevealFee : Coin
  MinimumBid : Coin
  Signer : String
  deriving DecidableEq, Repr

/-- The message `types.MsgCommitBid`. -/
structure MsgCommitBid where
  AuctionId : String
  CommitHash : String
  Signer : String
  deriving DecidableEq, Repr

/-- The message `types.MsgRevealBid`. -/
structure MsgRevealBid where
  AuctionId : String
  Reveal : String
  Signer : String
  deriving DecidableEq, Repr

/-- The code the auction message server calls but does not define: the keeper, the
address codec, the text of durations and coins, and the event constants. `S` is the
keeper state, `Addr` the type of addresses, `Auction` and `Bid` what the keeper
returns. -/
structure AuctionEnv (S Addr Auction Bid : Type) where
  /-- The library call `sdk.AccAddressFromBech32`. -/
  accAddressFromBech32 : String → Except Error Addr
  /-- The method `sdk.AccAddress.String`. -/
  addressString : Addr → String
  /-- The keeper method `Keeper.CreateAuction(ctx, msg)`. -/
  keeperCreateAuction : S → MsgCreateAuction → S × Except Error Auction
  /-- The keeper method `Keeper.CommitBid(ctx, msg)`. -/
  keeperCommitBid : S → MsgCommitBid → S × Except Error Bid
  /-- The keeper method `Keeper.RevealBid(ctx, msg)`. -/
  keeperRevealBid : S → MsgRevealBid → S × Except Error Auction
  /-- The method `time.Duration.String`. -/
  durationString : Duration → String
  /-- The method `sdk.Coin.String`. -/
  coinString : Coin → String
  EventTypeCreateAuction : String
  EventTypeCommitBid : String
  EventTypeRevealBid : String
  /-- The constant `sdk.EventTypeMessage`. -/
  EventTypeMessage : String
  /-- The constant `sdk.AttributeKeyModule`. -/
  AttributeKeyModule : String
  AttributeValueCategory : String
  AttributeKeySigner : String
  AttributeKeyAuctionID : String
  AttributeKeyCommitsDuration : String
  AttributeKeyCommitFee : String
  AttributeKeyRevealFee : String
  AttributeKeyMinimumBid : String
  AttributeKeyCommitHash : String
  AttributeKeyReveal : String

/-- The message event every handler of the auction message server emits. -/
def messageEvent {S Addr Auction Bid : Type} (env : AuctionEnv S Addr Auction Bid)
    (signerAddress : Addr) : Event :=
  { EventType := env.EventTypeMessage
    Attributes := [(env.AttributeKeyModule, env.AttributeValueCategory),
                   (env.AttributeKeySigner, env.addressString signerAddress)] }

/-- Source: `msgServer.CreateAuction`. Returns the keeper state, the events emitted and
the response (the auction the keeper returned) or the error. -/
def msgServer.CreateAuction {S Addr Auction Bid : Type} (env : AuctionEnv S Addr Auction Bid)
    (s : S) (msg : MsgCreateAuction) : S × List Event × Except Error Auction :=
  match env.accAddressFromBech32 msg.Signer with
  | .error err => (s, [], .error err)
  | .ok signerAddress =>
    match env.keeperCreateAuction s msg with
    | (s, .error err) => (s, [], .error err)
    | (s, .ok resp) =>
      (s,
       [{ EventType := env.EventTypeCreateAuction
          Attributes :=
            [(env.AttributeKeyCommitsDuration, env.durationString msg.CommitsDuration),
             (env.AttributeKeyCommitFee, env.coinString msg.CommitFee),
             (env.AttributeKeyRevealFee, env.coinString msg.RevealFee),
             (env.AttributeKeyMinimumBid, env.coinString msg.MinimumBid)] },
        messageEvent env signerAddress],
       .ok resp)

/-- Source: `msgServer.CommitBid`. -/
def msgServer.CommitBid {S Addr Auction Bid : Type} (env : AuctionEnv S Addr Auction Bid)
    (s : S) (msg : MsgCommitBid) : S × List Event × Except Error Bid :=
  match env.accAddressFromBech32 msg.Signer with
  | .error err => (s, [], .error err)
  | .ok signerAddress =>
    match env.keeperCommitBid s msg with
    | (s, .error err) => (s, [], .error err)
    | (s, .ok resp) =>
      (s,
       [{ EventType := env.EventTypeCommitBid
          Attributes := [(env.AttributeKeyAuctionID, msg.AuctionId),
                         (env.AttributeKeyCommitHash, msg.CommitHash)] },
        messageEvent env signerAddress],
       .ok resp)

/-- Source: `msgServer.RevealBid`. -/
def msgServer.RevealBid {S Addr Auction Bid : Type} (env : AuctionEnv S Addr Auction Bid)
    (s : S) (msg : MsgRevealBid) : S × List Event × Except Error Auction :=
  match env.accAddressFromBech32 msg.Signer with
  | .error err => (s, [], .error err)
  | .ok signerAddress =>
    match env.keeperRevealBid s msg with
    | (s, .error err) => (s, [], .error err)
    | (s, .ok resp) =>
      (s,
       [{ EventType := env.EventTypeRevealBid
          Attributes := [(env.AttributeKeyAuctionID, msg.AuctionId),
                         (env.AttributeKeyReveal, msg.Reveal)] },
        messageEvent env signerAddress],
       .ok resp)

/-! ### The address codec of the example: bech32 -/

/-- The bech32 character set, as character codes; the value of a character is its
position in the set. -/
def bech32Charset : Bytes := codes "qpzry9x8gf2tvdw0s3jn54khce6mua7l"

/-- The checksum polynomial of bech32 over a list of 5-bit values. -/
def bech32Polymod (values : List Nat) : Nat :=
  values.foldl (fun chk v =>
    let b := chk >>> 25
    let chk := ((chk &&& 0x1ffffff) <<< 5) ^^^ v
    let chk := if b &&& 1 = 1 then chk ^^^ 0x3b6a57b2 else chk
    let chk := if (b >>> 1) &&& 1 = 1 then chk ^^^ 0x26508e6d else chk
    let chk := if (b >>> 2) &&& 1 = 1 then chk ^^^ 0x1ea119fa else chk
    let chk := if (b >>> 3) &&& 1 = 1 then chk ^^^ 0x3d4233dd else chk
    if (b >>> 4) &&& 1 = 1 then chk ^^^ 0x2a1462b3 else chk) 1

/-- The human-readable part as it enters the checksum. -/
def bech32HrpExpand (hrp : Bytes) : List Nat :=
  hrp.map (fun c => c >>> 5) ++ [0] ++ hrp.map (fun c => c &&& 31)

/-- The six 5-bit values of the checksum of `hrp` and `data`. -/
def bech32Checksum (hrp : Bytes) (data : List Nat) : List Nat :=
  let pm := bech32Polymod (bech32HrpExpand hrp ++ data ++ [0, 0, 0, 0, 0, 0]) ^^^ 1
  [25, 20, 15, 10, 5, 0].map (fun shift => (pm >>> shift) &&& 31)

/-- The inner loop of `ConvertBits`: while at least `toBits` bits are held, the top
`toBits` of them are appended to the output. Returns the number of bits left and the
output. -/
def drainBits (toBits : Nat) : Nat → Nat → Nat → List Nat → Nat × List Nat
  | 0, _, bits, out => (bits, out)
  | fuel + 1, acc, bits, out =>
    if toBits ≤ bits then
      drainBits toBits fuel acc (bits - toBits)
        (out ++ [(acc >>> (bits - toBits)) &&& (2 ^ toBits - 1)])
    else (bits, out)

/-- The library call `bech32.ConvertBits(data, fromBits, toBits, pad)`; without padding
the conversion fails when a whole input group or a non-zero bit is left over. -/
def convertBits (data : List Nat) (fromBits toBits : Nat) (pad : Bool) : Option (List Nat) :=
  let final := data.foldl (fun (state : Nat × Nat × List Nat) v =>
    let acc := (state.1 <<< fromBits) ||| v
    let drained := drainBits toBits (state.2.1 + fromBits) acc (state.2.1 + fromBits) state.2.2
    (acc, drained.1, drained.2)) (0, 0, [])
  let acc := final.1
  let bits := final.2.1
  let out := final.2.2
  let last := (acc <<< (toBits - bits)) &&& (2 ^ toBits - 1)
  if pad then some (if 0 < bits then out ++ [last] else out)
  else if fromBits ≤ bits ∨ last ≠ 0 then none
  else some out

/-- The position of the last occurrence of a byte, as `strings.LastIndexByte`. -/
def lastIndexByte : Bytes → Nat → Option Nat
  | [], _ => none
  | c :: rest, b =>
    match lastIndexByte rest b with
    | some i => some (i + 1)
    | none => if c = b then some 0 else none

/-- The position of the first occurrence of a byte. -/
def indexByte : Bytes → Nat → Option Nat
  | [], _ => none
  | c :: rest, b => if c = b then some 0 else (indexByte rest b).map (fun i => i + 1)

/-- The 5-bit values of the characters of the data part, if all are in the set. -/
def bech32Values : Bytes → Option (List Nat)
  | [] => some []
  | c :: rest =>
    match indexByte bech32Charset c, bech32Values rest with
    | some v, some vs => some (v :: vs)
    | _, _ => none

/-- The library call `bech32.Decode`: the human-readable part and the 5-bit data without
the checksum, for a string of 8 to 1023 printable characters that is not of mixed case,
has a separator `1` after a non-empty human-readable part and before at least six
characters of the set, and whose checksum verifies. -/
def bech32Decode (bech : String) : Option (Bytes × List Nat) :=
  let cs := codes bech
  if cs.length < 8 ∨ 1023 < cs.length then none
  else if cs.any (fun c => c < 33 ∨ 126 < c) then none
  else
    let lower := cs.map (fun c => if 65 ≤ c ∧ c ≤ 90 then c + 32 else c)
    let upper := cs.map (fun c => if 97 ≤ c ∧ c ≤ 122 then c - 32 else c)
    if cs ≠ lower ∧ cs ≠ upper then none
    else
      match lastIndexByte lower 49 with
      | none => none
      | some one =>
        if one < 1 ∨ lower.length < one + 7 then none
        else
          let hrp := lower.take one
          match bech32Values (lower.drop (one + 1)) with
          | none => none
          | some decoded =>
            if bech32Polymod (bech32HrpExpand hrp ++ decoded) = 1 then
              some (hrp, decoded.take (decoded.length - 6))
            else none

/-- The library call `bech32.ConvertAndEncode(hrp, bz)`. -/
def bech32ConvertAndEncode (hrp : Bytes) (bz : Bytes) : String :=
  match convertBits bz 8 5 true with
  | none => ""
  | some data =>
    ofCodes (hrp ++ [49] ++
      (data ++ bech32Checksum hrp data).map (fun v => bech32Charset.getD v 0))

/-- The library call `sdk.AccAddressFromBech32` for the account address part `hrp` of
the configuration: the address is not blank, decodes as bech32 with the human-readable
part `hrp`, and its bytes, converted from 5-bit to 8-bit groups without padding, are
between 1 and 255. The cases of failure are those of the library; the text of its
errors is not reproduced. -/
def accAddressFromBech32 (hrp : String) (address : String) : Except Error Bytes :=
  if (codes address).all (fun c => c = 32 ∨ (9 ≤ c ∧ c ≤ 13) ∨ c = 0x85 ∨ c = 0xA0 ∨
      c = 0x1680 ∨ (0x2000 ≤ c ∧ c ≤ 0x200A) ∨ c = 0x2028 ∨ c = 0x2029 ∨ c = 0x202F ∨
      c = 0x205F ∨ c = 0x3000) then
    .error ⟨ErrKind.other, "empty address string is not allowed"⟩
  else
    match bech32Decode address with
    | none => .error ⟨ErrKind.other, "decoding bech32 failed"⟩
    | some (got, data) =>
      match convertBits data 5 8 false with
      | none => .error ⟨ErrKind.other, "decoding bech32 failed"⟩
      | some bz =>
        if got ≠ codes hrp then .error ⟨ErrKind.other, "invalid Bech32 prefix"⟩
        else if bz.length = 0 then
          .error ⟨ErrKind.invalidAddress, "addresses cannot be empty"⟩
        else if 255 < bz.length then
          .error ⟨ErrKind.invalidAddress, "address max length is 255"⟩
        else .ok bz

/-- The method `sdk.AccAddress.String` for the account address part `hrp`. -/
def accAddressString (hrp : String) (bz : Bytes) : String :=
  if bz.length = 0 then "" else bech32ConvertAndEncode (codes hrp) bz

/-- Example auction environment for the account address part `hrp` (`ethm` in the
application, `cosmos` where the configuration is left at the SDK default): addresses
are bech32; the keeper state is the list of the ids of the auctions created, an
auction is its id, a bid is the pair of auction id and bidder; the keeper names the
next auction after the number of auctions it holds. -/
def exampleAuctionEnv (hrp : String) :
    AuctionEnv (List String) Bytes String (String × String) where
  accAddressFromBech32 := accAddressFromBech32 hrp
  addressString := accAddressString hrp
  keeperCreateAuction := fun s _ =>
    (s ++ [ofCodes (codes "auction" ++ [48 + s.length])],
     .ok (ofCodes (codes "auction" ++ [48 + s.length])))
  keeperCommitBid := fun s msg =>
    if msg.AuctionId ∈ s then (s, .ok (msg.AuctionId, msg.Signer))
    else (s, .error ⟨ErrKind.invalidRequest, "Auction not found."⟩)
  keeperRevealBid := fun s msg =>
    if msg.AuctionId ∈ s then (s, .ok msg.AuctionId)
    else (s, .error ⟨ErrKind.invalidRequest, "Auction not found."⟩)
  durationString := fun d => ofCodes (appendInt d 1) ++ "ns"
  coinString := fun c => ofCodes (appendInt c.amount 1) ++ c.denom
  EventTypeCreateAuction := "create-auction"
  EventTypeCommitBid := "commit-bid"
  EventTypeRevealBid := "reveal-bid"
  EventTypeMessage := "message"
  AttributeKeyModule := "module"
  AttributeValueCategory := "auction"
  AttributeKeySigner := "signer"
  AttributeKeyAuctionID := "auction-id"
  AttributeKeyCommitsDuration := "commits-duration"
  AttributeKeyCommitFee := "commit-fee"
  AttributeKeyRevealFee := "reveal-fee"
  AttributeKeyMinimumBid := "minimum-bid"
  AttributeKeyCommitHash := "commit-hash"
  AttributeKeyReveal := "reveal"

/-- Example message creating an auction, signed by `signer`. -/
def exampleCreateAuction (signer : String) : MsgCreateAuction :=
  { CommitsDuration := 60, RevealsDuration := 60, CommitFee := ⟨"aphoton", 1⟩,
    RevealFee := ⟨"aphoton", 2⟩, MinimumBid := ⟨"aphoton", 5⟩, Signer := signer }

/-! # Lemmas on the store and on the successful path -/

theorem KVStore.get_set_self (s : KVStore) (k v : Bytes) : (KVStore.set s k v).get k = some v := by
  induction s with
  | nil => simp [KVStore.set, KVStore.get, List.lookup]
  | cons p rest ih =>
    obtain ⟨k', v'⟩ := p
    unfold KVStore.set
    by_cases h1 : k = k'
    · simp [h1, KVStore.get, List.lookup]
    · by_cases h2 : k < k'
      · simp [h1, h2, KVStore.get, List.lookup]
      · simp only [h1, h2, if_false]
        simp only [KVStore.get] at ih ⊢
        rw [List.lookup_cons]
        have : (k == k') = false := by simpa using h1
        simp [this, ih]

theorem KVStore.get_set_of_ne (s : KVStore) (k k' v : Bytes) (h : k' ≠ k) :
    (KVStore.set s k v).get k' = s.get k' := by
  induction s with
  | nil =>
    have : (k' == k) = false := by simpa using h
    simp [KVStore.set, KVStore.get, List.lookup, this]
  | cons p rest ih =>
    obtain ⟨k0, v0⟩ := p
    have hne : (k' == k) = false := by simpa using h
    unfold KVStore.set
    by_cases h1 : k = k0
    · subst h1
      simp [KVStore.get, List.lookup_cons, hne]
    · by_cases h2 : k < k0
      · simp [h1, h2, KVStore.get, List.lookup_cons, hne]
      · simp only [h1, h2, if_false]
        simp only [KVStore.get] at ih ⊢
        rw [List.lookup_cons, List.lookup_cons, ih]

theorem processRecord_of_transfer_ok {B : Type} (env : Env B) (ctx : Ctx) (st : State B)
    (record : RecordType) (b' : B)
    (htr : env.transferCoinsToModuleAccount st.bond record.BondId env.recordRentModuleAccountName
        (env.newCoins [ctx.params.RecordRent]) = (b', none)) :
    (processRecord env ctx st record false).1 =
        freshState env ctx ⟨st.store, b'⟩
          (RecordType.ToRecordObj env
            { Id := record.Id, BondId := record.BondId, CreateTime := ctx.blockTime
              ExpiryTime := ctx.blockTime + ctx.params.RecordRentDuration, Deleted := false
              Owners := record.Owners, Attributes := record.Attributes }) ∧
      (processRecord env ctx st record false).2.2 = none := by
  unfold processRecord
  simp only [htr, and_true]
  rfl

theorem processRecord_of_transfer_err {B : Type} (env : Env B) (ctx : Ctx) (st : State B)
    (record : RecordType) (isRenewal : Bool) (b' : B) (e : Error)
    (htr : env.transferCoinsToModuleAccount st.bond record.BondId env.recordRentModuleAccountName
        (env.newCoins [ctx.params.RecordRent]) = (b', some e)) :
    processRecord env ctx st record isRenewal = (⟨st.store, b'⟩, record, some e) := by
  unfold processRecord
  simp only [htr]

theorem ProcessSetRecord_fresh {B : Type} (env : Env B) (ctx : Ctx) (st : State B)
    (msg : MsgSetRecord) (cid : String) (owners : List String)
    (hcid : env.getCID (msgRecord env msg) = some cid)
    (hfresh : HasRecord st cid = false)
    (hs : checkSignatures env (env.getSignBytes (msgRecord env msg)) msg.Payload.Signatures []
        = .ok owners) :
    ProcessSetRecord env ctx st msg =
      ((processRecord env ctx st { msgRecord env msg with Id := cid, Owners := sortStrings owners }
          false).1,
       (processRecord env ctx st { msgRecord env msg with Id := cid, Owners := sortStrings owners }
          false).2.2) := by
  have hs' : checkSignatures env (env.getSignBytes (msgRecord env msg))
      (Payload.ToReadablePayload env msg.Payload).Signatures [] = .ok owners := hs
  unfold ProcessSetRecord
  simp only [hcid, hfresh, hs']
  cases h : (processRecord env ctx st
      { msgRecord env msg with Id := cid, Owners := sortStrings owners } false).2.2 <;>
    simp [h]

theorem ProcessSetRecord_fresh_ok {B : Type} (env : Env B) (ctx : Ctx) (st : State B)
    (msg : MsgSetRecord) (cid : String)
    (hcid : env.getCID (msgRecord env msg) = some cid)
    (hfresh : HasRecord st cid = false)
    (hok : (ProcessSetRecord env ctx st msg).2 = none) :
    ∃ owners b',
      checkSignatures env (env.getSignBytes (msgRecord env msg)) msg.Payload.Signatures []
        = .ok owners ∧
      env.transferCoinsToModuleAccount st.bond msg.BondId env.recordRentModuleAccountName
        (env.newCoins [ctx.params.RecordRent]) = (b', none) ∧
      ProcessSetRecord env ctx st msg =
        (freshState env ctx ⟨st.store, b'⟩ (freshRecord env ctx msg cid owners), none) := by
  cases hs : checkSignatures env (env.getSignBytes (msgRecord env msg)) msg.Payload.Signatures [] with
  | error e =>
    have hs' : checkSignatures env (env.getSignBytes (msgRecord env msg))
      (Payload.ToReadablePayload env msg.Payload).Signatures [] = .error e := hs
    unfold ProcessSetRecord at hok
    simp [hcid, hfresh, hs'] at hok
  | ok owners =>
    refine ⟨owners, ?_⟩
    rw [ProcessSetRecord_fresh env ctx st msg cid owners hcid hfresh hs] at hok ⊢
    rcases htr : env.transferCoinsToModuleAccount st.bond msg.BondId env.recordRentModuleAccountName
        (env.newCoins [ctx.params.RecordRent]) with ⟨b', e⟩
    cases e with
    | some e =>
      rw [processRecord_of_transfer_err env ctx st _ false b' e htr] at hok
      simp at hok
    | none =>
      refine ⟨b', rfl, rfl, ?_⟩
      have h := processRecord_of_transfer_ok env ctx st
        { msgRecord env msg with Id := cid, Owners := sortStrings owners } b' htr
      rw [h.1, h.2]
      rfl

theorem key_ne_of_head {k k' : Bytes} (h : k.head? ≠ k'.head?) : k ≠ k' := by
  intro e; exact h (by rw [e])

theorem head_GetRecordIndexKey (id : String) : (GetRecordIndexKey id).head? = some 0 := rfl

theorem head_getBondIDToRecordsIndexKey (b id : String) :
    (getBondIDToRecordsIndexKey b id).head? = some 3 := rfl

theorem head_getBlockChangesetIndexKey (h : Int) :
    (getBlockChangesetIndexKey h).head? = some 4 := rfl

theorem head_getRecordExpiryQueueTimeKey {B : Type} (env : Env B) (t : Time) :
    (getRecordExpiryQueueTimeKey env t).head? = some 16 := rfl

theorem KVStore.has_set_of_has (s : KVStore) (k k' v : Bytes) (h : s.has k' = true) :
    (KVStore.set s k v).has k' = true := by
  unfold KVStore.has at h ⊢
  by_cases e : k' = k
  · subst e; rw [KVStore.get_set_self]; rfl
  · rw [KVStore.get_set_of_ne _ _ _ _ e]; exact h

theorem freshState_bond {B : Type} (env : Env B) (ctx : Ctx) (st : State B) (r : Record) :
    (freshState env ctx st r).bond = st.bond := rfl

theorem freshState_get_head0 {B : Type} (env : Env B) (ctx : Ctx) (st : State B) (r : Record)
    (k : Bytes) (hk : k.head? = some 0) :
    (freshState env ctx st r).store.get k =
      if k = GetRecordIndexKey r.Id then some (env.marshalRecord r) else st.store.get k := by
  have h3 : k ≠ getBondIDToRecordsIndexKey r.BondId r.Id :=
    key_ne_of_head (by rw [hk, head_getBondIDToRecordsIndexKey]; decide)
  have h16 : k ≠ getRecordExpiryQueueTimeKey env r.ExpiryTime :=
    key_ne_of_head (by rw [hk, head_getRecordExpiryQueueTimeKey]; decide)
  have h4 : k ≠ getBlockChangesetIndexKey ctx.blockHeight :=
    key_ne_of_head (by rw [hk, head_getBlockChangesetIndexKey]; decide)
  simp only [freshState, AddBondToRecordIndexEntry, InsertRecordExpiryQueue,
    SetRecordExpiryQueueTimeSlice, PutRecord, updateBlockChangeSetForRecord]
  rw [KVStore.get_set_of_ne _ _ _ _ h3, KVStore.get_set_of_ne _ _ _ _ h16,
    KVStore.get_set_of_ne _ _ _ _ h4]
  by_cases e : k = GetRecordIndexKey r.Id
  · rw [if_pos e, e, KVStore.get_set_self]
  · rw [if_neg e, KVStore.get_set_of_ne _ _ _ _ e]

theorem freshState_slice_before {B : Type} (env : Env B) (ctx : Ctx) (st : State B) (r : Record)
    (t : Time) :
    GetRecordExpiryQueueTimeSlice env (PutRecord env ctx st r) t =
      GetRecordExpiryQueueTimeSlice env st t := by
  have h4 : getRecordExpiryQueueTimeKey env t ≠ getBlockChangesetIndexKey ctx.blockHeight :=
    key_ne_of_head (by rw [head_getRecordExpiryQueueTimeKey, head_getBlockChangesetIndexKey]; decide)
  have h0 : getRecordExpiryQueueTimeKey env t ≠ GetRecordIndexKey r.Id :=
    key_ne_of_head (by rw [head_getRecordExpiryQueueTimeKey, head_GetRecordIndexKey]; decide)
  simp only [GetRecordExpiryQueueTimeSlice, PutRecord, updateBlockChangeSetForRecord]
  rw [KVStore.get_set_of_ne _ _ _ _ h4, KVStore.get_set_of_ne _ _ _ _ h0]

theorem freshState_get_head16 {B : Type} (env : Env B) (ctx : Ctx) (st : State B) (r : Record)
    (k : Bytes) (hk : k.head? = some 16) :
    (freshState env ctx st r).store.get k =
      if k = getRecordExpiryQueueTimeKey env r.ExpiryTime then
        some (env.strArrToBytesArr (GetRecordExpiryQueueTimeSlice env st r.ExpiryTime ++ [r.Id]))
      else st.store.get k := by
  have h3 : k ≠ getBondIDToRecordsIndexKey r.BondId r.Id :=
    key_ne_of_head (by rw [hk, head_getBondIDToRecordsIndexKey]; decide)
  have h0 : k ≠ GetRecordIndexKey r.Id :=
    key_ne_of_head (by rw [hk, head_GetRecordIndexKey]; decide)
  have h4 : k ≠ getBlockChangesetIndexKey ctx.blockHeight :=
    key_ne_of_head (by rw [hk, head_getBlockChangesetIndexKey]; decide)
  have hsl := freshState_slice_before env ctx st r r.ExpiryTime
  simp only [freshState, AddBondToRecordIndexEntry, InsertRecordExpiryQueue,
    SetRecordExpiryQueueTimeSlice]
  rw [KVStore.get_set_of_ne _ _ _ _ h3, hsl]
  by_cases e : k = getRecordExpiryQueueTimeKey env r.ExpiryTime
  · rw [if_pos e, e, KVStore.get_set_self]
  · rw [if_neg e, KVStore.get_set_of_ne _ _ _ _ e]
    simp only [PutRecord, updateBlockChangeSetForRecord]
    rw [KVStore.get_set_of_ne _ _ _ _ h4, KVStore.get_set_of_ne _ _ _ _ h0]

theorem freshState_get_head3 {B : Type} (env : Env B) (ctx : Ctx) (st : State B) (r : Record)
    (k : Bytes) (hk : k.head? = some 3) :
    (freshState env ctx st r).store.get k =
      if k = getBondIDToRecordsIndexKey r.BondId r.Id then some [] else st.store.get k := by
  have h16 : k ≠ getRecordExpiryQueueTimeKey env r.ExpiryTime :=
    key_ne_of_head (by rw [hk, head_getRecordExpiryQueueTimeKey]; decide)
  have h0 : k ≠ GetRecordIndexKey r.Id :=
    key_ne_of_head (by rw [hk, head_GetRecordIndexKey]; decide)
  have h4 : k ≠ getBlockChangesetIndexKey ctx.blockHeight :=
    key_ne_of_head (by rw [hk, head_getBlockChangesetIndexKey]; decide)
  simp only [freshState, AddBondToRecordIndexEntry, InsertRecordExpiryQueue,
    SetRecordExpiryQueueTimeSlice, PutRecord, updateBlockChangeSetForRecord]
  by_cases e : k = getBondIDToRecordsIndexKey r.BondId r.Id
  · rw [if_pos e, e, KVStore.get_set_self]
  · rw [if_neg e, KVStore.get_set_of_ne _ _ _ _ e, KVStore.get_set_of_ne _ _ _ _ h16,
      KVStore.get_set_of_ne _ _ _ _ h4, KVStore.get_set_of_ne _ _ _ _ h0]

theorem freshState_has_mono {B : Type} (env : Env B) (ctx : Ctx) (st : State B) (r : Record)
    (k : Bytes) (h : st.store.has k = true) : (freshState env ctx st r).store.has k = true := by
  simp only [freshState, AddBondToRecordIndexEntry, InsertRecordExpiryQueue,
    SetRecordExpiryQueueTimeSlice, PutRecord, updateBlockChangeSetForRecord]
  exact KVStore.has_set_of_has _ _ _ _ (KVStore.has_set_of_has _ _ _ _
    (KVStore.has_set_of_has _ _ _ _ (KVStore.has_set_of_has _ _ _ _ h)))

/-! ### The signature loop -/

theorem checkSignatures_of_bad {B : Type} (env : Env B) (sb : Bytes) (sigs : List Signature)
    (acc : List String) (h : ∃ sig ∈ sigs, signatureOK env sb sig = false) :
    ∃ err, checkSignatures env sb sigs acc = .error err ∧ err.kind = ErrKind.unauthorized := by
  induction sigs generalizing acc with
  | nil => obtain ⟨sig, hmem, _⟩ := h; cases hmem
  | cons s rest ih =>
    unfold checkSignatures
    cases hp : env.pubKeyFromBytes (env.bytesFromBase64 s.PubKey) with
    | none => exact ⟨_, rfl, rfl⟩
    | some pk =>
      cases hv : env.verifySignature pk sb (env.bytesFromBase64 s.Sig) with
      | false => exact ⟨⟨ErrKind.unauthorized, "Invalid signature."⟩, by simp [hv], rfl⟩
      | true =>
        obtain ⟨sig, hmem, hbad⟩ := h
        rcases List.mem_cons.mp hmem with e | hmem'
        · subst e
          simp [signatureOK, hp, hv] at hbad
        · simpa [hv] using ih (acc ++ [env.address pk]) ⟨sig, hmem', hbad⟩

theorem checkSignatures_of_ok {B : Type} (env : Env B) (sb : Bytes) (sigs : List Signature)
    (acc : List String) (h : ∀ sig ∈ sigs, signatureOK env sb sig = true) :
    checkSignatures env sb sigs acc = .ok (acc ++ signerAddresses env sigs) := by
  induction sigs generalizing acc with
  | nil => simp [checkSignatures, signerAddresses]
  | cons s rest ih =>
    have hs := h s (List.mem_cons_self _ _)
    unfold checkSignatures
    cases hp : env.pubKeyFromBytes (env.bytesFromBase64 s.PubKey) with
    | none => simp [signatureOK, hp] at hs
    | some pk =>
      have hv : env.verifySignature pk sb (env.bytesFromBase64 s.Sig) = true := by
        simpa [signatureOK, hp] using hs
      have := ih (acc ++ [env.address pk]) (fun sig hm => h sig (List.mem_cons_of_mem _ hm))
      simp [hv, this, signerAddresses, hp, List.filterMap_cons]

theorem checkSignatures_ok_iff {B : Type} (env : Env B) (sb : Bytes) (sigs : List Signature)
    (owners : List String) (h : checkSignatures env sb sigs [] = .ok owners) :
    (∀ sig ∈ sigs, signatureOK env sb sig = true) ∧ owners = signerAddresses env sigs := by
  by_cases hall : ∀ sig ∈ sigs, signatureOK env sb sig = true
  · refine ⟨hall, ?_⟩
    rw [checkSignatures_of_ok env sb sigs [] hall] at h
    simpa using (Except.ok.inj h).symm
  · exfalso
    have hbad : ∃ sig ∈ sigs, signatureOK env sb sig = false := by
      by_contra hne
      apply hall
      intro sig hm
      cases hx : signatureOK env sb sig with
      | true => rfl
      | false => exact absurd ⟨sig, hm, hx⟩ hne
    obtain ⟨err, he, _⟩ := checkSignatures_of_bad env sb sigs [] hbad
    rw [he] at h
    cases h

/-! ### The outcomes of `ProcessSetRecord` -/

theorem ProcessSetRecord_of_has {B : Type} (env : Env B) (ctx : Ctx) (st : State B)
    (msg : MsgSetRecord) (cid : String)
    (hcid : env.getCID (msgRecord env msg) = some cid)
    (hex : HasRecord st cid = true) :
    ProcessSetRecord env ctx st msg = (st, none) := by
  unfold ProcessSetRecord
  simp only [hcid, hex, if_true]

theorem HasRecord_freshState {B : Type} (env : Env B) (ctx : Ctx) (st : State B) (r : Record) :
    HasRecord (freshState env ctx st r) r.Id = true := by
  unfold HasRecord KVStore.has
  rw [freshState_get_head0 env ctx st r _ (head_GetRecordIndexKey _), if_pos rfl]
  rfl

theorem ProcessSetRecord_sig_error {B : Type} (env : Env B) (ctx : Ctx) (st : State B)
    (msg : MsgSetRecord) (cid : String) (err : Error)
    (hcid : env.getCID (msgRecord env msg) = some cid)
    (hfresh : HasRecord st cid = false)
    (hs : checkSignatures env (env.getSignBytes (msgRecord env msg)) msg.Payload.Signatures []
        = .error err) :
    ProcessSetRecord env ctx st msg = (st, some err) := by
  have hs' : checkSignatures env (env.getSignBytes (msgRecord env msg))
      (Payload.ToReadablePayload env msg.Payload).Signatures [] = .error err := hs
  unfold ProcessSetRecord
  simp [hcid, hfresh, hs']

theorem ProcessSetRecord_transfer_error {B : Type} (env : Env B) (ctx : Ctx) (st : State B)
    (msg : MsgSetRecord) (cid : String) (owners : List String) (b' : B) (e : Error)
    (hcid : env.getCID (msgRecord env msg) = some cid)
    (hfresh : HasRecord st cid = false)
    (hs : checkSignatures env (env.getSignBytes (msgRecord env msg)) msg.Payload.Signatures []
        = .ok owners)
    (htr : env.transferCoinsToModuleAccount st.bond msg.BondId env.recordRentModuleAccountName
        (env.newCoins [ctx.params.RecordRent]) = (b', some e)) :
    ProcessSetRecord env ctx st msg = (⟨st.store, b'⟩, some e) := by
  rw [ProcessSetRecord_fresh env ctx st msg cid owners hcid hfresh hs,
    processRecord_of_transfer_err env ctx st _ false b' e htr]

/-- The second of two identical calls is a no-op when the first succeeded. -/
theorem ProcessSetRecord_again {B : Type} (env : Env B) (ctx ctx' : Ctx) (st : State B)
    (msg : MsgSetRecord) (cid : String)
    (hcid : env.getCID (msgRecord env msg) = some cid)
    (hok : (ProcessSetRecord env ctx st msg).2 = none) :
    ProcessSetRecord env ctx' (ProcessSetRecord env ctx st msg).1 msg =
      ((ProcessSetRecord env ctx st msg).1, none) := by
  cases hex : HasRecord st cid with
  | true =>
    rw [ProcessSetRecord_of_has env ctx st msg cid hcid hex]
    exact ProcessSetRecord_of_has env ctx' st msg cid hcid hex
  | false =>
    obtain ⟨owners, b', _, _, heq⟩ := ProcessSetRecord_fresh_ok env ctx st msg cid hcid hex hok
    rw [heq]
    apply ProcessSetRecord_of_has env ctx' _ msg cid hcid
    exact HasRecord_freshState env ctx ⟨st.store, b'⟩ (freshRecord env ctx msg cid owners)

/-- With a bond keeper whose failed transfers change nothing, two identical calls under
the same block header leave the state of one call. -/
theorem ProcessSetRecord_twice {B : Type} (env : Env B) (ctx : Ctx) (st : State B)
    (msg : MsgSetRecord)
    (hfail : ∀ (b : B) (bondId m : String) (coins : List Coin) (e : Error),
      (env.transferCoinsToModuleAccount b bondId m coins).2 = some e →
      (env.transferCoinsToModuleAccount b bondId m coins).1 = b) :
    (ProcessSetRecord env ctx (ProcessSetRecord env ctx st msg).1 msg).1 =
      (ProcessSetRecord env ctx st msg).1 := by
  cases hcid : env.getCID (msgRecord env msg) with
  | none =>
    have h : ProcessSetRecord env ctx st msg =
        (st, some ⟨ErrKind.invalidRequest, "Invalid record JSON"⟩) := by
      unfold ProcessSetRecord; simp [hcid]
    rw [h, h]
  | some cid =>
    cases hr : (ProcessSetRecord env ctx st msg).2 with
    | none => rw [ProcessSetRecord_again env ctx ctx st msg cid hcid hr]
    | some err =>
      have hfresh : HasRecord st cid = false := by
        cases hex : HasRecord st cid with
        | false => rfl
        | true => rw [ProcessSetRecord_of_has env ctx st msg cid hcid hex] at hr; cases hr
      cases hs : checkSignatures env (env.getSignBytes (msgRecord env msg))
          msg.Payload.Signatures [] with
      | error e =>
        have h := ProcessSetRecord_sig_error env ctx st msg cid e hcid hfresh hs
        rw [h, h]
      | ok owners =>
        rcases htr : env.transferCoinsToModuleAccount st.bond msg.BondId
          env.recordRentModuleAccountName (env.newCoins [ctx.params.RecordRent]) with ⟨b', e⟩
        cases e with
        | none =>
          have h := (processRecord_of_transfer_ok env ctx st
            { msgRecord env msg with Id := cid, Owners := sortStrings owners } b' htr).2
          rw [ProcessSetRecord_fresh env ctx st msg cid owners hcid hfresh hs] at hr
          rw [h] at hr
          cases hr
        | some e =>
          have hb : b' = st.bond := by
            have := hfail st.bond msg.BondId env.recordRentModuleAccountName
              (env.newCoins [ctx.params.RecordRent]) e (by rw [htr])
            rw [htr] at this
            exact this
          subst hb
          have h := ProcessSetRecord_transfer_error env ctx st msg cid owners _ e hcid hfresh
            hs htr
          have hst : (⟨st.store, st.bond⟩ : State B) = st := rfl
          rw [hst] at h
          rw [h, h]

/-! ## Properties of `ProcessSetRecord` -/

/-- C1: when the CID of the message's record computes and is already in the record index,
`ProcessSetRecord` succeeds and returns the state it was given (store and bond keeper
untouched, whatever the signatures and bond id); a successful call followed by the same
message is a no-op, and with a bond keeper whose failed transfers change nothing two
identical calls always leave the state of one. -/
theorem ProcessSetRecord_idempotent {B : Type} (env : Env B) (ctx ctx' : Ctx) (st : State B)
    (msg : MsgSetRecord) (cid : String)
    (hcid : env.getCID (msgRecord env msg) = some cid) :
    (HasRecord st cid = true → ProcessSetRecord env ctx st msg = (st, none)) ∧
    ((ProcessSetRecord env ctx st msg).2 = none →
      ProcessSetRecord env ctx' (ProcessSetRecord env ctx st msg).1 msg =
        ((ProcessSetRecord env ctx st msg).1, none)) ∧
    ((∀ (b : B) (bondId m : String) (coins : List Coin) (e : Error),
        (env.transferCoinsToModuleAccount b bondId m coins).2 = some e →
        (env.transferCoinsToModuleAccount b bondId m coins).1 = b) →
      (ProcessSetRecord env ctx (ProcessSetRecord env ctx st msg).1 msg).1 =
        (ProcessSetRecord env ctx st msg).1) :=
  ⟨fun hex => ProcessSetRecord_of_has env ctx st msg cid hcid hex,
   fun hok => ProcessSetRecord_again env ctx ctx' st msg cid hcid hok,
   fun hfail => ProcessSetRecord_twice env ctx st msg hfail⟩

/-- Witness of C1 on the example instance: the record `Qma` is created by a first call and
the second call returns the same state. -/
theorem ProcessSetRecord_idempotent_witness :
    exampleEnv.getCID (msgRecord exampleEnv exampleMsg) = some "Qma" ∧
    (ProcessSetRecord exampleEnv exampleCtx exampleState exampleMsg).2 = none ∧
    ProcessSetRecord exampleEnv exampleCtx
        (ProcessSetRecord exampleEnv exampleCtx exampleState exampleMsg).1 exampleMsg =
      ((ProcessSetRecord exampleEnv exampleCtx exampleState exampleMsg).1, none) :=
  ⟨rfl, rfl,
   (ProcessSetRecord_idempotent exampleEnv exampleCtx exampleCtx exampleState exampleMsg "Qma"
      rfl).2.1 rfl⟩

/-- C2: a successful `ProcessSetRecord` of a record whose id was not stored writes, under
the record's key in the primary index, the encoding of a record with `CreateTime = now`,
`ExpiryTime = now + RecordRentDuration`, `Deleted = false`, `Id` the computed CID and
`BondId` the message's bond id; when the codec decodes that encoding, `GetRecord`
returns this record. -/
theorem ProcessSetRecord_stored_fields {B : Type} (env : Env B) (ctx : Ctx) (st : State B)
    (msg : MsgSetRecord) (cid : String)
    (hcid : env.getCID (msgRecord env msg) = some cid)
    (hfresh : HasRecord st cid = false)
    (hok : (ProcessSetRecord env ctx st msg).2 = none) :
    ∃ R : Record,
      (ProcessSetRecord env ctx st msg).1.store.get (GetRecordIndexKey cid)
        = some (env.marshalRecord R) ∧
      R.CreateTime = ctx.blockTime ∧
      R.ExpiryTime = ctx.blockTime + ctx.params.RecordRentDuration ∧
      R.Deleted = false ∧
      R.Id = cid ∧
      R.BondId = msg.BondId ∧
      (env.unmarshalRecord (env.marshalRecord R) = some R →
        GetRecord env (ProcessSetRecord env ctx st msg).1 cid = some R) := by
  obtain ⟨owners, b', _, _, heq⟩ := ProcessSetRecord_fresh_ok env ctx st msg cid hcid hfresh hok
  have hget : (ProcessSetRecord env ctx st msg).1.store.get (GetRecordIndexKey cid)
      = some (env.marshalRecord (freshRecord env ctx msg cid owners)) := by
    rw [heq]
    have := freshState_get_head0 env ctx ⟨st.store, b'⟩ (freshRecord env ctx msg cid owners)
      (GetRecordIndexKey cid) (head_GetRecordIndexKey _)
    rw [this]
    exact if_pos rfl
  refine ⟨freshRecord env ctx msg cid owners, hget, rfl, rfl, rfl, rfl, rfl, ?_⟩
  intro hrt
  unfold GetRecord
  rw [hget]
  exact hrt

/-- Witness of C2 on the example instance (block time 1000, rent duration 500). -/
theorem ProcessSetRecord_stored_fields_witness :
    exampleEnv.getCID (msgRecord exampleEnv exampleMsg) = some "Qma" ∧
    HasRecord exampleState "Qma" = false ∧
    (ProcessSetRecord exampleEnv exampleCtx exampleState exampleMsg).2 = none ∧
    ∃ R : Record,
      (ProcessSetRecord exampleEnv exampleCtx exampleState exampleMsg).1.store.get
        (GetRecordIndexKey "Qma") = some (exampleEnv.marshalRecord R) ∧
      R.CreateTime = exampleCtx.blockTime ∧
      R.ExpiryTime = exampleCtx.blockTime + exampleCtx.params.RecordRentDuration ∧
      R.Deleted = false ∧
      R.Id = "Qma" ∧
      R.BondId = exampleMsg.BondId ∧
      (exampleEnv.unmarshalRecord (exampleEnv.marshalRecord R) = some R →
        GetRecord exampleEnv (ProcessSetRecord exampleEnv exampleCtx exampleState exampleMsg).1
          "Qma" = some R) :=
  ⟨rfl, rfl, rfl,
   ProcessSetRecord_stored_fields exampleEnv exampleCtx exampleState exampleMsg "Qma"
     rfl rfl rfl⟩

/-- C3: a successful `ProcessSetRecord` of a not-yet-stored record leaves the bond keeper
in the state produced by one call of `TransferCoinsToModuleAccount` on the initial state,
from the message's bond to the record-rent module account, for the coins
`sdk.NewCoins(RecordRent)`; for any balance function that a successful transfer lowers
by the transferred amount, and `NewCoins` keeping the single rent coin, the balance of
the bond afterwards is the balance before minus the rent. -/
theorem ProcessSetRecord_rent_transfer {B : Type} (env : Env B) (ctx : Ctx) (st : State B)
    (msg : MsgSetRecord) (cid : String)
    (hcid : env.getCID (msgRecord env msg) = some cid)
    (hfresh : HasRecord st cid = false)
    (hok : (ProcessSetRecord env ctx st msg).2 = none) :
    env.transferCoinsToModuleAccount st.bond msg.BondId env.recordRentModuleAccountName
        (env.newCoins [ctx.params.RecordRent])
      = ((ProcessSetRecord env ctx st msg).1.bond, none) ∧
    ∀ balance : B → String → Int,
      (∀ (b b' : B) (bondId m : String) (coins : List Coin),
        env.transferCoinsToModuleAccount b bondId m coins = (b', none) →
        balance b' bondId = balance b bondId - totalAmount coins) →
      env.newCoins [ctx.params.RecordRent] = [ctx.params.RecordRent] →
      balance (ProcessSetRecord env ctx st msg).1.bond msg.BondId =
        balance st.bond msg.BondId - ctx.params.RecordRent.amount := by
  obtain ⟨owners, b', _, htr, heq⟩ := ProcessSetRecord_fresh_ok env ctx st msg cid hcid hfresh hok
  have hb : (ProcessSetRecord env ctx st msg).1.bond = b' := by rw [heq]; rfl
  rw [hb]
  refine ⟨htr, ?_⟩
  intro balance hdebit hcoins
  have := hdebit st.bond b' msg.BondId env.recordRentModuleAccountName _ htr
  rw [this, hcoins]
  simp [totalAmount]

theorem lookup_map_debit (b : Balances) (bondId : String) (d : Int) :
    (b.map (fun p => if p.1 = bondId then (p.1, p.2 - d) else p)).lookup bondId =
      (b.lookup bondId).map (fun v => v - d) := by
  induction b with
  | nil => rfl
  | cons p rest ih =>
    obtain ⟨k, v⟩ := p
    rw [List.map_cons]
    by_cases hk : k = bondId
    · subst hk
      rw [if_pos rfl, List.lookup_cons, List.lookup_cons]
      simp
    · have hk' : (bondId == k) = false := by
        simpa using (fun e : bondId = k => hk e.symm)
      rw [if_neg hk, List.lookup_cons, List.lookup_cons, hk', ih]

theorem debitTransfer_balance (b b' : Balances) (bondId m : String) (coins : List Coin)
    (h : debitTransfer b bondId m coins = (b', none)) :
    balanceOf b' bondId = balanceOf b bondId - totalAmount coins := by
  unfold debitTransfer at h
  cases hl : b.lookup bondId with
  | none => simp [hl] at h
  | some bal =>
    simp only [hl] at h
    by_cases hle : totalAmount coins ≤ bal
    · simp only [hle, if_true] at h
      have hb := (Prod.mk.inj h).1
      subst hb
      unfold balanceOf
      rw [lookup_map_debit, hl]
      rfl
    · simp [hle] at h

/-- Witness of C3 on the example instance: the bond holds 10 units, the rent is 1 unit,
and the balance after the call is 9. -/
theorem ProcessSetRecord_rent_transfer_witness :
    exampleEnv.getCID (msgRecord exampleEnv exampleMsg) = some "Qma" ∧
    HasRecord exampleState "Qma" = false ∧
    (ProcessSetRecord exampleEnv exampleCtx exampleState exampleMsg).2 = none ∧
    balanceOf exampleState.bond "bond1" = 10 ∧
    exampleCtx.params.RecordRent.amount = 1 ∧
    balanceOf (ProcessSetRecord exampleEnv exampleCtx exampleState exampleMsg).1.bond "bond1"
      = balanceOf exampleState.bond "bond1" - exampleCtx.params.RecordRent.amount ∧
    balanceOf (ProcessSetRecord exampleEnv exampleCtx exampleState exampleMsg).1.bond "bond1"
      = 9 :=
  ⟨rfl, rfl, rfl, rfl, rfl,
   (ProcessSetRecord_rent_transfer exampleEnv exampleCtx exampleState exampleMsg "Qma"
     rfl rfl rfl).2 balanceOf debitTransfer_balance rfl,
   rfl⟩

theorem GetRecordExpiryQueueTimeSlice_freshState {B : Type} (env : Env B) (ctx : Ctx)
    (st : State B) (r : Record)
    (hids : ∀ ids, env.bytesArrToStringArr (env.strArrToBytesArr ids) = some ids) :
    GetRecordExpiryQueueTimeSlice env (freshState env ctx st r) r.ExpiryTime =
      GetRecordExpiryQueueTimeSlice env st r.ExpiryTime ++ [r.Id] := by
  have h := freshState_get_head16 env ctx st r (getRecordExpiryQueueTimeKey env r.ExpiryTime)
    (head_getRecordExpiryQueueTimeKey env _)
  rw [if_pos rfl] at h
  conv_lhs => unfold GetRecordExpiryQueueTimeSlice
  rw [h]
  simp only [hids]

/-- C4: after a successful `ProcessSetRecord` of a not-yet-stored record the three indexes
hold the stored record `R`: `HasRecord(R.Id)` is true, the bond index has the key of
`(R.BondId, R.Id)` with an empty value, and the expiry bucket keyed at `R.ExpiryTime` is
the encoding of the previous time slice with `R.Id` appended, so that the time slice read
back contains `R.Id` when the id-list codec round-trips. -/
theorem ProcessSetRecord_indexes {B : Type} (env : Env B) (ctx : Ctx) (st : State B)
    (msg : MsgSetRecord) (cid : String)
    (hcid : env.getCID (msgRecord env msg) = some cid)
    (hfresh : HasRecord st cid = false)
    (hok : (ProcessSetRecord env ctx st msg).2 = none) :
    ∃ R : Record,
      (ProcessSetRecord env ctx st msg).1.store.get (GetRecordIndexKey cid)
        = some (env.marshalRecord R) ∧
      R.Id = cid ∧
      HasRecord (ProcessSetRecord env ctx st msg).1 R.Id = true ∧
      (ProcessSetRecord env ctx st msg).1.store.get (getBondIDToRecordsIndexKey R.BondId R.Id)
        = some [] ∧
      (ProcessSetRecord env ctx st msg).1.store.get (getRecordExpiryQueueTimeKey env R.ExpiryTime)
        = some (env.strArrToBytesArr
            (GetRecordExpiryQueueTimeSlice env st R.ExpiryTime ++ [R.Id])) ∧
      ((∀ ids, env.bytesArrToStringArr (env.strArrToBytesArr ids) = some ids) →
        R.Id ∈ GetRecordExpiryQueueTimeSlice env (ProcessSetRecord env ctx st msg).1
          R.ExpiryTime) := by
  obtain ⟨owners, b', _, _, heq⟩ := ProcessSetRecord_fresh_ok env ctx st msg cid hcid hfresh hok
  rw [heq]
  refine ⟨freshRecord env ctx msg cid owners, ?_, rfl, ?_, ?_, ?_, ?_⟩
  · rw [freshState_get_head0 env ctx ⟨st.store, b'⟩ _ _ (head_GetRecordIndexKey _)]
    exact if_pos rfl
  · exact HasRecord_freshState env ctx ⟨st.store, b'⟩ _
  · rw [freshState_get_head3 env ctx ⟨st.store, b'⟩ _ _ (head_getBondIDToRecordsIndexKey _ _)]
    exact if_pos rfl
  · rw [freshState_get_head16 env ctx ⟨st.store, b'⟩ _ _ (head_getRecordExpiryQueueTimeKey env _)]
    exact if_pos rfl
  · intro hids
    show _ ∈ GetRecordExpiryQueueTimeSlice env (freshState env ctx ⟨st.store, b'⟩ _) _
    rw [GetRecordExpiryQueueTimeSlice_freshState env ctx ⟨st.store, b'⟩ _ hids]
    exact List.mem_append_right _ (List.mem_singleton_self _)

/-- Witness of C4 on the example instance. -/
theorem ProcessSetRecord_indexes_witness :
    exampleEnv.getCID (msgRecord exampleEnv exampleMsg) = some "Qma" ∧
    HasRecord exampleState "Qma" = false ∧
    (ProcessSetRecord exampleEnv exampleCtx exampleState exampleMsg).2 = none ∧
    HasRecord (ProcessSetRecord exampleEnv exampleCtx exampleState exampleMsg).1 "Qma" = true ∧
    (ProcessSetRecord exampleEnv exampleCtx exampleState exampleMsg).1.store.get
      (getBondIDToRecordsIndexKey "bond1" "Qma") = some [] ∧
    GetRecordExpiryQueueTimeSlice exampleEnv
      (ProcessSetRecord exampleEnv exampleCtx exampleState exampleMsg).1 1500 = ["Qma"] ∧
    ∃ R : Record,
      (ProcessSetRecord exampleEnv exampleCtx exampleState exampleMsg).1.store.get
        (GetRecordIndexKey "Qma") = some (exampleEnv.marshalRecord R) ∧
      R.Id = "Qma" ∧
      HasRecord (ProcessSetRecord exampleEnv exampleCtx exampleState exampleMsg).1 R.Id = true ∧
      (ProcessSetRecord exampleEnv exampleCtx exampleState exampleMsg).1.store.get
        (getBondIDToRecordsIndexKey R.BondId R.Id) = some [] ∧
      (ProcessSetRecord exampleEnv exampleCtx exampleState exampleMsg).1.store.get
        (getRecordExpiryQueueTimeKey exampleEnv R.ExpiryTime)
        = some (exampleEnv.strArrToBytesArr
            (GetRecordExpiryQueueTimeSlice exampleEnv exampleState R.ExpiryTime ++ [R.Id])) ∧
      ((∀ ids, exampleEnv.bytesArrToStringArr (exampleEnv.strArrToBytesArr ids) = some ids) →
        R.Id ∈ GetRecordExpiryQueueTimeSlice exampleEnv
          (ProcessSetRecord exampleEnv exampleCtx exampleState exampleMsg).1 R.ExpiryTime) :=
  ⟨rfl, rfl, rfl, rfl, rfl, rfl,
   ProcessSetRecord_indexes exampleEnv exampleCtx exampleState exampleMsg "Qma" rfl rfl rfl⟩

/-- C5: for a record id that is not yet stored, if some signature of the payload, at any
position in the list, has a public key that does not decode or does not verify over the
record's sign bytes, `ProcessSetRecord` fails with an error of kind Unauthorized and
returns the state it was given: the store is not written and the bond keeper is not
called. -/
theorem ProcessSetRecord_bad_signature {B : Type} (env : Env B) (ctx : Ctx) (st : State B)
    (msg : MsgSetRecord) (cid : String)
    (hcid : env.getCID (msgRecord env msg) = some cid)
    (hfresh : HasRecord st cid = false)
    (hbad : ∃ sig ∈ msg.Payload.Signatures,
      signatureOK env (env.getSignBytes (msgRecord env msg)) sig = false) :
    ∃ err : Error, ProcessSetRecord env ctx st msg = (st, some err) ∧
      err.kind = ErrKind.unauthorized := by
  obtain ⟨err, he, hk⟩ := checkSignatures_of_bad env (env.getSignBytes (msgRecord env msg))
    msg.Payload.Signatures [] hbad
  exact ⟨err, ProcessSetRecord_sig_error env ctx st msg cid err hcid hfresh he, hk⟩

/-- Witness of C5 on the example instance: the second of two signatures does not verify
and the call returns the given state with an Unauthorized error. -/
theorem ProcessSetRecord_bad_signature_witness :
    exampleEnv.getCID (msgRecord exampleEnv exampleBadMsg) = some "Qma" ∧
    HasRecord exampleState "Qma" = false ∧
    signatureOK exampleEnv (exampleEnv.getSignBytes (msgRecord exampleEnv exampleBadMsg))
      ⟨"L", "Kb"⟩ = false ∧
    ∃ err : Error, ProcessSetRecord exampleEnv exampleCtx exampleState exampleBadMsg
        = (exampleState, some err) ∧ err.kind = ErrKind.unauthorized :=
  ⟨rfl, rfl, rfl,
   ProcessSetRecord_bad_signature exampleEnv exampleCtx exampleState exampleBadMsg "Qma" rfl rfl
     ⟨⟨"L", "Kb"⟩, List.mem_cons_of_mem _ (List.mem_cons_self _ _), rfl⟩⟩

/-- C6: for a not-yet-stored record with valid signatures, when the bond keeper's transfer
of the rent fails with error `e`, `ProcessSetRecord` returns exactly `e` and the store is
the store before the call: no record, bond-index entry or expiry bucket is written. -/
theorem ProcessSetRecord_rent_failure {B : Type} (env : Env B) (ctx : Ctx) (st : State B)
    (msg : MsgSetRecord) (cid : String) (b' : B) (e : Error)
    (hcid : env.getCID (msgRecord env msg) = some cid)
    (hfresh : HasRecord st cid = false)
    (hvalid : ∀ sig ∈ msg.Payload.Signatures,
      signatureOK env (env.getSignBytes (msgRecord env msg)) sig = true)
    (htr : env.transferCoinsToModuleAccount st.bond msg.BondId env.recordRentModuleAccountName
        (env.newCoins [ctx.params.RecordRent]) = (b', some e)) :
    (ProcessSetRecord env ctx st msg).2 = some e ∧
    (ProcessSetRecord env ctx st msg).1.store = st.store := by
  have hs := checkSignatures_of_ok env (env.getSignBytes (msgRecord env msg))
    msg.Payload.Signatures [] hvalid
  rw [ProcessSetRecord_transfer_error env ctx st msg cid _ b' e hcid hfresh hs htr]
  exact ⟨rfl, rfl⟩

/-- Witness of C6 on the example instance: the bond holds nothing, the rent is 1 unit. -/
theorem ProcessSetRecord_rent_failure_witness :
    exampleEnv.getCID (msgRecord exampleEnv exampleMsg) = some "Qma" ∧
    HasRecord examplePoorState "Qma" = false ∧
    (ProcessSetRecord exampleEnv exampleCtx examplePoorState exampleMsg).2
      = some ⟨ErrKind.insufficientFunds, "Insufficient bond balance."⟩ ∧
    (ProcessSetRecord exampleEnv exampleCtx examplePoorState exampleMsg).1.store
      = examplePoorState.store :=
  ⟨rfl, rfl,
   ProcessSetRecord_rent_failure exampleEnv exampleCtx examplePoorState exampleMsg "Qma"
     examplePoorState.bond ⟨ErrKind.insufficientFunds, "Insufficient bond balance."⟩ rfl rfl
     (by intro sig hsig
         rcases List.mem_singleton.mp hsig with rfl
         rfl)
     rfl⟩

/-! ### Owners -/

theorem sortStrings_sorted (xs : List String) : (sortStrings xs).Sorted stringLE := by
  haveI : IsTotal String (fun a b => stringBytes a ≤ stringBytes b) :=
    ⟨fun a b => le_total (stringBytes a) (stringBytes b)⟩
  haveI : IsTrans String (fun a b => stringBytes a ≤ stringBytes b) :=
    ⟨fun _ _ _ h1 h2 => le_trans h1 h2⟩
  exact List.sorted_insertionSort (fun a b : String => stringBytes a ≤ stringBytes b) xs

theorem sortStrings_perm (xs : List String) : (sortStrings xs).Perm xs :=
  List.perm_insertionSort (fun a b : String => stringBytes a ≤ stringBytes b) xs

theorem sortStrings_pair (a0 a1 : String) (h : stringLT a0 a1) :
    sortStrings [a1, a0] = [a0, a1] := by
  have hn : ¬ stringBytes a1 ≤ stringBytes a0 := not_le.mpr h
  simp [sortStrings, List.insertionSort, List.orderedInsert, hn]

/-- C7: the owners of the record stored by a successful `ProcessSetRecord` of a
not-yet-stored record are in ascending (byte-wise lexicographic) order and are a permutation of the addresses
derived from the public keys of the payload's signatures; signatures by a key with
address `a1` and then by a key with address `a0 < a1` give the owners `[a0, a1]`. -/
theorem ProcessSetRecord_owners_sorted {B : Type} (env : Env B) (ctx : Ctx) (st : State B)
    (msg : MsgSetRecord) (cid : String)
    (hcid : env.getCID (msgRecord env msg) = some cid)
    (hfresh : HasRecord st cid = false)
    (hok : (ProcessSetRecord env ctx st msg).2 = none) :
    ∃ R : Record,
      (ProcessSetRecord env ctx st msg).1.store.get (GetRecordIndexKey cid)
        = some (env.marshalRecord R) ∧
      R.Owners.Sorted stringLE ∧
      R.Owners.Perm (signerAddresses env msg.Payload.Signatures) ∧
      ∀ a0 a1 : String, signerAddresses env msg.Payload.Signatures = [a1, a0] → stringLT a0 a1 →
        R.Owners = [a0, a1] := by
  obtain ⟨owners, b', hs, _, heq⟩ :=
    ProcessSetRecord_fresh_ok env ctx st msg cid hcid hfresh hok
  have hown := (checkSignatures_ok_iff env _ _ owners hs).2
  refine ⟨freshRecord env ctx msg cid owners, ?_, ?_, ?_, ?_⟩
  · rw [heq, freshState_get_head0 env ctx ⟨st.store, b'⟩ _ _ (head_GetRecordIndexKey _)]
    exact if_pos rfl
  · exact sortStrings_sorted owners
  · rw [← hown]; exact sortStrings_perm owners
  · intro a0 a1 hadd hlt
    show sortStrings owners = [a0, a1]
    rw [hown, hadd]
    exact sortStrings_pair a0 a1 hlt

/-- Witness of C7 on the example instance: signatures by `K1` then `K0` give the stored
owners `[K0, K1]`. -/
theorem ProcessSetRecord_owners_sorted_witness :
    exampleEnv.getCID (msgRecord exampleEnv exampleTwoMsg) = some "Qma" ∧
    HasRecord exampleState "Qma" = false ∧
    (ProcessSetRecord exampleEnv exampleCtx exampleState exampleTwoMsg).2 = none ∧
    signerAddresses exampleEnv exampleTwoMsg.Payload.Signatures = ["K1", "K0"] ∧
    stringLT "K0" "K1" ∧
    (GetRecord exampleEnv
      (ProcessSetRecord exampleEnv exampleCtx exampleState exampleTwoMsg).1 "Qma").map
        (fun R => R.Owners) = some ["K0", "K1"] ∧
    ∃ R : Record,
      (ProcessSetRecord exampleEnv exampleCtx exampleState exampleTwoMsg).1.store.get
        (GetRecordIndexKey "Qma") = some (exampleEnv.marshalRecord R) ∧
      R.Owners.Sorted stringLE ∧
      R.Owners.Perm (signerAddresses exampleEnv exampleTwoMsg.Payload.Signatures) ∧
      ∀ a0 a1 : String,
        signerAddresses exampleEnv exampleTwoMsg.Payload.Signatures = [a1, a0] → stringLT a0 a1 →
        R.Owners = [a0, a1] :=
  ⟨rfl, rfl, by decide, rfl, by unfold stringLT; decide, by decide,
   ProcessSetRecord_owners_sorted exampleEnv exampleCtx exampleState exampleTwoMsg "Qma"
     rfl rfl (by decide)⟩

/-- Counterexample to C8: two valid signatures made by the same key `K` are accepted and
the stored record has the owners `[K, K]`, which contain the address `K` twice. -/
theorem ProcessSetRecord_owners_duplicate :
    (ProcessSetRecord exampleEnv exampleCtx exampleState exampleDupMsg).2 = none ∧
    GetRecord exampleEnv
      (ProcessSetRecord exampleEnv exampleCtx exampleState exampleDupMsg).1 "Qma" =
      some { Id := "Qma", BondId := "bond1", CreateTime := 1000, ExpiryTime := 1500,
             Deleted := false, Owners := ["K", "K"], Attributes := [97] } ∧
    ¬ (["K", "K"] : List String).Nodup := by
  refine ⟨rfl, by decide, by decide⟩

/-- C8 (amended): the owners of the record stored by a successful `ProcessSetRecord` of a
not-yet-stored record contain no address twice whenever the addresses derived from the
public keys of the payload's signatures are pairwise distinct. -/
theorem ProcessSetRecord_owners_nodup {B : Type} (env : Env B) (ctx : Ctx) (st : State B)
    (msg : MsgSetRecord) (cid : String)
    (hcid : env.getCID (msgRecord env msg) = some cid)
    (hfresh : HasRecord st cid = false)
    (hok : (ProcessSetRecord env ctx st msg).2 = none)
    (hdistinct : (signerAddresses env msg.Payload.Signatures).Nodup) :
    ∃ R : Record,
      (ProcessSetRecord env ctx st msg).1.store.get (GetRecordIndexKey cid)
        = some (env.marshalRecord R) ∧
      R.Owners.Perm (signerAddresses env msg.Payload.Signatures) ∧
      R.Owners.Nodup := by
  obtain ⟨owners, b', hs, _, heq⟩ :=
    ProcessSetRecord_fresh_ok env ctx st msg cid hcid hfresh hok
  have hown := (checkSignatures_ok_iff env _ _ owners hs).2
  have hperm : (sortStrings owners).Perm (signerAddresses env msg.Payload.Signatures) := by
    rw [← hown]; exact sortStrings_perm owners
  refine ⟨freshRecord env ctx msg cid owners, ?_, hperm, hperm.nodup_iff.mpr hdistinct⟩
  rw [heq, freshState_get_head0 env ctx ⟨st.store, b'⟩ _ _ (head_GetRecordIndexKey _)]
  exact if_pos rfl

/-- Witness of C8 (amended) on the example instance, with signatures by `K1` and `K0`. -/
theorem ProcessSetRecord_owners_nodup_witness :
    exampleEnv.getCID (msgRecord exampleEnv exampleTwoMsg) = some "Qma" ∧
    HasRecord exampleState "Qma" = false ∧
    (ProcessSetRecord exampleEnv exampleCtx exampleState exampleTwoMsg).2 = none ∧
    (signerAddresses exampleEnv exampleTwoMsg.Payload.Signatures).Nodup ∧
    ∃ R : Record,
      (ProcessSetRecord exampleEnv exampleCtx exampleState exampleTwoMsg).1.store.get
        (GetRecordIndexKey "Qma") = some (exampleEnv.marshalRecord R) ∧
      R.Owners.Perm (signerAddresses exampleEnv exampleTwoMsg.Payload.Signatures) ∧
      R.Owners.Nodup :=
  ⟨rfl, rfl, by decide, by decide,
   ProcessSetRecord_owners_nodup exampleEnv exampleCtx exampleState exampleTwoMsg "Qma"
     rfl rfl (by decide) (by decide)⟩

/-! ## The record expiry queue -/

theorem GetRecordExpiryQueueTimeSlice_insert {B : Type} (env : Env B) (st : State B)
    (val : Record) (t : Time)
    (hids : ∀ ids, env.bytesArrToStringArr (env.strArrToBytesArr ids) = some ids) :
    GetRecordExpiryQueueTimeSlice env (InsertRecordExpiryQueue env st val) t =
      if getRecordExpiryQueueTimeKey env t = getRecordExpiryQueueTimeKey env val.ExpiryTime then
        GetRecordExpiryQueueTimeSlice env st t ++ [val.Id]
      else GetRecordExpiryQueueTimeSlice env st t := by
  by_cases e : getRecordExpiryQueueTimeKey env t = getRecordExpiryQueueTimeKey env val.ExpiryTime
  · rw [if_pos e]
    have hsame : GetRecordExpiryQueueTimeSlice env st val.ExpiryTime =
        GetRecordExpiryQueueTimeSlice env st t := by
      unfold GetRecordExpiryQueueTimeSlice; rw [e]
    conv_lhs => unfold GetRecordExpiryQueueTimeSlice
    simp only [InsertRecordExpiryQueue, SetRecordExpiryQueueTimeSlice]
    rw [e, KVStore.get_set_self]
    simp only [hids, hsame]
  · rw [if_neg e]
    unfold GetRecordExpiryQueueTimeSlice
    simp only [InsertRecordExpiryQueue, SetRecordExpiryQueueTimeSlice]
    rw [KVStore.get_set_of_ne _ _ _ _ e]

theorem GetRecordExpiryQueueTimeSlice_foldl {B : Type} (env : Env B) (vals : List Record)
    (st : State B) (t : Time)
    (hids : ∀ ids, env.bytesArrToStringArr (env.strArrToBytesArr ids) = some ids)
    (hall : ∀ v ∈ vals, v.ExpiryTime = t) :
    GetRecordExpiryQueueTimeSlice env (vals.foldl (InsertRecordExpiryQueue env) st) t =
      GetRecordExpiryQueueTimeSlice env st t ++ vals.map (fun v => v.Id) := by
  induction vals generalizing st with
  | nil => simp
  | cons v rest ih =>
    have hv : v.ExpiryTime = t := hall v (List.mem_cons_self _ _)
    rw [List.foldl_cons, ih _ (fun w hw => hall w (List.mem_cons_of_mem _ hw)),
      GetRecordExpiryQueueTimeSlice_insert env st v t hids, hv, if_pos rfl]
    simp

/-- C10: when the id-list codec round-trips, the time slice read at `val.ExpiryTime` after
`InsertRecordExpiryQueue(val)` is the slice read before the call with `val.Id` appended at
the end; hence after inserting a sequence of records with one expiry time the bucket
holds the previous ids followed by the new ids in the order of insertion. -/
theorem InsertRecordExpiryQueue_appends {B : Type} (env : Env B) (st : State B) (val : Record)
    (hids : ∀ ids, env.bytesArrToStringArr (env.strArrToBytesArr ids) = some ids) :
    GetRecordExpiryQueueTimeSlice env (InsertRecordExpiryQueue env st val) val.ExpiryTime =
      GetRecordExpiryQueueTimeSlice env st val.ExpiryTime ++ [val.Id] ∧
    ∀ (vals : List Record) (t : Time), (∀ v ∈ vals, v.ExpiryTime = t) →
      GetRecordExpiryQueueTimeSlice env (vals.foldl (InsertRecordExpiryQueue env) st) t =
        GetRecordExpiryQueueTimeSlice env st t ++ vals.map (fun v => v.Id) := by
  refine ⟨?_, fun vals t hall => GetRecordExpiryQueueTimeSlice_foldl env vals st t hids hall⟩
  rw [GetRecordExpiryQueueTimeSlice_insert env st val val.ExpiryTime hids, if_pos rfl]

/-! ### The example codec round-trips -/

theorem readBlock_writeBlock (b rest : Bytes) :
    readBlock (writeBlock b ++ rest) = some (b, rest) := by
  simp [readBlock, writeBlock]

theorem ofCodes_codes (s : String) : ofCodes (codes s) = s := by
  unfold ofCodes codes
  rw [List.map_map]
  have : (Char.ofNat ∘ Char.toNat) = id := by
    funext c; simp [Char.ofNat_toNat]
  rw [this, List.map_id]

theorem readBlocks_write (xs : List String) (rest : Bytes) :
    readBlocks xs.length (xs.flatMap (fun s => writeBlock (codes s)) ++ rest) =
      some (xs.map codes, rest) := by
  induction xs with
  | nil => simp [readBlocks]
  | cons x xs ih =>
    simp only [List.length_cons, List.flatMap_cons, List.append_assoc, readBlocks,
      readBlock_writeBlock, ih, List.map_cons]

theorem readStrings_writeStrings (xs : List String) (rest : Bytes) :
    readStrings (writeStrings xs ++ rest) = some (xs, rest) := by
  unfold writeStrings
  rw [List.cons_append]
  simp only [readStrings, readBlocks_write, List.map_map]
  have : (ofCodes ∘ codes) = id := by funext s; exact ofCodes_codes s
  rw [this, List.map_id]

theorem readStringArr_writeStrings (xs : List String) :
    readStringArr (writeStrings xs) = some xs := by
  have := readStrings_writeStrings xs []
  rw [List.append_nil] at this
  simp [readStringArr, this]

theorem readInt_writeInt (i : Int) (rest : Bytes) :
    readInt (writeInt i ++ rest) = some (i, rest) := by
  unfold writeInt
  by_cases h : i < 0
  · simp only [h, if_true, List.cons_append, List.nil_append, readInt]
    congr 2
    omega
  · simp only [h, if_false, List.cons_append, List.nil_append, readInt]
    congr 2
    simp
    omega

theorem readRecord_writeRecord (r : Record) : readRecord (writeRecord r) = some r := by
  unfold readRecord writeRecord
  have hlast : readBlock (writeBlock r.Attributes) = some (r.Attributes, []) := by
    have := readBlock_writeBlock r.Attributes []
    rwa [List.append_nil] at this
  simp only [readBlock_writeBlock, readInt_writeInt, readStrings_writeStrings, hlast,
    ofCodes_codes]
  cases r with
  | mk id bond ct et d owners attrs =>
    cases d <;> simp

/-- Witness of C10 on the example instance. -/
theorem InsertRecordExpiryQueue_appends_witness :
    (∀ ids, exampleEnv.bytesArrToStringArr (exampleEnv.strArrToBytesArr ids) = some ids) ∧
    GetRecordExpiryQueueTimeSlice exampleEnv
      (InsertRecordExpiryQueue exampleEnv
        (ProcessSetRecord exampleEnv exampleCtx exampleState exampleMsg).1
        { Id := "Qmb", BondId := "bond1", CreateTime := 1000, ExpiryTime := 1500,
          Deleted := false, Owners := [], Attributes := [] }) 1500 = ["Qma", "Qmb"] ∧
    (GetRecordExpiryQueueTimeSlice exampleEnv
        (InsertRecordExpiryQueue exampleEnv exampleState
          { Id := "Qmb", BondId := "bond1", CreateTime := 1000, ExpiryTime := 1500,
            Deleted := false, Owners := [], Attributes := [] }) 1500 =
        GetRecordExpiryQueueTimeSlice exampleEnv exampleState 1500 ++ ["Qmb"] ∧
      ∀ (vals : List Record) (t : Time), (∀ v ∈ vals, v.ExpiryTime = t) →
        GetRecordExpiryQueueTimeSlice exampleEnv
            (vals.foldl (InsertRecordExpiryQueue exampleEnv) exampleState) t =
          GetRecordExpiryQueueTimeSlice exampleEnv exampleState t ++ vals.map (fun v => v.Id)) :=
  ⟨readStringArr_writeStrings, rfl,
   InsertRecordExpiryQueue_appends exampleEnv exampleState
     { Id := "Qmb", BondId := "bond1", CreateTime := 1000, ExpiryTime := 1500,
       Deleted := false, Owners := [], Attributes := [] } readStringArr_writeStrings⟩

/-! ### The queue invariant -/

theorem GetRecordExpiryQueueTimeSlice_mem {B : Type} (env : Env B) (st : State B) (t : Time)
    (id : String) (h : id ∈ GetRecordExpiryQueueTimeSlice env st t) :
    ∃ bz ids, st.store.get (getRecordExpiryQueueTimeKey env t) = some bz ∧
      env.bytesArrToStringArr bz = some ids ∧ id ∈ ids := by
  unfold GetRecordExpiryQueueTimeSlice at h
  cases hg : st.store.get (getRecordExpiryQueueTimeKey env t) with
  | none => simp [hg] at h
  | some bz =>
    cases hd : env.bytesArrToStringArr bz with
    | none => simp [hg, hd] at h
    | some ids =>
      simp only [hg, hd] at h
      exact ⟨bz, ids, rfl, hd, h⟩

theorem GetRecordExpiryQueueTimeSlice_congr {B : Type} (env : Env B) (st : State B)
    (t t' : Time)
    (h : getRecordExpiryQueueTimeKey env t = getRecordExpiryQueueTimeKey env t') :
    GetRecordExpiryQueueTimeSlice env st t = GetRecordExpiryQueueTimeSlice env st t' := by
  unfold GetRecordExpiryQueueTimeSlice; rw [h]

theorem GetRecordExpiryQueueTimeSlice_freshState_at {B : Type} (env : Env B) (ctx : Ctx)
    (st : State B) (r : Record) (t : Time)
    (hids : ∀ ids, env.bytesArrToStringArr (env.strArrToBytesArr ids) = some ids) :
    GetRecordExpiryQueueTimeSlice env (freshState env ctx st r) t =
      if getRecordExpiryQueueTimeKey env t = getRecordExpiryQueueTimeKey env r.ExpiryTime then
        GetRecordExpiryQueueTimeSlice env st t ++ [r.Id]
      else GetRecordExpiryQueueTimeSlice env st t := by
  by_cases e : getRecordExpiryQueueTimeKey env t = getRecordExpiryQueueTimeKey env r.ExpiryTime
  · rw [if_pos e, GetRecordExpiryQueueTimeSlice_congr env _ t r.ExpiryTime e,
      GetRecordExpiryQueueTimeSlice_congr env st t r.ExpiryTime e]
    exact GetRecordExpiryQueueTimeSlice_freshState env ctx st r hids
  · rw [if_neg e]
    unfold GetRecordExpiryQueueTimeSlice
    rw [freshState_get_head16 env ctx st r _ (head_getRecordExpiryQueueTimeKey env t), if_neg e]

theorem ExpiryInv_empty {B : Type} (env : Env B) (b : B) : ExpiryInv env ⟨[], b⟩ :=
  ⟨fun k bz _ h => by simp [KVStore.get] at h, fun k bz ids _ h => by simp [KVStore.get] at h⟩

theorem ExpiryInv_bond {B : Type} (env : Env B) (st : State B) (b' : B)
    (h : ExpiryInv env st) : ExpiryInv env ⟨st.store, b'⟩ :=
  ⟨h.records, h.buckets⟩

theorem ExpiryInv_freshState {B : Type} (env : Env B) (ctx : Ctx) (st : State B) (r : Record)
    (hrec : ∀ r, env.unmarshalRecord (env.marshalRecord r) = some r)
    (hids : ∀ ids, env.bytesArrToStringArr (env.strArrToBytesArr ids) = some ids)
    (hinv : ExpiryInv env st) (hfresh : HasRecord st r.Id = false) :
    ExpiryInv env (freshState env ctx st r) := by
  -- the new id is in no bucket of the old state
  have hnew : ∀ (k bz : Bytes) (ids : List String), k.head? = some 16 →
      st.store.get k = some bz → env.bytesArrToStringArr bz = some ids → r.Id ∉ ids := by
    intro k bz ids hk hg hd hmem
    have := hinv.buckets k bz ids hk hg hd r.Id hmem
    rw [hfresh] at this
    cases this
  have hnewSlice : ∀ t, r.Id ∉ GetRecordExpiryQueueTimeSlice env st t := by
    intro t hmem
    obtain ⟨bz, ids, hg, hd, hm⟩ := GetRecordExpiryQueueTimeSlice_mem env st t r.Id hmem
    exact hnew _ bz ids (head_getRecordExpiryQueueTimeKey env t) hg hd hm
  -- a bucket of the new state is the extended bucket or an old bucket
  have hbucket : ∀ (k bz : Bytes) (ids : List String), k.head? = some 16 →
      (freshState env ctx st r).store.get k = some bz →
      env.bytesArrToStringArr bz = some ids →
      (k = getRecordExpiryQueueTimeKey env r.ExpiryTime ∧
        ids = GetRecordExpiryQueueTimeSlice env st r.ExpiryTime ++ [r.Id]) ∨
      (k ≠ getRecordExpiryQueueTimeKey env r.ExpiryTime ∧ st.store.get k = some bz) := by
    intro k bz ids hk hg hd
    rw [freshState_get_head16 env ctx st r k hk] at hg
    by_cases e : k = getRecordExpiryQueueTimeKey env r.ExpiryTime
    · left
      rw [if_pos e] at hg
      have hbz := Option.some.inj hg
      rw [← hbz, hids] at hd
      exact ⟨e, (Option.some.inj hd).symm⟩
    · right
      rw [if_neg e] at hg
      exact ⟨e, hg⟩
  have hqueued : ∀ r0 : Record, r0.Id ≠ r.Id → RecordQueued env st r0 →
      RecordQueued env (freshState env ctx st r) r0 := by
    intro r0 hne hq
    constructor
    · rw [GetRecordExpiryQueueTimeSlice_freshState_at env ctx st r r0.ExpiryTime hids]
      by_cases e : getRecordExpiryQueueTimeKey env r0.ExpiryTime =
          getRecordExpiryQueueTimeKey env r.ExpiryTime
      · rw [if_pos e, List.count_append, hq.1]
        simp [List.count_cons, hne.symm]
      · rw [if_neg e]; exact hq.1
    · intro k bz ids hk hkne hg hd
      rcases hbucket k bz ids hk hg hd with ⟨hkeq, hidsEq⟩ | ⟨_, hold⟩
      · rw [hidsEq]
        intro hmem
        rcases List.mem_append.mp hmem with hm | hm
        · obtain ⟨bz0, ids0, hg0, hd0, hm0⟩ :=
            GetRecordExpiryQueueTimeSlice_mem env st r.ExpiryTime r0.Id hm
          exact hq.2 _ bz0 ids0 (head_getRecordExpiryQueueTimeKey env _) (hkeq ▸ hkne) hg0 hd0 hm0
        · exact hne (List.mem_singleton.mp hm)
      · exact hq.2 k bz ids hk hkne hold hd
  constructor
  · intro k bz hk hg
    rw [freshState_get_head0 env ctx st r k hk] at hg
    by_cases e : k = GetRecordIndexKey r.Id
    · rw [if_pos e] at hg
      have hbz := Option.some.inj hg
      refine ⟨r, by rw [← hbz]; exact hrec r, e, fun _ => ⟨?_, ?_⟩⟩
      · rw [GetRecordExpiryQueueTimeSlice_freshState env ctx st r hids, List.count_append,
          List.count_eq_zero_of_not_mem (hnewSlice r.ExpiryTime)]
        simp
      · intro k' bz' ids' hk' hkne hg' hd'
        rcases hbucket k' bz' ids' hk' hg' hd' with ⟨hkeq, _⟩ | ⟨_, hold⟩
        · exact absurd hkeq hkne
        · exact hnew k' bz' ids' hk' hold hd'
    · rw [if_neg e] at hg
      obtain ⟨r0, hdec, hkey, hq⟩ := hinv.records k bz hk hg
      have hne : r0.Id ≠ r.Id := fun h => e (by rw [hkey, h])
      exact ⟨r0, hdec, hkey, fun hdel => hqueued r0 hne (hq hdel)⟩
  · intro k bz ids hk hg hd id hmem
    rcases hbucket k bz ids hk hg hd with ⟨_, hidsEq⟩ | ⟨_, hold⟩
    · rw [hidsEq] at hmem
      rcases List.mem_append.mp hmem with hm | hm
      · obtain ⟨bz0, ids0, hg0, hd0, hm0⟩ :=
          GetRecordExpiryQueueTimeSlice_mem env st r.ExpiryTime id hm
        exact freshState_has_mono env ctx st r _
          (hinv.buckets _ bz0 ids0 (head_getRecordExpiryQueueTimeKey env _) hg0 hd0 id hm0)
      · rw [List.mem_singleton.mp hm]
        exact HasRecord_freshState env ctx st r
    · exact freshState_has_mono env ctx st r _ (hinv.buckets k bz ids hk hold hd id hmem)

theorem ExpiryInv_ProcessSetRecord {B : Type} (env : Env B) (ctx : Ctx) (st : State B)
    (msg : MsgSetRecord)
    (hrec : ∀ r, env.unmarshalRecord (env.marshalRecord r) = some r)
    (hids : ∀ ids, env.bytesArrToStringArr (env.strArrToBytesArr ids) = some ids)
    (hinv : ExpiryInv env st) : ExpiryInv env (ProcessSetRecord env ctx st msg).1 := by
  cases hcid : env.getCID (msgRecord env msg) with
  | none =>
    have h : ProcessSetRecord env ctx st msg =
        (st, some ⟨ErrKind.invalidRequest, "Invalid record JSON"⟩) := by
      unfold ProcessSetRecord; simp [hcid]
    rw [h]; exact hinv
  | some cid =>
    cases hex : HasRecord st cid with
    | true => rw [ProcessSetRecord_of_has env ctx st msg cid hcid hex]; exact hinv
    | false =>
      cases hs : checkSignatures env (env.getSignBytes (msgRecord env msg))
          msg.Payload.Signatures [] with
      | error e =>
        rw [ProcessSetRecord_sig_error env ctx st msg cid e hcid hex hs]; exact hinv
      | ok owners =>
        rcases htr : env.transferCoinsToModuleAccount st.bond msg.BondId
          env.recordRentModuleAccountName (env.newCoins [ctx.params.RecordRent]) with ⟨b', e⟩
        cases e with
        | some e =>
          rw [ProcessSetRecord_transfer_error env ctx st msg cid owners b' e hcid hex hs htr]
          exact ExpiryInv_bond env st b' hinv
        | none =>
          have h := processRecord_of_transfer_ok env ctx st
            { msgRecord env msg with Id := cid, Owners := sortStrings owners } b' htr
          rw [ProcessSetRecord_fresh env ctx st msg cid owners hcid hex hs, h.1]
          exact ExpiryInv_freshState env ctx ⟨st.store, b'⟩ _ hrec hids
            (ExpiryInv_bond env st b' hinv) hex

theorem ExpiryInv_of_reachable {B : Type} (env : Env B) (st : State B)
    (hrec : ∀ r, env.unmarshalRecord (env.marshalRecord r) = some r)
    (hids : ∀ ids, env.bytesArrToStringArr (env.strArrToBytesArr ids) = some ids)
    (hreach : Reachable env st) : ExpiryInv env st := by
  induction hreach with
  | empty b => exact ExpiryInv_empty env b
  | step ctx st msg _ ih => exact ExpiryInv_ProcessSetRecord env ctx st msg hrec hids ih

/-- C9: in every state reachable from the empty store by calls of `ProcessSetRecord`
(any messages, bonds, block times and parameters, with record and id-list codecs that
round-trip), every record `R` stored in the primary index with `Deleted = false` has its
id exactly once in the time slice of `R.ExpiryTime`, and no expiry bucket under another
key, hence no time slice of a time with another key, contains `R.Id`. -/
theorem Reachable_record_queued_once {B : Type} (env : Env B) (st : State B)
    (id : String) (bz : Bytes) (R : Record)
    (hrec : ∀ r, env.unmarshalRecord (env.marshalRecord r) = some r)
    (hids : ∀ ids, env.bytesArrToStringArr (env.strArrToBytesArr ids) = some ids)
    (hreach : Reachable env st)
    (hstored : st.store.get (GetRecordIndexKey id) = some bz)
    (hdec : env.unmarshalRecord bz = some R)
    (hlive : R.Deleted = false) :
    (GetRecordExpiryQueueTimeSlice env st R.ExpiryTime).count R.Id = 1 ∧
    (∀ (k bz' : Bytes) (ids : List String), PrefixExpiryTimeToRecordsIndex <+: k →
      k ≠ getRecordExpiryQueueTimeKey env R.ExpiryTime → st.store.get k = some bz' →
      env.bytesArrToStringArr bz' = some ids → R.Id ∉ ids) ∧
    (∀ t : Time,
      getRecordExpiryQueueTimeKey env t ≠ getRecordExpiryQueueTimeKey env R.ExpiryTime →
      R.Id ∉ GetRecordExpiryQueueTimeSlice env st t) := by
  have hinv := ExpiryInv_of_reachable env st hrec hids hreach
  obtain ⟨r0, hdec0, _, hq⟩ := hinv.records _ bz (head_GetRecordIndexKey id) hstored
  rw [hdec] at hdec0
  have hr : R = r0 := Option.some.inj hdec0
  subst hr
  have hQ := hq hlive
  refine ⟨hQ.1, ?_, ?_⟩
  · intro k bz' ids hpre hne hg hd
    have hk : k.head? = some 16 := by
      obtain ⟨t, ht⟩ := hpre
      rw [← ht]; rfl
    exact hQ.2 k bz' ids hk hne hg hd
  · intro t hne hmem
    obtain ⟨bz', ids, hg, hd, hm⟩ := GetRecordExpiryQueueTimeSlice_mem env st t R.Id hmem
    exact hQ.2 _ bz' ids (head_getRecordExpiryQueueTimeKey env t) hne hg hd hm

/-- Witness of C9 on the example instance: the state after one `ProcessSetRecord` from the
empty store, in which the record `Qma` is stored and expires at time 1500. -/
theorem Reachable_record_queued_once_witness :
    Reachable exampleEnv (ProcessSetRecord exampleEnv exampleCtx exampleState exampleMsg).1 ∧
    (ProcessSetRecord exampleEnv exampleCtx exampleState exampleMsg).1.store.get
      (GetRecordIndexKey "Qma") =
      some (exampleEnv.marshalRecord
        { Id := "Qma", BondId := "bond1", CreateTime := 1000, ExpiryTime := 1500,
          Deleted := false, Owners := ["K"], Attributes := [97] }) ∧
    (GetRecordExpiryQueueTimeSlice exampleEnv
        (ProcessSetRecord exampleEnv exampleCtx exampleState exampleMsg).1 1500).count "Qma"
      = 1 ∧
    (∀ (k bz' : Bytes) (ids : List String), PrefixExpiryTimeToRecordsIndex <+: k →
      k ≠ getRecordExpiryQueueTimeKey exampleEnv 1500 →
      (ProcessSetRecord exampleEnv exampleCtx exampleState exampleMsg).1.store.get k = some bz' →
      exampleEnv.bytesArrToStringArr bz' = some ids → "Qma" ∉ ids) ∧
    (∀ t : Time,
      getRecordExpiryQueueTimeKey exampleEnv t ≠ getRecordExpiryQueueTimeKey exampleEnv 1500 →
      "Qma" ∉ GetRecordExpiryQueueTimeSlice exampleEnv
        (ProcessSetRecord exampleEnv exampleCtx exampleState exampleMsg).1 t) :=
  ⟨Reachable.step exampleCtx exampleState exampleMsg (Reachable.empty _), rfl,
   Reachable_record_queued_once exampleEnv
     (ProcessSetRecord exampleEnv exampleCtx exampleState exampleMsg).1 "Qma"
     (exampleEnv.marshalRecord
       { Id := "Qma", BondId := "bond1", CreateTime := 1000, ExpiryTime := 1500,
         Deleted := false, Owners := ["K"], Attributes := [97] })
     { Id := "Qma", BondId := "bond1", CreateTime := 1000, ExpiryTime := 1500,
       Deleted := false, Owners := ["K"], Attributes := [97] }
     readRecord_writeRecord readStringArr_writeStrings
     (Reachable.step exampleCtx exampleState exampleMsg (Reachable.empty _)) rfl
     rfl rfl⟩

/-! ## Time keys -/

theorem bytes_cons_lt_cons (c : Nat) (r1 r2 : Bytes) (h : r1 < r2) : c :: r1 < c :: r2 :=
  List.Lex.cons h

theorem bytes_head_lt (a b : Nat) (r1 r2 : Bytes) (h : a < b) : a :: r1 < b :: r2 :=
  List.Lex.rel h

theorem padDigits_length (w n : Nat) : (padDigits w n).length = w := by
  induction w generalizing n with
  | zero => rfl
  | succ w ih => simp [padDigits, ih]

theorem padDigits_ascii (w n : Nat) : ∀ b ∈ padDigits w n, 48 ≤ b ∧ b ≤ 57 := by
  induction w generalizing n with
  | zero => intro b hb; cases hb
  | succ w ih =>
    intro b hb
    simp only [padDigits, List.mem_append, List.mem_singleton] at hb
    rcases hb with hb | hb
    · exact ih _ b hb
    · omega

/-- Fixed-width decimal fields compare like the numbers they hold, then by what
follows them. -/
theorem padDigits_append_lt (w : Nat) (a b : Nat) (r1 r2 : Bytes)
    (ha : a < 10 ^ w) (hb : b < 10 ^ w) (h : a < b ∨ (a = b ∧ r1 < r2)) :
    padDigits w a ++ r1 < padDigits w b ++ r2 := by
  induction w generalizing a b r1 r2 with
  | zero =>
    simp only [pow_zero, Nat.lt_one_iff] at ha hb
    subst ha; subst hb
    rcases h with h | ⟨_, h⟩
    · omega
    · simpa [padDigits] using h
  | succ w ih =>
    simp only [padDigits, List.append_assoc, List.singleton_append]
    have ha' : a / 10 < 10 ^ w := by
      rw [Nat.div_lt_iff_lt_mul (by norm_num)]; rw [pow_succ] at ha; exact ha
    have hb' : b / 10 < 10 ^ w := by
      rw [Nat.div_lt_iff_lt_mul (by norm_num)]; rw [pow_succ] at hb; exact hb
    apply ih _ _ _ _ ha' hb'
    rcases h with h | ⟨e, h⟩
    · by_cases hq : a / 10 < b / 10
      · exact Or.inl hq
      · right
        have hq' : a / 10 = b / 10 := by omega
        refine ⟨hq', bytes_head_lt _ _ _ _ ?_⟩
        omega
    · right
      subst e
      exact ⟨rfl, bytes_cons_lt_cons _ _ _ h⟩

/-- A fixed-width field followed by a separator. -/
theorem field_lt (w a b c : Nat) (r1 r2 : Bytes)
    (ha : a < 10 ^ w) (hb : b < 10 ^ w) (h : a < b ∨ (a = b ∧ r1 < r2)) :
    padDigits w a ++ c :: r1 < padDigits w b ++ c :: r2 :=
  padDigits_append_lt w a b _ _ ha hb
    (h.imp id (fun ⟨e, h'⟩ => ⟨e, bytes_cons_lt_cons c _ _ h'⟩))

/-! ### The calendar -/

theorem century_step (a b : Int) (hb : b ≤ 146096) (h : a < b) :
    century a < century b ∨ (century a = century b ∧ centuryRem a < centuryRem b) := by
  simp only [century, centuryRem]; omega

theorem century_range (a : Int) (ha : 0 ≤ a) (hb : a ≤ 146096) :
    0 ≤ century a ∧ century a ≤ 3 ∧ 0 ≤ centuryRem a ∧ centuryRem a ≤ 36524 := by
  simp only [century, centuryRem]; omega

theorem yearInQuad_step (a b : Int) (hb : b ≤ 1460) (h : a < b) :
    yearInQuad a < yearInQuad b ∨ (yearInQuad a = yearInQuad b ∧ dayOfYear a < dayOfYear b) := by
  simp only [yearInQuad, dayOfYear]; omega

theorem yearInQuad_range (a : Int) (ha : 0 ≤ a) (hb : a ≤ 1460) :
    0 ≤ yearInQuad a ∧ yearInQuad a ≤ 3 ∧ 0 ≤ dayOfYear a ∧ dayOfYear a ≤ 365 := by
  simp only [yearInQuad, dayOfYear]; omega

theorem marchDay_range (z : Int) : 0 ≤ marchDay z ∧ marchDay z ≤ 365 := by
  have h := yearInQuad_range (centuryRem (z % 146097) % 1461) (by omega) (by omega)
  exact ⟨h.2.2.1, h.2.2.2⟩

theorem march_step (z1 z2 : Int) (h : z1 < z2) :
    marchYear z1 < marchYear z2 ∨ (marchYear z1 = marchYear z2 ∧ marchDay z1 < marchDay z2) := by
  have hc1 := century_range (z1 % 146097) (by omega) (by omega)
  have hc2 := century_range (z2 % 146097) (by omega) (by omega)
  have hy1 := yearInQuad_range (centuryRem (z1 % 146097) % 1461) (by omega) (by omega)
  have hy2 := yearInQuad_range (centuryRem (z2 % 146097) % 1461) (by omega) (by omega)
  simp only [marchYear, marchDay]
  by_cases he : z1 / 146097 = z2 / 146097
  · have hd : z1 % 146097 < z2 % 146097 := by omega
    have hcs := century_step (z1 % 146097) (z2 % 146097) (by omega) hd
    rcases hcs with hcs | ⟨hce, hcr⟩
    · omega
    · by_cases hq : centuryRem (z1 % 146097) / 1461 = centuryRem (z2 % 146097) / 1461
      · have hr : centuryRem (z1 % 146097) % 1461 < centuryRem (z2 % 146097) % 1461 := by omega
        have hys := yearInQuad_step _ _ (by omega) hr
        omega
      · have hq' : centuryRem (z1 % 146097) / 1461 < centuryRem (z2 % 146097) / 1461 := by omega
        omega
  · have he' : z1 / 146097 < z2 / 146097 := by omega
    have hq1 : 0 ≤ centuryRem (z1 % 146097) / 1461 ∧ centuryRem (z1 % 146097) / 1461 ≤ 24 := by
      omega
    have hq2 : 0 ≤ centuryRem (z2 % 146097) / 1461 ∧ centuryRem (z2 % 146097) / 1461 ≤ 24 := by
      omega
    omega

theorem month_step (a b : Int) (h : a < b) :
    monthIdx a < monthIdx b ∨ (monthIdx a = monthIdx b ∧ dayOfMonth a < dayOfMonth b) := by
  simp only [monthIdx, dayOfMonth]; omega

theorem month_range (a : Int) (ha : 0 ≤ a) (hb : a ≤ 365) :
    0 ≤ monthIdx a ∧ monthIdx a ≤ 11 ∧ 1 ≤ dayOfMonth a ∧ dayOfMonth a ≤ 31 := by
  simp only [monthIdx, dayOfMonth]; omega

theorem civilMonth_range (d : Int) : 1 ≤ civilMonth d ∧ civilMonth d ≤ 12 := by
  have hd := marchDay_range (d + 719468)
  have hm := month_range _ hd.1 hd.2
  unfold civilMonth
  split_ifs <;> omega

theorem civilDay_range (d : Int) : 1 ≤ civilDay d ∧ civilDay d ≤ 31 := by
  have hd := marchDay_range (d + 719468)
  have hm := month_range _ hd.1 hd.2
  unfold civilDay
  omega

/-- Later days have later calendar dates. -/
theorem civil_step (d1 d2 : Int) (h : d1 < d2) :
    civilYear d1 < civilYear d2 ∨ (civilYear d1 = civilYear d2 ∧
      (civilMonth d1 < civilMonth d2 ∨ (civilMonth d1 = civilMonth d2 ∧
        civilDay d1 < civilDay d2))) := by
  have hr1 := marchDay_range (d1 + 719468)
  have hr2 := marchDay_range (d2 + 719468)
  have hm1 := month_range _ hr1.1 hr1.2
  have hm2 := month_range _ hr2.1 hr2.2
  have hs := march_step (d1 + 719468) (d2 + 719468) (by omega)
  unfold civilYear civilMonth civilDay
  rcases hs with hs | ⟨hye, hdl⟩
  · split_ifs <;> omega
  · have hms := month_step _ _ hdl
    split_ifs <;> omega

/-! ### The formatted time -/

theorem appendInt_of_range (y : Int) (h0 : 0 ≤ y) (h1 : y ≤ 9999) :
    appendInt y 4 = padDigits 4 y.toNat := by
  unfold appendInt
  have hn : ¬ y < 0 := by omega
  have hlt : y.natAbs < 10 ^ 4 := by norm_num; omega
  have he : y.natAbs = y.toNat := by omega
  rw [if_neg hn, if_pos hlt, he, List.nil_append]

/-- The time of day: hour, minute, second and nanoseconds, compared in order. -/
theorem timeOfDay_lt (s1 s2 n1 n2 : Int) (hs1 : 0 ≤ s1) (hs2 : s2 < 86400)
    (hn1 : 0 ≤ n1 ∧ n1 < 1000000000) (hn2 : 0 ≤ n2 ∧ n2 < 1000000000)
    (h : s1 < s2 ∨ (s1 = s2 ∧ n1 < n2)) :
    padDigits 2 (s1 / 3600).toNat ++ 58 ::
        (padDigits 2 (s1 / 60 % 60).toNat ++ 58 ::
          (padDigits 2 (s1 % 60).toNat ++ 46 :: (padDigits 9 n1.toNat ++ []))) <
      padDigits 2 (s2 / 3600).toNat ++ 58 ::
        (padDigits 2 (s2 / 60 % 60).toNat ++ 58 ::
          (padDigits 2 (s2 % 60).toNat ++ 46 :: (padDigits 9 n2.toNat ++ []))) := by
  by_cases hH : (s1 / 3600).toNat = (s2 / 3600).toNat
  swap
  · exact field_lt 2 _ _ 58 _ _ (by norm_num; omega) (by norm_num; omega) (Or.inl (by omega))
  refine field_lt 2 _ _ 58 _ _ (by norm_num; omega) (by norm_num; omega) (Or.inr ⟨hH, ?_⟩)
  by_cases hM : (s1 / 60 % 60).toNat = (s2 / 60 % 60).toNat
  swap
  · exact field_lt 2 _ _ 58 _ _ (by norm_num; omega) (by norm_num; omega) (Or.inl (by omega))
  refine field_lt 2 _ _ 58 _ _ (by norm_num; omega) (by norm_num; omega) (Or.inr ⟨hM, ?_⟩)
  by_cases hS : (s1 % 60).toNat = (s2 % 60).toNat
  swap
  · exact field_lt 2 _ _ 46 _ _ (by norm_num; omega) (by norm_num; omega) (Or.inl (by omega))
  refine field_lt 2 _ _ 46 _ _ (by norm_num; omega) (by norm_num; omega) (Or.inr ⟨hS, ?_⟩)
  exact padDigits_append_lt 9 _ _ _ _ (by norm_num; omega) (by norm_num; omega)
    (Or.inl (by omega))

/-- The calendar date, then what follows it. -/
theorem date_lt (y1 y2 m1 m2 d1 d2 : Int) (r1 r2 : Bytes)
    (hy1 : 0 ≤ y1 ∧ y1 ≤ 9999) (hy2 : 0 ≤ y2 ∧ y2 ≤ 9999)
    (hm1 : 1 ≤ m1 ∧ m1 ≤ 12) (hm2 : 1 ≤ m2 ∧ m2 ≤ 12)
    (hd1 : 1 ≤ d1 ∧ d1 ≤ 31) (hd2 : 1 ≤ d2 ∧ d2 ≤ 31)
    (h : y1 < y2 ∨ (y1 = y2 ∧ (m1 < m2 ∨ (m1 = m2 ∧ (d1 < d2 ∨ (d1 = d2 ∧ r1 < r2)))))) :
    padDigits 4 y1.toNat ++ 45 :: (padDigits 2 m1.toNat ++ 45 ::
        (padDigits 2 d1.toNat ++ 84 :: r1)) <
      padDigits 4 y2.toNat ++ 45 :: (padDigits 2 m2.toNat ++ 45 ::
        (padDigits 2 d2.toNat ++ 84 :: r2)) := by
  by_cases hy : y1.toNat = y2.toNat
  swap
  · exact field_lt 4 _ _ 45 _ _ (by norm_num; omega) (by norm_num; omega) (Or.inl (by omega))
  refine field_lt 4 _ _ 45 _ _ (by norm_num; omega) (by norm_num; omega) (Or.inr ⟨hy, ?_⟩)
  by_cases hm : m1.toNat = m2.toNat
  swap
  · exact field_lt 2 _ _ 45 _ _ (by norm_num; omega) (by norm_num; omega) (Or.inl (by omega))
  refine field_lt 2 _ _ 45 _ _ (by norm_num; omega) (by norm_num; omega) (Or.inr ⟨hm, ?_⟩)
  by_cases hd : d1.toNat = d2.toNat
  swap
  · exact field_lt 2 _ _ 84 _ _ (by norm_num; omega) (by norm_num; omega) (Or.inl (by omega))
  refine field_lt 2 _ _ 84 _ _ (by norm_num; omega) (by norm_num; omega) (Or.inr ⟨hd, ?_⟩)
  have e1 : y1 = y2 := by omega
  have e2 : m1 = m2 := by omega
  have e3 : d1 = d2 := by omega
  rcases h with h | ⟨_, h | ⟨_, h | ⟨_, h⟩⟩⟩
  · omega
  · omega
  · omega
  · exact h

/-- In the year range 0000..9999 a later time has a greater formatted time. -/
theorem FormatTimeBytes_lt (t1 t2 : Int)
    (h1 : 0 ≤ Time.Year t1 ∧ Time.Year t1 ≤ 9999)
    (h2 : 0 ≤ Time.Year t2 ∧ Time.Year t2 ≤ 9999) (h : t1 < t2) :
    FormatTimeBytes t1 < FormatTimeBytes t2 := by
  unfold Time.Year at h1 h2
  have hdays : t1 / nsPerDay < t2 / nsPerDay ∨
      (t1 / nsPerDay = t2 / nsPerDay ∧ t1 % nsPerDay < t2 % nsPerDay) := by
    unfold nsPerDay; omega
  have hr1 : 0 ≤ t1 % nsPerDay ∧ t1 % nsPerDay < 86400000000000 := by unfold nsPerDay; omega
  have hr2 : 0 ≤ t2 % nsPerDay ∧ t2 % nsPerDay < 86400000000000 := by unfold nsPerDay; omega
  unfold FormatTimeBytes
  simp only []
  rw [appendInt_of_range _ h1.1 h1.2, appendInt_of_range _ h2.1 h2.2]
  apply date_lt _ _ _ _ _ _ _ _ h1 h2 (civilMonth_range _) (civilMonth_range _)
    (civilDay_range _) (civilDay_range _)
  rcases hdays with hlt | ⟨heq, hrem⟩
  · rcases civil_step _ _ hlt with hy | ⟨hy, hm | ⟨hm, hd⟩⟩
    · exact Or.inl hy
    · exact Or.inr ⟨hy, Or.inl hm⟩
    · exact Or.inr ⟨hy, Or.inr ⟨hm, Or.inl hd⟩⟩
  · rw [heq]
    refine Or.inr ⟨rfl, Or.inr ⟨rfl, Or.inr ⟨rfl, ?_⟩⟩⟩
    generalize t1 % nsPerDay = r1 at *
    generalize t2 % nsPerDay = r2 at *
    apply timeOfDay_lt _ _ _ _ (by omega) (by omega) (by omega) (by omega)
    omega

theorem FormatTimeBytes_length (t : Int)
    (h : 0 ≤ Time.Year t ∧ Time.Year t ≤ 9999) : (FormatTimeBytes t).length = 29 := by
  unfold Time.Year at h
  unfold FormatTimeBytes
  simp only []
  rw [appendInt_of_range _ h.1 h.2]
  simp [padDigits_length]

theorem FormatTimeBytes_ascii (t : Int)
    (h : 0 ≤ Time.Year t ∧ Time.Year t ≤ 9999) : ∀ b ∈ FormatTimeBytes t, b < 128 := by
  unfold Time.Year at h
  unfold FormatTimeBytes
  simp only []
  rw [appendInt_of_range _ h.1 h.2]
  intro b hb
  simp only [List.mem_append, List.mem_cons, List.not_mem_nil, or_false] at hb
  rcases hb with hb | hb | hb | hb | hb | hb | hb | hb | hb | hb | hb | hb | hb <;>
    first
    | exact lt_of_le_of_lt (padDigits_ascii _ _ b hb).2 (by norm_num)
    | omega

/-- C11: with the SDK's time formatter, for all times `t1`, `t2` whose years are in
0000..9999, the key of `t1` is lexicographically smaller than the key of `t2` exactly
when `t1` is earlier than `t2`, and the keys are equal exactly when `t1 = t2`. -/
theorem getRecordExpiryQueueTimeKey_order {B : Type} (env : Env B) (t1 t2 : Time)
    (hfmt : env.formatTimeBytes = FormatTimeBytes)
    (h1 : 0 ≤ Time.Year t1 ∧ Time.Year t1 ≤ 9999)
    (h2 : 0 ≤ Time.Year t2 ∧ Time.Year t2 ≤ 9999) :
    (getRecordExpiryQueueTimeKey env t1 < getRecordExpiryQueueTimeKey env t2 ↔ t1 < t2) ∧
    (getRecordExpiryQueueTimeKey env t1 = getRecordExpiryQueueTimeKey env t2 ↔ t1 = t2) := by
  have hkey : ∀ t, getRecordExpiryQueueTimeKey env t = 16 :: FormatTimeBytes t := by
    intro t; unfold getRecordExpiryQueueTimeKey; rw [hfmt]; rfl
  have hmono : ∀ a b : Time, 0 ≤ Time.Year a ∧ Time.Year a ≤ 9999 →
      0 ≤ Time.Year b ∧ Time.Year b ≤ 9999 → a < b →
      getRecordExpiryQueueTimeKey env a < getRecordExpiryQueueTimeKey env b := by
    intro a b ha hb hab
    rw [hkey, hkey]
    exact bytes_cons_lt_cons 16 _ _ (FormatTimeBytes_lt a b ha hb hab)
  constructor
  · constructor
    · intro hlt
      by_contra hnot
      rcases lt_or_eq_of_le (not_lt.mp hnot) with hgt | heq
      · exact lt_asymm hlt (hmono t2 t1 h2 h1 hgt)
      · rw [heq] at hlt; exact lt_irrefl _ hlt
    · exact hmono t1 t2 h1 h2
  · constructor
    · intro heq
      by_contra hne
      rcases lt_or_gt_of_ne hne with hlt | hgt
      · have := hmono t1 t2 h1 h2 hlt
        rw [heq] at this; exact lt_irrefl _ this
      · have := hmono t2 t1 h2 h1 hgt
        rw [heq] at this; exact lt_irrefl _ this
    · intro heq; rw [heq]

/-- Witness of C11: the times 1970-01-01T00:00:00Z and 2020-09-13T12:26:40.123456789Z. -/
theorem getRecordExpiryQueueTimeKey_order_witness :
    sdkEnv.formatTimeBytes = FormatTimeBytes ∧
    (0 ≤ Time.Year 0 ∧ Time.Year 0 ≤ 9999) ∧
    (0 ≤ Time.Year 1600000000123456789 ∧ Time.Year 1600000000123456789 ≤ 9999) ∧
    (getRecordExpiryQueueTimeKey sdkEnv 0 <
        getRecordExpiryQueueTimeKey sdkEnv 1600000000123456789 ↔
      (0 : Time) < 1600000000123456789) ∧
    (getRecordExpiryQueueTimeKey sdkEnv 0 =
        getRecordExpiryQueueTimeKey sdkEnv 1600000000123456789 ↔
      (0 : Time) = 1600000000123456789) :=
  ⟨rfl, by decide, by decide,
   getRecordExpiryQueueTimeKey_order sdkEnv 0 1600000000123456789 rfl (by decide) (by decide)⟩

/-- Counterexample to C12: the time 10000-01-01T00:00:00Z is formatted with a five-digit
year, on 30 bytes, and its expiry key is 31 bytes long. -/
theorem getRecordExpiryQueueTimeKey_long :
    sdkEnv.formatTimeBytes = FormatTimeBytes ∧
    Time.Year 253402300800000000000 = 10000 ∧
    FormatTimeBytes 253402300800000000000 = codes "10000-01-01T00:00:00.000000000" ∧
    (getRecordExpiryQueueTimeKey sdkEnv 253402300800000000000).length = 31 := by
  refine ⟨rfl, by decide, by decide, by decide⟩

/-- C12 (amended): `GetRecordIndexKey(id)` is the byte 0x00 followed by the UTF-8 bytes
of `id`; `getBondIDToRecordsIndexKey(bond, id)` is 0x03 followed by the bytes of `bond`
then of `id`, and `AddBondToRecordIndexEntry` stores the empty value under it; for a
time whose year is in 0000..9999, `getRecordExpiryQueueTimeKey(t)` is 0x10 followed by
exactly 29 ASCII time bytes, 30 bytes in all. -/
theorem store_key_layout {B : Type} (env : Env B) (st : State B) (id bond : String)
    (t : Time) (hfmt : env.formatTimeBytes = FormatTimeBytes)
    (hyear : 0 ≤ Time.Year t ∧ Time.Year t ≤ 9999) :
    GetRecordIndexKey id = 0x00 :: stringBytes id ∧
    getBondIDToRecordsIndexKey bond id = 0x03 :: (stringBytes bond ++ stringBytes id) ∧
    (AddBondToRecordIndexEntry st bond id).store.get (getBondIDToRecordsIndexKey bond id)
      = some [] ∧
    getRecordExpiryQueueTimeKey env t = 0x10 :: FormatTimeBytes t ∧
    (FormatTimeBytes t).length = 29 ∧
    (∀ b ∈ FormatTimeBytes t, b < 128) ∧
    (getRecordExpiryQueueTimeKey env t).length = 30 := by
  have hkey : getRecordExpiryQueueTimeKey env t = 0x10 :: FormatTimeBytes t := by
    unfold getRecordExpiryQueueTimeKey; rw [hfmt]; rfl
  refine ⟨rfl, ?_, ?_, hkey, FormatTimeBytes_length t hyear, FormatTimeBytes_ascii t hyear, ?_⟩
  · simp [getBondIDToRecordsIndexKey, PrefixBondIDToRecordsIndex]
  · unfold AddBondToRecordIndexEntry
    exact KVStore.get_set_self _ _ _
  · rw [hkey, List.length_cons, FormatTimeBytes_length t hyear]

/-- Witness of C12 (amended): the ids `Qma` and `bond1` and the time
2020-09-13T12:26:40.123456789Z. -/
theorem store_key_layout_witness :
    sdkEnv.formatTimeBytes = FormatTimeBytes ∧
    (0 ≤ Time.Year 1600000000123456789 ∧ Time.Year 1600000000123456789 ≤ 9999) ∧
    FormatTimeBytes 1600000000123456789 = codes "2020-09-13T12:26:40.123456789" ∧
    stringBytes "Qmé" = [0x51, 0x6d, 0xc3, 0xa9] ∧
    (GetRecordIndexKey "Qma" = 0x00 :: stringBytes "Qma" ∧
      getBondIDToRecordsIndexKey "bond1" "Qma" = 0x03 :: (stringBytes "bond1" ++ stringBytes "Qma") ∧
      (AddBondToRecordIndexEntry exampleState "bond1" "Qma").store.get
        (getBondIDToRecordsIndexKey "bond1" "Qma") = some [] ∧
      getRecordExpiryQueueTimeKey sdkEnv 1600000000123456789
        = 0x10 :: FormatTimeBytes 1600000000123456789 ∧
      (FormatTimeBytes 1600000000123456789).length = 29 ∧
      (∀ b ∈ FormatTimeBytes 1600000000123456789, b < 128) ∧
      (getRecordExpiryQueueTimeKey sdkEnv 1600000000123456789).length = 30) :=
  ⟨rfl, by decide, by decide, by decide,
   store_key_layout sdkEnv exampleState "Qma" "bond1" 1600000000123456789 rfl (by decide)⟩

/-! ## Queries -/

/-- C13, the code at the failing input: in a store whose only record, `Qmt`, is
tombstoned, `Querier.GetRecord` returns that record without error and
`Querier.ListRecords` lists it. -/
theorem Querier_returns_tombstoned :
    (GetRecord exampleEnv exampleTombstoneState "Qmt").map (fun r => r.Deleted) = some true ∧
    Querier.GetRecord exampleEnv exampleTombstoneState "Qmt" =
      some (.ok { Id := "Qmt", BondId := "bond1", CreateTime := 1000, ExpiryTime := 1500,
                  Deleted := true, Owners := ["K"], Attributes := [97] }) ∧
    Querier.ListRecords exampleEnv exampleTombstoneState =
      some (.ok [{ Id := "Qmt", BondId := "bond1", CreateTime := 1000, ExpiryTime := 1500,
                   Deleted := true, Owners := ["K"], Attributes := [97] }]) :=
  ⟨rfl, rfl, rfl⟩

theorem Querier_GetRecord_absent {B : Type} (env : Env B) (st : State B) (id : String)
    (h : HasRecord st id = false) :
    Querier.GetRecord env st id =
      some (.error ⟨ErrKind.unknownRequest, "Record not found."⟩) := by
  simp [Querier.GetRecord, h]

theorem Querier_GetRecord_present {B : Type} (env : Env B) (st : State B) (id : String)
    (h : HasRecord st id = true) :
    Querier.GetRecord env st id = (GetRecord env st id).map Except.ok := by
  simp [Querier.GetRecord, h]

/-- C14: after a successful `ProcessSetRecord` of a payload whose id `cid` was not stored,
with a record codec that round-trips, `Querier.GetRecord(cid)` succeeds and returns a
record with `Id = cid`, the JSON encoding of the payload's attribute map, the message's
bond id and the sorted addresses of the signers; and for every state and every id that
is not in the record index `Querier.GetRecord` returns the error "Record not found.". -/
theorem SetRecord_GetRecord_roundtrip {B : Type} (env : Env B) (ctx : Ctx) (st : State B)
    (msg : MsgSetRecord) (cid : String)
    (hcid : env.getCID (msgRecord env msg) = some cid)
    (hfresh : HasRecord st cid = false)
    (hok : (ProcessSetRecord env ctx st msg).2 = none)
    (hrt : ∀ r, env.unmarshalRecord (env.marshalRecord r) = some r) :
    (∃ R : Record,
      Querier.GetRecord env (ProcessSetRecord env ctx st msg).1 cid = some (.ok R) ∧
      R.Id = cid ∧
      R.Attributes = env.marshalMapToJSONBytes (msg.Payload.ToReadablePayload env).Record ∧
      R.BondId = msg.BondId ∧
      R.Owners = sortStrings (signerAddresses env msg.Payload.Signatures) ∧
      R.Deleted = false) ∧
    (∀ (st' : State B) (id : String), HasRecord st' id = false →
      Querier.GetRecord env st' id =
        some (.error ⟨ErrKind.unknownRequest, "Record not found."⟩)) := by
  obtain ⟨owners, b', hs, _, heq⟩ := ProcessSetRecord_fresh_ok env ctx st msg cid hcid hfresh hok
  have hown := (checkSignatures_ok_iff env _ _ owners hs).2
  refine ⟨⟨freshRecord env ctx msg cid owners, ?_, rfl, rfl, rfl, ?_, rfl⟩,
    fun st' id h => Querier_GetRecord_absent env st' id h⟩
  · rw [heq]
    rw [Querier_GetRecord_present env _ cid
      (HasRecord_freshState env ctx ⟨st.store, b'⟩ (freshRecord env ctx msg cid owners))]
    unfold GetRecord
    rw [freshState_get_head0 env ctx ⟨st.store, b'⟩ _ _ (head_GetRecordIndexKey _)]
    have hid : (freshRecord env ctx msg cid owners).Id = cid := rfl
    rw [hid, if_pos rfl]
    simp [hrt]
  · show sortStrings owners = _
    rw [hown]

/-- Witness of C14 on the example instance. -/
theorem SetRecord_GetRecord_roundtrip_witness :
    exampleEnv.getCID (msgRecord exampleEnv exampleMsg) = some "Qma" ∧
    HasRecord exampleState "Qma" = false ∧
    (ProcessSetRecord exampleEnv exampleCtx exampleState exampleMsg).2 = none ∧
    Querier.GetRecord exampleEnv
      (ProcessSetRecord exampleEnv exampleCtx exampleState exampleMsg).1 "Qma" =
      some (.ok { Id := "Qma", BondId := "bond1", CreateTime := 1000, ExpiryTime := 1500,
                  Deleted := false, Owners := ["K"], Attributes := [97] }) ∧
    Querier.GetRecord exampleEnv
      (ProcessSetRecord exampleEnv exampleCtx exampleState exampleMsg).1 "Qmb" =
      some (.error ⟨ErrKind.unknownRequest, "Record not found."⟩) ∧
    ((∃ R : Record,
      Querier.GetRecord exampleEnv
        (ProcessSetRecord exampleEnv exampleCtx exampleState exampleMsg).1 "Qma" = some (.ok R) ∧
      R.Id = "Qma" ∧
      R.Attributes = exampleEnv.marshalMapToJSONBytes
        (exampleMsg.Payload.ToReadablePayload exampleEnv).Record ∧
      R.BondId = exampleMsg.BondId ∧
      R.Owners = sortStrings (signerAddresses exampleEnv exampleMsg.Payload.Signatures) ∧
      R.Deleted = false) ∧
    (∀ (st' : State Balances) (id : String), HasRecord st' id = false →
      Querier.GetRecord exampleEnv st' id =
        some (.error ⟨ErrKind.unknownRequest, "Record not found."⟩))) :=
  ⟨rfl, rfl, rfl, rfl, rfl,
   SetRecord_GetRecord_roundtrip exampleEnv exampleCtx exampleState exampleMsg "Qma"
     rfl rfl rfl readRecord_writeRecord⟩

/-! ## Renewal -/

theorem isPrefixOf_false_of_head (pre k : Bytes) (c d : Nat) (hp : pre.head? = some c)
    (hk : k.head? = some d) (h : c ≠ d) : pre.isPrefixOf k = false := by
  cases pre with
  | nil => cases hp
  | cons p ps =>
    cases k with
    | nil => cases hk
    | cons q qs =>
      simp only [List.head?_cons, Option.some.injEq] at hp hk
      subst hp; subst hk
      simp [List.isPrefixOf, h]

theorem KVStore.prefixIterator_set_of_not_prefix (s : KVStore) (k v pre : Bytes)
    (h : pre.isPrefixOf k = false) :
    (KVStore.set s k v).prefixIterator pre = s.prefixIterator pre := by
  unfold KVStore.prefixIterator
  induction s with
  | nil => simp [KVStore.set, h]
  | cons p rest ih =>
    obtain ⟨k', v'⟩ := p
    unfold KVStore.set
    by_cases h1 : k = k'
    · subst h1
      simp [h]
    · by_cases h2 : k < k'
      · simp [h1, h2, h]
      · simp only [h1, h2, if_false, List.filter_cons, ih]

theorem processRecord_renewal_state {B : Type} (env : Env B) (ctx : Ctx) (st : State B)
    (r : RecordType) (b' : B)
    (htr : env.transferCoinsToModuleAccount st.bond r.BondId env.recordRentModuleAccountName
        (env.newCoins [ctx.params.RecordRent]) = (b', none)) :
    processRecord env ctx st r true =
      (InsertRecordExpiryQueue env
          (PutRecord env ctx ⟨st.store, b'⟩
            (RecordType.ToRecordObj env
              { Id := r.Id, BondId := r.BondId, CreateTime := ctx.blockTime
                ExpiryTime := ctx.blockTime + ctx.params.RecordRentDuration, Deleted := false
                Owners := r.Owners, Attributes := r.Attributes }))
          (RecordType.ToRecordObj env
            { Id := r.Id, BondId := r.BondId, CreateTime := ctx.blockTime
              ExpiryTime := ctx.blockTime + ctx.params.RecordRentDuration, Deleted := false
              Owners := r.Owners, Attributes := r.Attributes }),
        { Id := r.Id, BondId := r.BondId, CreateTime := ctx.blockTime
          ExpiryTime := ctx.blockTime + ctx.params.RecordRentDuration, Deleted := false
          Owners := r.Owners, Attributes := r.Attributes },
        none) := by
  unfold processRecord
  simp only [htr]
  rfl

/-- C15: when the rent transfer succeeds, `processRecord(r, isRenewal = true)` returns no
error, leaves in `r` and writes to the primary index a record whose id, attributes,
owners and bond id are those of `r` (only the two times and the tombstone are assigned),
and writes no bond-index entry: every key under prefix 0x03 has the value, or absence,
it had before, and iterating that prefix visits the same pairs. -/
theorem processRecord_renewal_frame {B : Type} (env : Env B) (ctx : Ctx) (st : State B)
    (r : RecordType) (b' : B)
    (htr : env.transferCoinsToModuleAccount st.bond r.BondId env.recordRentModuleAccountName
        (env.newCoins [ctx.params.RecordRent]) = (b', none)) :
    (processRecord env ctx st r true).2.2 = none ∧
    ((processRecord env ctx st r true).2.1.Id = r.Id ∧
      (processRecord env ctx st r true).2.1.Attributes = r.Attributes ∧
      (processRecord env ctx st r true).2.1.Owners = r.Owners ∧
      (processRecord env ctx st r true).2.1.BondId = r.BondId) ∧
    (∃ R : Record,
      (processRecord env ctx st r true).1.store.get (GetRecordIndexKey r.Id)
        = some (env.marshalRecord R) ∧
      R.Id = r.Id ∧ R.Attributes = env.marshalMapToJSONBytes r.Attributes ∧
      R.Owners = r.Owners ∧ R.BondId = r.BondId ∧
      R.CreateTime = ctx.blockTime ∧
      R.ExpiryTime = ctx.blockTime + ctx.params.RecordRentDuration ∧ R.Deleted = false) ∧
    (∀ k : Bytes, PrefixBondIDToRecordsIndex <+: k →
      (processRecord env ctx st r true).1.store.get k = st.store.get k) ∧
    (processRecord env ctx st r true).1.store.prefixIterator PrefixBondIDToRecordsIndex =
      st.store.prefixIterator PrefixBondIDToRecordsIndex := by
  rw [processRecord_renewal_state env ctx st r b' htr]
  refine ⟨rfl, ⟨rfl, rfl, rfl, rfl⟩,
    ⟨RecordType.ToRecordObj env
      { Id := r.Id, BondId := r.BondId, CreateTime := ctx.blockTime
        ExpiryTime := ctx.blockTime + ctx.params.RecordRentDuration, Deleted := false
        Owners := r.Owners, Attributes := r.Attributes },
      ?_, rfl, rfl, rfl, rfl, rfl, rfl, rfl⟩, ?_, ?_⟩
  · have h16 : GetRecordIndexKey r.Id ≠
        getRecordExpiryQueueTimeKey env (ctx.blockTime + ctx.params.RecordRentDuration) :=
      key_ne_of_head (by rw [head_getRecordExpiryQueueTimeKey, head_GetRecordIndexKey]; decide)
    have h4 : GetRecordIndexKey r.Id ≠ getBlockChangesetIndexKey ctx.blockHeight :=
      key_ne_of_head (by rw [head_getBlockChangesetIndexKey, head_GetRecordIndexKey]; decide)
    simp only [InsertRecordExpiryQueue, SetRecordExpiryQueueTimeSlice, PutRecord,
      updateBlockChangeSetForRecord, RecordType.ToRecordObj]
    rw [KVStore.get_set_of_ne _ _ _ _ h16, KVStore.get_set_of_ne _ _ _ _ h4,
      KVStore.get_set_self]
  · intro k hk
    have hk3 : k.head? = some 3 := by
      obtain ⟨t, ht⟩ := hk
      rw [← ht]; rfl
    have h16 : k ≠
        getRecordExpiryQueueTimeKey env (ctx.blockTime + ctx.params.RecordRentDuration) :=
      key_ne_of_head (by rw [hk3, head_getRecordExpiryQueueTimeKey]; decide)
    have h4 : k ≠ getBlockChangesetIndexKey ctx.blockHeight :=
      key_ne_of_head (by rw [hk3, head_getBlockChangesetIndexKey]; decide)
    have h0 : k ≠ GetRecordIndexKey r.Id :=
      key_ne_of_head (by rw [hk3, head_GetRecordIndexKey]; decide)
    simp only [InsertRecordExpiryQueue, SetRecordExpiryQueueTimeSlice, PutRecord,
      updateBlockChangeSetForRecord, RecordType.ToRecordObj]
    rw [KVStore.get_set_of_ne _ _ _ _ h16, KVStore.get_set_of_ne _ _ _ _ h4,
      KVStore.get_set_of_ne _ _ _ _ h0]
  · simp only [InsertRecordExpiryQueue, SetRecordExpiryQueueTimeSlice, PutRecord,
      updateBlockChangeSetForRecord, RecordType.ToRecordObj]
    rw [KVStore.prefixIterator_set_of_not_prefix _ _ _ _
        (isPrefixOf_false_of_head PrefixBondIDToRecordsIndex _ 3 16 rfl (head_getRecordExpiryQueueTimeKey env _)
          (by decide)),
      KVStore.prefixIterator_set_of_not_prefix _ _ _ _
        (isPrefixOf_false_of_head PrefixBondIDToRecordsIndex _ 3 4 rfl (head_getBlockChangesetIndexKey _) (by decide)),
      KVStore.prefixIterator_set_of_not_prefix _ _ _ _
        (isPrefixOf_false_of_head PrefixBondIDToRecordsIndex _ 3 0 rfl (head_GetRecordIndexKey _) (by decide))]

/-- Witness of C15 on the example instance: the bond holds 10 units and pays the rent. -/
theorem processRecord_renewal_frame_witness :
    exampleEnv.transferCoinsToModuleAccount exampleState.bond exampleRecordType.BondId
        exampleEnv.recordRentModuleAccountName
        (exampleEnv.newCoins [exampleCtx.params.RecordRent]) = ([("bond1", 9)], none) ∧
    (processRecord exampleEnv exampleCtx exampleState exampleRecordType true).1.store.get
        (getBondIDToRecordsIndexKey "bond1" "Qma") = none ∧
    ((processRecord exampleEnv exampleCtx exampleState exampleRecordType true).2.2 = none ∧
    ((processRecord exampleEnv exampleCtx exampleState exampleRecordType true).2.1.Id
        = exampleRecordType.Id ∧
      (processRecord exampleEnv exampleCtx exampleState exampleRecordType true).2.1.Attributes
        = exampleRecordType.Attributes ∧
      (processRecord exampleEnv exampleCtx exampleState exampleRecordType true).2.1.Owners
        = exampleRecordType.Owners ∧
      (processRecord exampleEnv exampleCtx exampleState exampleRecordType true).2.1.BondId
        = exampleRecordType.BondId) ∧
    (∃ R : Record,
      (processRecord exampleEnv exampleCtx exampleState exampleRecordType true).1.store.get
        (GetRecordIndexKey exampleRecordType.Id) = some (exampleEnv.marshalRecord R) ∧
      R.Id = exampleRecordType.Id ∧
      R.Attributes = exampleEnv.marshalMapToJSONBytes exampleRecordType.Attributes ∧
      R.Owners = exampleRecordType.Owners ∧ R.BondId = exampleRecordType.BondId ∧
      R.CreateTime = exampleCtx.blockTime ∧
      R.ExpiryTime = exampleCtx.blockTime + exampleCtx.params.RecordRentDuration ∧
      R.Deleted = false) ∧
    (∀ k : Bytes, PrefixBondIDToRecordsIndex <+: k →
      (processRecord exampleEnv exampleCtx exampleState exampleRecordType true).1.store.get k
        = exampleState.store.get k) ∧
    (processRecord exampleEnv exampleCtx exampleState exampleRecordType true).1.store.prefixIterator
        PrefixBondIDToRecordsIndex =
      exampleState.store.prefixIterator PrefixBondIDToRecordsIndex) :=
  ⟨rfl, rfl,
   processRecord_renewal_frame exampleEnv exampleCtx exampleState exampleRecordType
     [("bond1", 9)] rfl⟩

/-! ## Message validation -/

theorem utf8Char_ne_nil (c : Char) : utf8Char c ≠ [] := by
  unfold utf8Char
  simp only []
  split_ifs <;> simp

theorem goLen_eq_zero (s : String) : goLen s = 0 ↔ s = "" := by
  unfold goLen stringBytes
  constructor
  · intro h
    have hnil : List.flatMap s.data utf8Char = [] := List.length_eq_zero.mp h
    cases s with
    | mk data =>
      cases data with
      | nil => rfl
      | cons c cs =>
        exfalso
        simp only [List.flatMap_cons, List.append_eq_nil] at hnil
        exact utf8Char_ne_nil c hnil.1
  · intro h
    subst h
    rfl

theorem checkOwners_eq_none (owners : List String) :
    checkOwners owners = none ↔ ∀ o ∈ owners, o ≠ "" := by
  induction owners with
  | nil => simp [checkOwners]
  | cons o rest ih =>
    unfold checkOwners
    by_cases h : o = ""
    · simp [h]
    · simp [h, ih]

theorem checkOwners_kind (owners : List String) (e : Error) (h : checkOwners owners = some e) :
    e = ⟨ErrKind.invalidRequest, "Record owner not set."⟩ := by
  induction owners with
  | nil => simp [checkOwners] at h
  | cons o rest ih =>
    unfold checkOwners at h
    by_cases ho : o = ""
    · simp only [ho, if_true, Option.some.injEq] at h
      exact h.symm
    · simp only [ho, if_false] at h
      exact ih h

/-- Counterexample to C16: a `MsgSetName` with a WRN, a signer and the empty cid is
rejected with the InvalidRequest error "CID is required.". -/
theorem MsgSetName_empty_cid_rejected :
    MsgSetName.ValidateBasic ⟨"wrn://example/app", "", "alice"⟩ =
      some ⟨ErrKind.invalidRequest, "CID is required."⟩ ∧
    MsgSetName.ValidateBasic ⟨"wrn://example/app", "", "alice"⟩ ≠ none := by
  decide

/-- C16 (amended): for every `MsgSetName` with a non-empty `Wrn` and `Cid` equal to the
empty string, `ValidateBasic` returns the InvalidRequest error "CID is required.",
whatever the signer, so the message does not reach dispatch; `ValidateBasic` returns no
error exactly when `Wrn`, `Cid` and `Signer` are all non-empty. -/
theorem MsgSetName_ValidateBasic_cid (msg : MsgSetName)
    (hwrn : msg.Wrn ≠ "") (hcid : msg.Cid = "") :
    msg.ValidateBasic = some ⟨ErrKind.invalidRequest, "CID is required."⟩ ∧
    ∀ m : MsgSetName, m.ValidateBasic = none ↔ (m.Wrn ≠ "" ∧ m.Cid ≠ "" ∧ m.Signer ≠ "") := by
  constructor
  · unfold MsgSetName.ValidateBasic
    simp [hwrn, hcid]
  · intro m
    unfold MsgSetName.ValidateBasic
    by_cases h1 : m.Wrn = "" <;> by_cases h2 : m.Cid = "" <;>
      by_cases h3 : m.Signer = "" <;> simp [h1, h2, h3, goLen_eq_zero]

/-- Witness of C16 (amended). -/
theorem MsgSetName_ValidateBasic_cid_witness :
    (⟨"wrn://example/app", "", "alice"⟩ : MsgSetName).Wrn ≠ "" ∧
    (⟨"wrn://example/app", "", "alice"⟩ : MsgSetName).Cid = "" ∧
    (MsgSetName.ValidateBasic ⟨"wrn://example/app", "", "alice"⟩ =
        some ⟨ErrKind.invalidRequest, "CID is required."⟩ ∧
      ∀ m : MsgSetName,
        m.ValidateBasic = none ↔ (m.Wrn ≠ "" ∧ m.Cid ≠ "" ∧ m.Signer ≠ "")) :=
  ⟨by decide, rfl,
   MsgSetName_ValidateBasic_cid ⟨"wrn://example/app", "", "alice"⟩ (by decide) rfl⟩

/-- C17, the code at the failing input: `MsgSetName.ValidateBasic` accepts the WRN `://`,
which has no `wrn://` scheme and no authority, while `MsgDeleteNameAuthority.ValidateBasic`
rejects the same WRN with an InvalidRequest error when `url.Parse` fails on it. -/
theorem MsgSetName_accepts_unparseable_wrn :
    MsgSetName.ValidateBasic ⟨"://", "QmContent", "alice"⟩ = none ∧
    MsgSetName.ValidateBasic ⟨"not a wrn", "QmContent", "alice"⟩ = none ∧
    MsgDeleteNameAuthority.ValidateBasic (fun w => decide (w ≠ "://")) ⟨"://", "alice"⟩ =
      some ⟨ErrKind.invalidRequest, "invalid wrn."⟩ := by
  decide

/-- Counterexample to C18: an empty signer gives an error of kind InvalidAddress, and an
empty bond id gives kind Unauthorized in `MsgSetRecord` and kind InvalidAddress in
`MsgSetAuthorityBond`; none of these kinds is InvalidRequest. -/
theorem ValidateBasic_empty_field_kinds :
    MsgRenewRecord.ValidateBasic ⟨"Qma", ""⟩ = some ⟨ErrKind.invalidAddress, "invalid signer."⟩ ∧
    MsgSetRecord.ValidateBasic { exampleMsg with BondId := "" } =
      some ⟨ErrKind.unauthorized, "Bond ID is required."⟩ ∧
    MsgSetAuthorityBond.ValidateBasic ⟨"name", "alice", ""⟩ =
      some ⟨ErrKind.invalidAddress, "bond id is required."⟩ ∧
    ErrKind.invalidAddress ≠ ErrKind.invalidRequest ∧
    ErrKind.unauthorized ≠ ErrKind.invalidRequest := by
  decide

/-- C18 (amended): whenever `ValidateBasic` of a nameservice message fails because a
name, wrn, cid, record id or record owner is empty, or because a bond id is empty in
`MsgAssociateBond`, `MsgDissociateRecords` or `MsgReAssociateRecords`, the error kind is
InvalidRequest; whenever it fails because the signer is empty, the error kind is
InvalidAddress. Each clause takes the fields checked before as non-empty. -/
theorem ValidateBasic_error_kinds :
    -- MsgSetName
    (∀ m : MsgSetName, m.Wrn = "" → errKind m.ValidateBasic = some ErrKind.invalidRequest) ∧
    (∀ m : MsgSetName, m.Wrn ≠ "" → m.Cid = "" →
      errKind m.ValidateBasic = some ErrKind.invalidRequest) ∧
    (∀ m : MsgSetName, m.Wrn ≠ "" → m.Cid ≠ "" → m.Signer = "" →
      errKind m.ValidateBasic = some ErrKind.invalidAddress) ∧
    -- MsgReserveAuthority
    (∀ m : MsgReserveAuthority, m.Name = "" →
      errKind m.ValidateBasic = some ErrKind.invalidRequest) ∧
    (∀ m : MsgReserveAuthority, m.Name ≠ "" → m.Signer = "" →
      errKind m.ValidateBasic = some ErrKind.invalidAddress) ∧
    -- MsgSetAuthorityBond
    (∀ m : MsgSetAuthorityBond, m.Name = "" →
      errKind m.ValidateBasic = some ErrKind.invalidRequest) ∧
    (∀ m : MsgSetAuthorityBond, m.Name ≠ "" → m.Signer = "" →
      errKind m.ValidateBasic = some ErrKind.invalidAddress) ∧
    -- MsgDeleteNameAuthority
    (∀ (p : String → Bool) (m : MsgDeleteNameAuthority), m.Wrn = "" →
      errKind (m.ValidateBasic p) = some ErrKind.invalidRequest) ∧
    (∀ (p : String → Bool) (m : MsgDeleteNameAuthority), m.Wrn ≠ "" → m.Signer = "" →
      errKind (m.ValidateBasic p) = some ErrKind.invalidAddress) ∧
    -- MsgSetRecord
    (∀ m : MsgSetRecord, m.Signer = "" →
      errKind m.ValidateBasic = some ErrKind.invalidAddress) ∧
    (∀ m : MsgSetRecord, m.Signer ≠ "" → "" ∈ m.Payload.Record.Owners →
      errKind m.ValidateBasic = some ErrKind.invalidRequest) ∧
    -- MsgRenewRecord
    (∀ m : MsgRenewRecord, m.RecordId = "" →
      errKind m.ValidateBasic = some ErrKind.invalidRequest) ∧
    (∀ m : MsgRenewRecord, m.RecordId ≠ "" → m.Signer = "" →
      errKind m.ValidateBasic = some ErrKind.invalidAddress) ∧
    -- MsgAssociateBond
    (∀ m : MsgAssociateBond, m.RecordId = "" →
      errKind m.ValidateBasic = some ErrKind.invalidRequest) ∧
    (∀ m : MsgAssociateBond, m.RecordId ≠ "" → m.BondId = "" →
      errKind m.ValidateBasic = some ErrKind.invalidRequest) ∧
    (∀ m : MsgAssociateBond, m.RecordId ≠ "" → m.BondId ≠ "" → m.Signer = "" →
      errKind m.ValidateBasic = some ErrKind.invalidAddress) ∧
    -- MsgDissociateBond
    (∀ m : MsgDissociateBond, m.RecordId = "" →
      errKind m.ValidateBasic = some ErrKind.invalidRequest) ∧
    (∀ m : MsgDissociateBond, m.RecordId ≠ "" → m.Signer = "" →
      errKind m.ValidateBasic = some ErrKind.invalidAddress) ∧
    -- MsgDissociateRecords
    (∀ m : MsgDissociateRecords, m.BondId = "" →
      errKind m.ValidateBasic = some ErrKind.invalidRequest) ∧
    (∀ m : MsgDissociateRecords, m.BondId ≠ "" → m.Signer = "" →
      errKind m.ValidateBasic = some ErrKind.invalidAddress) ∧
    -- MsgReAssociateRecords
    (∀ m : MsgReAssociateRecords, m.OldBondId = "" →
      errKind m.ValidateBasic = some ErrKind.invalidRequest) ∧
    (∀ m : MsgReAssociateRecords, m.OldBondId ≠ "" → m.NewBondId = "" →
      errKind m.ValidateBasic = some ErrKind.invalidRequest) ∧
    (∀ m : MsgReAssociateRecords, m.OldBondId ≠ "" → m.NewBondId ≠ "" → m.Signer = "" →
      errKind m.ValidateBasic = some ErrKind.invalidAddress) := by
  refine ⟨?_, ?_, ?_, ?_, ?_, ?_, ?_, ?_, ?_, ?_, ?_, ?_, ?_, ?_, ?_, ?_, ?_, ?_, ?_, ?_,
    ?_, ?_, ?_⟩
  case refine_11 =>
    intro m hs hmem
    have hne : checkOwners m.Payload.Record.Owners ≠ none := by
      rw [Ne, checkOwners_eq_none]
      intro hall
      exact hall "" hmem rfl
    cases hc : checkOwners m.Payload.Record.Owners with
    | none => exact absurd hc hne
    | some e =>
      have he := checkOwners_kind _ e hc
      subst he
      simp [MsgSetRecord.ValidateBasic, errKind, goLen_eq_zero, hs, hc]
  all_goals
    intros
    simp_all [errKind, goLen_eq_zero, MsgSetName.ValidateBasic,
      MsgReserveAuthority.ValidateBasic, MsgSetAuthorityBond.ValidateBasic,
      MsgDeleteNameAuthority.ValidateBasic, MsgSetRecord.ValidateBasic,
      MsgRenewRecord.ValidateBasic, MsgAssociateBond.ValidateBasic,
      MsgDissociateBond.ValidateBasic, MsgDissociateRecords.ValidateBasic,
      MsgReAssociateRecords.ValidateBasic]

/-- C19: `ValidateBasic` of `MsgRenewRecord`, `MsgAssociateBond`, `MsgDissociateBond`,
`MsgDissociateRecords` and `MsgReAssociateRecords` returns no error exactly when every
string field of the message is non-empty, and `MsgSetRecord.ValidateBasic` returns no
error exactly when the signer and the bond id are non-empty and no owner of the payload
record is the empty string. -/
theorem ValidateBasic_ok_iff :
    (∀ m : MsgRenewRecord, m.ValidateBasic = none ↔ (m.RecordId ≠ "" ∧ m.Signer ≠ "")) ∧
    (∀ m : MsgAssociateBond, m.ValidateBasic = none ↔
      (m.RecordId ≠ "" ∧ m.BondId ≠ "" ∧ m.Signer ≠ "")) ∧
    (∀ m : MsgDissociateBond, m.ValidateBasic = none ↔ (m.RecordId ≠ "" ∧ m.Signer ≠ "")) ∧
    (∀ m : MsgDissociateRecords, m.ValidateBasic = none ↔ (m.BondId ≠ "" ∧ m.Signer ≠ "")) ∧
    (∀ m : MsgReAssociateRecords, m.ValidateBasic = none ↔
      (m.OldBondId ≠ "" ∧ m.NewBondId ≠ "" ∧ m.Signer ≠ "")) ∧
    (∀ m : MsgSetRecord, m.ValidateBasic = none ↔
      (m.Signer ≠ "" ∧ m.BondId ≠ "" ∧ ∀ o ∈ m.Payload.Record.Owners, o ≠ "")) := by
  refine ⟨?_, ?_, ?_, ?_, ?_, ?_⟩
  · intro m
    unfold MsgRenewRecord.ValidateBasic
    by_cases h1 : m.RecordId = "" <;> by_cases h2 : m.Signer = "" <;>
      simp [h1, h2, goLen_eq_zero]
  · intro m
    unfold MsgAssociateBond.ValidateBasic
    by_cases h1 : m.RecordId = "" <;> by_cases h2 : m.BondId = "" <;>
      by_cases h3 : m.Signer = "" <;> simp [h1, h2, h3, goLen_eq_zero]
  · intro m
    unfold MsgDissociateBond.ValidateBasic
    by_cases h1 : m.RecordId = "" <;> by_cases h2 : m.Signer = "" <;>
      simp [h1, h2, goLen_eq_zero]
  · intro m
    unfold MsgDissociateRecords.ValidateBasic
    by_cases h1 : m.BondId = "" <;> by_cases h2 : m.Signer = "" <;>
      simp [h1, h2, goLen_eq_zero]
  · intro m
    unfold MsgReAssociateRecords.ValidateBasic
    by_cases h1 : m.OldBondId = "" <;> by_cases h2 : m.NewBondId = "" <;>
      by_cases h3 : m.Signer = "" <;> simp [h1, h2, h3, goLen_eq_zero]
  · intro m
    unfold MsgSetRecord.ValidateBasic
    by_cases h1 : m.Signer = ""
    · simp [h1, goLen_eq_zero]
    · cases hc : checkOwners m.Payload.Record.Owners with
      | some e =>
        have hne : ¬ ∀ o ∈ m.Payload.Record.Owners, o ≠ "" := by
          rw [← checkOwners_eq_none, hc]; simp
        simp [h1, goLen_eq_zero, hne]
      | none =>
        have hall := (checkOwners_eq_none _).mp hc
        by_cases h2 : m.BondId = ""
        · simp [h1, h2, goLen_eq_zero]
        · simp only [goLen_eq_zero, h1, h2, if_false, ne_eq, not_false_eq_true, true_and]
          exact ⟨fun _ => hall, fun _ => trivial⟩

/-! ## Presentation of attributes -/

theorem keyValuePair_link (jm : Value → Except Error String) (key s : String) :
    Gql.keyValuePair jm key (Value.obj [("/", Value.str s)]) =
      .ok { Key := key
            Value := { Null := some false, Int := none, Float := none, String := none,
                       Boolean := none, JSON := none, Reference := some ⟨s⟩ } } := by
  simp [Gql.keyValuePair, Gql.emptyValue, List.lookup]

theorem lookup_single_slash (obj : List (String × Value)) (v : Value)
    (hlen : obj.length = 1) (hl : obj.lookup "/" = some v) : obj = [("/", v)] := by
  match obj, hlen with
  | [(k, w)], _ =>
    rw [List.lookup_cons] at hl
    by_cases hk : ("/" == k) = true
    · rw [hk] at hl
      have hk' : "/" = k := by simpa using hk
      subst hk'
      simp only [Option.some.injEq] at hl
      rw [hl]
    · have hk' : ("/" == k) = false := by simpa using hk
      rw [hk'] at hl
      simp [List.lookup] at hl

theorem keyValuePair_presents (jm : Value → Except Error String) (key : String)
    (value : Value) (kv : Gql.KeyValue) (h : Gql.keyValuePair jm key value = .ok kv) :
    PresentsLink (key, value) kv := by
  cases value with
  | null =>
    simp [Gql.keyValuePair, Gql.emptyValue] at h
    subst h
    exact ⟨rfl, fun s hs => by simp at hs, fun _ => rfl⟩
  | int n =>
    simp [Gql.keyValuePair, Gql.emptyValue] at h
    subst h
    exact ⟨rfl, fun s hs => by simp at hs, fun _ => rfl⟩
  | float b =>
    simp [Gql.keyValuePair, Gql.emptyValue] at h
    subst h
    exact ⟨rfl, fun s hs => by simp at hs, fun _ => rfl⟩
  | str x =>
    simp [Gql.keyValuePair, Gql.emptyValue] at h
    subst h
    exact ⟨rfl, fun s hs => by simp at hs, fun _ => rfl⟩
  | bool b =>
    simp [Gql.keyValuePair, Gql.emptyValue] at h
    subst h
    exact ⟨rfl, fun s hs => by simp at hs, fun _ => rfl⟩
  | list xs =>
    cases hj : jm (Value.list xs) with
    | error e => simp [Gql.keyValuePair, hj] at h
    | ok js =>
      simp [Gql.keyValuePair, Gql.emptyValue, hj] at h
      subst h
      exact ⟨rfl, fun s hs => by simp at hs, fun _ => rfl⟩
  | obj obj =>
    by_cases hc : ((obj.lookup "/").isSome && obj.length == 1) = true
    · -- a one-key object with key "/"
      have hlen : obj.length = 1 := by
        simp only [Bool.and_eq_true, beq_iff_eq] at hc; exact hc.2
      cases hl : obj.lookup "/" with
      | none => simp [hl] at hc
      | some v =>
        have hobj := lookup_single_slash obj v hlen hl
        subst hobj
        cases v with
        | str s0 =>
          rw [keyValuePair_link] at h
          cases h
          refine ⟨rfl, fun s hs => ?_, fun hns => absurd rfl (hns s0)⟩
          simp only [Value.obj.injEq, List.cons.injEq, Prod.mk.injEq, Value.str.injEq,
            true_and, and_true] at hs
          subst hs
          exact ⟨rfl, rfl, rfl, rfl, rfl, rfl⟩
        | null =>
          simp [Gql.keyValuePair, Gql.emptyValue, List.lookup] at h
          subst h
          exact ⟨rfl, fun s hs => by simp at hs, fun _ => rfl⟩
        | int n =>
          simp [Gql.keyValuePair, Gql.emptyValue, List.lookup] at h
          subst h
          exact ⟨rfl, fun s hs => by simp at hs, fun _ => rfl⟩
        | float b =>
          simp [Gql.keyValuePair, Gql.emptyValue, List.lookup] at h
          subst h
          exact ⟨rfl, fun s hs => by simp at hs, fun _ => rfl⟩
        | bool b =>
          simp [Gql.keyValuePair, Gql.emptyValue, List.lookup] at h
          subst h
          exact ⟨rfl, fun s hs => by simp at hs, fun _ => rfl⟩
        | obj o =>
          simp [Gql.keyValuePair, Gql.emptyValue, List.lookup] at h
          subst h
          exact ⟨rfl, fun s hs => by simp at hs, fun _ => rfl⟩
        | list l =>
          simp [Gql.keyValuePair, Gql.emptyValue, List.lookup] at h
          subst h
          exact ⟨rfl, fun s hs => by simp at hs, fun _ => rfl⟩
    · have hc' : ((obj.lookup "/").isSome && obj.length == 1) = false := by
        simpa using hc
      cases hj : jm (Value.obj obj) with
      | error e => simp [Gql.keyValuePair, hc', hj] at h
      | ok js =>
        simp [Gql.keyValuePair, Gql.emptyValue, hc', hj] at h
        subst h
        refine ⟨rfl, fun s hs => ?_, fun _ => rfl⟩
        simp only [Value.obj.injEq] at hs
        subst hs
        simp [List.lookup] at hc'

theorem keyValuePairs_presents (jm : Value → Except Error String) (attrs : AttrMap)
    (acc kvs : List Gql.KeyValue) (h : Gql.keyValuePairs jm attrs acc = .ok kvs) :
    ∃ new, kvs = acc ++ new ∧ List.Forall₂ PresentsLink attrs new := by
  induction attrs generalizing acc with
  | nil =>
    simp only [Gql.keyValuePairs, Except.ok.injEq] at h
    exact ⟨[], by simp [h], List.Forall₂.nil⟩
  | cons a rest ih =>
    obtain ⟨key, value⟩ := a
    unfold Gql.keyValuePairs at h
    cases hp : Gql.keyValuePair jm key value with
    | error e => simp [hp] at h
    | ok kv =>
      simp only [hp] at h
      obtain ⟨new, hnew, hall⟩ := ih _ h
      refine ⟨kv :: new, by simp [hnew], List.Forall₂.cons ?_ hall⟩
      exact keyValuePair_presents jm key value kv hp

/-- C20: when `mapToKeyValuePairs` returns the pairs `kvs` for an attribute map, the pairs
correspond one to one, in order, to the entries of the map; the pair of an entry whose
value is the object `{"/": s}` with `s` a string has `Reference.ID = s` and none of
`Int`, `Float`, `String`, `Boolean` and `JSON` set, and the pair of an entry whose value
has any other shape has no `Reference`; a link entry never makes the conversion fail. -/
theorem mapToKeyValuePairs_reference (jm : Value → Except Error String) (attrs : AttrMap)
    (kvs : List Gql.KeyValue) (hok : Gql.mapToKeyValuePairs jm attrs = .ok kvs) :
    List.Forall₂ PresentsLink attrs kvs ∧
    ∀ key s : String, Gql.keyValuePair jm key (Value.obj [("/", Value.str s)]) =
      .ok { Key := key
            Value := { Null := some false, Int := none, Float := none, String := none,
                       Boolean := none, JSON := none, Reference := some ⟨s⟩ } } := by
  obtain ⟨new, hnew, hall⟩ := keyValuePairs_presents jm attrs [] kvs hok
  rw [List.nil_append] at hnew
  subst hnew
  exact ⟨hall, fun key s => keyValuePair_link jm key s⟩

/-- Witness of C20 on the example attribute map. -/
theorem mapToKeyValuePairs_reference_witness :
    (∃ kvs, Gql.mapToKeyValuePairs Gql.exampleJsonMarshal exampleAttrs = .ok kvs ∧
      kvs.map (fun kv => (kv.Key, kv.Value.Reference)) =
        [("link", some ⟨"Qmx"⟩), ("n", none), ("odd", none), ("list", none), ("obj", none),
         ("none", none), ("s", none)] ∧
      List.Forall₂ PresentsLink exampleAttrs kvs ∧
      ∀ key s : String,
        Gql.keyValuePair Gql.exampleJsonMarshal key (Value.obj [("/", Value.str s)]) =
          .ok { Key := key
                Value := { Null := some false, Int := none, Float := none, String := none,
                           Boolean := none, JSON := none, Reference := some ⟨s⟩ } }) :=
  ⟨_, rfl, rfl, mapToKeyValuePairs_reference Gql.exampleJsonMarshal exampleAttrs _ rfl⟩

/-! ## Presentation of nested values and events -/

theorem keyValuePair_list_json (jm : Value → Except Error String) (key j : String)
    (l : List Value) (hj : jm (Value.list l) = .ok j) :
    Gql.keyValuePair jm key (Value.list l) =
      .ok { Key := key
            Value := { Null := some false, Int := none, Float := none, String := none,
                       Boolean := none, JSON := some j, Reference := none } } := by
  simp [Gql.keyValuePair, Gql.emptyValue, hj]

theorem keyValuePair_object_json (jm : Value → Except Error String) (key j : String)
    (obj : List (String × Value)) (hj : jm (Value.obj obj) = .ok j)
    (hobj : ¬ ((obj.lookup "/").isSome = true ∧ obj.length = 1)) :
    Gql.keyValuePair jm key (Value.obj obj) =
      .ok { Key := key
            Value := { Null := some false, Int := none, Float := none, String := none,
                       Boolean := none, JSON := some j, Reference := none } } := by
  have h : ((obj.lookup "/").isSome && obj.length == 1) = false := by
    cases h1 : (obj.lookup "/").isSome <;> simp_all
  simp [Gql.keyValuePair, Gql.emptyValue, hj, h]

/-- C21, the code at the failing input: the attribute `odd` with value `{"/": 1}`, a
one-key object that is not a link, is presented with no field set but `Null`, so its
`JSON` is absent, in the full example map as alone; the object `obj` with two keys
and the list `list` of the same map are presented with `JSON` set. -/
theorem mapToKeyValuePairs_slash_object_no_json :
    Gql.keyValuePair Gql.exampleJsonMarshal "odd" (Value.obj [("/", Value.int 1)]) =
      .ok { Key := "odd"
            Value := { Null := some false, Int := none, Float := none, String := none,
                       Boolean := none, JSON := none, Reference := none } } ∧
    (Gql.mapToKeyValuePairs Gql.exampleJsonMarshal exampleAttrs).map
        (fun kvs => (kvs.filter (fun kv => kv.Key = "odd")).map (fun kv => kv.Value.JSON)) =
      .ok [none] ∧
    (Gql.mapToKeyValuePairs Gql.exampleJsonMarshal exampleAttrs).map
        (fun kvs => (kvs.filter (fun kv => kv.Key = "obj" ∨ kv.Key = "list")).map
          (fun kv => kv.Value.JSON.isSome)) =
      .ok [true, true] := by
  refine ⟨rfl, rfl, rfl⟩

theorem msgServer_CreateAuction_ok {S Addr Auction Bid : Type}
    (env : AuctionEnv S Addr Auction Bid) (s s' : S) (msg : MsgCreateAuction) (a : Addr)
    (resp : Auction) (ha : env.accAddressFromBech32 msg.Signer = .ok a)
    (hk : env.keeperCreateAuction s msg = (s', .ok resp)) :
    msgServer.CreateAuction env s msg =
      (s',
       [{ EventType := env.EventTypeCreateAuction
          Attributes :=
            [(env.AttributeKeyCommitsDuration, env.durationString msg.CommitsDuration),
             (env.AttributeKeyCommitFee, env.coinString msg.CommitFee),
             (env.AttributeKeyRevealFee, env.coinString msg.RevealFee),
             (env.AttributeKeyMinimumBid, env.coinString msg.MinimumBid)] },
        messageEvent env a],
       .ok resp) := by
  simp [msgServer.CreateAuction, ha, hk]

theorem msgServer_CommitBid_ok {S Addr Auction Bid : Type}
    (env : AuctionEnv S Addr Auction Bid) (s s' : S) (msg : MsgCommitBid) (a : Addr)
    (resp : Bid) (ha : env.accAddressFromBech32 msg.Signer = .ok a)
    (hk : env.keeperCommitBid s msg = (s', .ok resp)) :
    msgServer.CommitBid env s msg =
      (s',
       [{ EventType := env.EventTypeCommitBid
          Attributes := [(env.AttributeKeyAuctionID, msg.AuctionId),
                         (env.AttributeKeyCommitHash, msg.CommitHash)] },
        messageEvent env a],
       .ok resp) := by
  simp [msgServer.CommitBid, ha, hk]

theorem msgServer_RevealBid_ok {S Addr Auction Bid : Type}
    (env : AuctionEnv S Addr Auction Bid) (s s' : S) (msg : MsgRevealBid) (a : Addr)
    (resp : Auction) (ha : env.accAddressFromBech32 msg.Signer = .ok a)
    (hk : env.keeperRevealBid s msg = (s', .ok resp)) :
    msgServer.RevealBid env s msg =
      (s',
       [{ EventType := env.EventTypeRevealBid
          Attributes := [(env.AttributeKeyAuctionID, msg.AuctionId),
                         (env.AttributeKeyReveal, msg.Reveal)] },
        messageEvent env a],
       .ok resp) := by
  simp [msgServer.RevealBid, ha, hk]

set_option maxRecDepth 100000 in
/-- C22, the code at the failing input: with the bech32 signer
`ethm1qypqxpq9qcrsszg2pvxq6rs0zqg3yyc5yvzu97`, `CreateAuction` succeeds and creates the
auction `auction0`, and the events it emits are the typed event with the commits
duration, the two fees and the minimum bid, and the message event with the signer; no
attribute of the typed event has the key `auction-id` and no attribute of either event
has the id of the created auction as its value. The same events are emitted when the
auction created is `auction1`, and the same holds for the account address part `cosmos`.
`CommitBid` and `RevealBid` on `auction0` do emit a typed event with the attribute
`auction-id` equal to `auction0`. A signer that is not bech32, such as `alice`, makes the
handler return an error of the address codec with no event and no keeper call. -/
theorem CreateAuction_event_without_auction_id :
    msgServer.CreateAuction (exampleAuctionEnv "ethm") []
        (exampleCreateAuction "ethm1qypqxpq9qcrsszg2pvxq6rs0zqg3yyc5yvzu97") =
      (["auction0"],
       [⟨"create-auction", [("commits-duration", "60ns"), ("commit-fee", "1aphoton"),
                            ("reveal-fee", "2aphoton"), ("minimum-bid", "5aphoton")]⟩,
        ⟨"message", [("module", "auction"),
                     ("signer", "ethm1qypqxpq9qcrsszg2pvxq6rs0zqg3yyc5yvzu97")]⟩],
       .ok "auction0") ∧
    (∀ e ∈ (msgServer.CreateAuction (exampleAuctionEnv "ethm") []
          (exampleCreateAuction "ethm1qypqxpq9qcrsszg2pvxq6rs0zqg3yyc5yvzu97")).2.1,
      ∀ kv ∈ e.Attributes,
        kv.1 ≠ (exampleAuctionEnv "ethm").AttributeKeyAuctionID ∧ kv.2 ≠ "auction0") ∧
    (msgServer.CreateAuction (exampleAuctionEnv "ethm") ["auction0"]
        (exampleCreateAuction "ethm1qypqxpq9qcrsszg2pvxq6rs0zqg3yyc5yvzu97")).2.2 =
      .ok "auction1" ∧
    (msgServer.CreateAuction (exampleAuctionEnv "ethm") ["auction0"]
        (exampleCreateAuction "ethm1qypqxpq9qcrsszg2pvxq6rs0zqg3yyc5yvzu97")).2.1 =
      (msgServer.CreateAuction (exampleAuctionEnv "ethm") []
        (exampleCreateAuction "ethm1qypqxpq9qcrsszg2pvxq6rs0zqg3yyc5yvzu97")).2.1 ∧
    msgServer.CreateAuction (exampleAuctionEnv "cosmos") []
        (exampleCreateAuction "cosmos1qypqxpq9qcrsszg2pvxq6rs0zqg3yyc5lzv7xu") =
      (["auction0"],
       [⟨"create-auction", [("commits-duration", "60ns"), ("commit-fee", "1aphoton"),
                            ("reveal-fee", "2aphoton"), ("minimum-bid", "5aphoton")]⟩,
        ⟨"message", [("module", "auction"),
                     ("signer", "cosmos1qypqxpq9qcrsszg2pvxq6rs0zqg3yyc5lzv7xu")]⟩],
       .ok "auction0") ∧
    (msgServer.CommitBid (exampleAuctionEnv "ethm") ["auction0"]
        ⟨"auction0", "h", "ethm1z5tpwxqergd3c8g7ruszzg3rysjjvfegnfkjdg"⟩).2.1 =
      [⟨"commit-bid", [("auction-id", "auction0"), ("commit-hash", "h")]⟩,
       ⟨"message", [("module", "auction"),
                    ("signer", "ethm1z5tpwxqergd3c8g7ruszzg3rysjjvfegnfkjdg")]⟩] ∧
    (msgServer.RevealBid (exampleAuctionEnv "ethm") ["auction0"]
        ⟨"auction0", "r", "ethm1z5tpwxqergd3c8g7ruszzg3rysjjvfegnfkjdg"⟩).2.1 =
      [⟨"reveal-bid", [("auction-id", "auction0"), ("reveal", "r")]⟩,
       ⟨"message", [("module", "auction"),
                    ("signer", "ethm1z5tpwxqergd3c8g7ruszzg3rysjjvfegnfkjdg")]⟩] ∧
    (∃ err : Error,
      msgServer.CreateAuction (exampleAuctionEnv "ethm") [] (exampleCreateAuction "alice") =
        ([], [], .error err)) := by
  refine ⟨rfl, by decide, rfl, by decide, rfl, by decide, by decide, ⟨_, rfl⟩⟩

/-! ## Records and bonds as the GQL queries present them -/

theorem collectReferenceIds_append (attrs : List (String × Value)) (ids : List String) :
    collectReferenceIds attrs ids = ids ++ linkTargets attrs := by
  induction attrs generalizing ids with
  | nil => simp [collectReferenceIds, linkTargets]
  | cons entry rest ih =>
    obtain ⟨key, value⟩ := entry
    cases value with
    | obj obj =>
      unfold collectReferenceIds
      by_cases h : ((obj.lookup "/").isSome && obj.length == 1) = true
      · simp only [h, if_true]
        have h' : (obj.lookup "/").isSome = true ∧ obj.length = 1 := by simpa using h
        obtain ⟨v, hv⟩ := Option.isSome_iff_exists.mp h'.1
        have hobj := lookup_single_slash obj v h'.2 hv
        subst hobj
        cases v <;> simp [List.lookup, ih, linkTargets, List.filterMap_cons]
      · have h0 : ((obj.lookup "/").isSome && obj.length == 1) = false := by simpa using h
        simp only [h0]
        rw [show ((if false = true then
              match obj.lookup "/" with
              | some (Value.str s) => collectReferenceIds rest (ids ++ [s])
              | _ => collectReferenceIds rest ids
            else collectReferenceIds rest ids) = collectReferenceIds rest ids) from rfl, ih]
        have hnot : ∀ s, obj ≠ [("/", Value.str s)] := by
          intro s e; subst e; simp [List.lookup] at h
        have : linkTargets ((key, Value.obj obj) :: rest) = linkTargets rest := by
          unfold linkTargets
          rw [List.filterMap_cons]
          split
          · rfl
          · rename_i s heq
            split at heq
            · rename_i s' hs'
              exact absurd (by simpa using hs') (hnot s')
            · cases heq
        rw [this]
    | _ => simp [collectReferenceIds, ih, linkTargets, List.filterMap_cons]

theorem linkTargets_perm {a b : AttrMap} (h : a.Perm b) :
    (linkTargets a).Perm (linkTargets b) :=
  List.Perm.filterMap _ h

theorem mem_linkTargets (attrs : AttrMap) (s : String) :
    s ∈ linkTargets attrs ↔ ∃ key, (key, Value.obj [("/", Value.str s)]) ∈ attrs := by
  unfold linkTargets
  rw [List.mem_filterMap]
  constructor
  · rintro ⟨⟨key, value⟩, hmem, hval⟩
    refine ⟨key, ?_⟩
    split at hval
    · rename_i s' heq
      simp only [Option.some.injEq] at hval
      subst hval
      have : value = Value.obj [("/", Value.str s')] := heq
      rw [← this]; exact hmem
    · cases hval
  · rintro ⟨key, hmem⟩
    exact ⟨_, hmem, rfl⟩

/-- C24: `getReferences` is one call of the resolver's `GetRecordsByIds`, on the ids
the loop collects, which are the link targets of the top-level attribute values: one
id per value that is the one-key object `{"/": s}` with `s` a string, in iteration
order. Another iteration order of the same map gives the same ids up to order; an id
is in the list exactly when some top-level value is the link to it; with no top-level
link the list is empty. In the example map only the entry `link` contributes (not the
object `{"/": 1}`, nor the string `Qmx`), links nested in an object or a list
contribute nothing, and the counting resolver is called once. -/
theorem getReferences_link_targets {Q : Type} (p : Presenter Q) (resolver : Q)
    (r : RecordType) :
    collectReferenceIds r.Attributes [] = linkTargets r.Attributes ∧
    getReferences p resolver r = p.getRecordsByIds resolver (linkTargets r.Attributes) ∧
    (∀ attrs : AttrMap, attrs.Perm r.Attributes →
      (collectReferenceIds attrs []).Perm (collectReferenceIds r.Attributes [])) ∧
    (∀ s : String, s ∈ collectReferenceIds r.Attributes [] ↔
      ∃ key, (key, Value.obj [("/", Value.str s)]) ∈ r.Attributes) ∧
    ((∀ entry ∈ r.Attributes, ∀ s : String, entry.2 ≠ Value.obj [("/", Value.str s)]) →
      getReferences p resolver r = p.getRecordsByIds resolver []) ∧
    collectReferenceIds exampleAttrs [] = ["Qmx"] ∧
    collectReferenceIds
      [("deep", Value.obj [("a", Value.obj [("/", Value.str "Qmx")])]),
       ("l", Value.list [Value.obj [("/", Value.str "Qmx")]]),
       ("two", Value.obj [("/", Value.str "Qmx"), ("x", Value.null)])] [] = [] ∧
    (getReferences examplePresenter 0 exampleRecordType).1 = 1 := by
  have hc : ∀ attrs : AttrMap, collectReferenceIds attrs [] = linkTargets attrs := by
    intro attrs; rw [collectReferenceIds_append]; rfl
  refine ⟨hc _, ?_, ?_, ?_, ?_, rfl, rfl, rfl⟩
  · unfold getReferences; rw [hc]
  · intro attrs hperm
    rw [hc, hc]; exact linkTargets_perm hperm
  · intro s; rw [hc]; exact mem_linkTargets _ s
  · intro hno
    unfold getReferences
    rw [hc]
    have : linkTargets r.Attributes = [] := by
      apply List.eq_nil_iff_forall_not_mem.mpr
      intro s hs
      obtain ⟨key, hmem⟩ := (mem_linkTargets _ s).mp hs
      exact hno _ hmem s rfl
    rw [this]

/-- C25: `matchBondOnAttributes` returns true exactly when every attribute of the list
has the key `owner` and a string value, not nil, equal to the owner of the bond; the
empty list matches every bond, and a list holding an attribute with another key
matches none. -/
theorem matchBondOnAttributes_iff (bondObj : Bond) (attributes : List KeyValueInput) :
    (matchBondOnAttributes bondObj attributes = true ↔
      ∀ attr ∈ attributes, attr.Key = "owner" ∧ attr.Value.String = some bondObj.Owner) ∧
    matchBondOnAttributes bondObj [] = true ∧
    ((∃ attr ∈ attributes, attr.Key ≠ "owner") →
      matchBondOnAttributes bondObj attributes = false) ∧
    ((∃ attr ∈ attributes, attr.Value.String = none) →
      matchBondOnAttributes bondObj attributes = false) := by
  have hiff : ∀ l : List KeyValueInput, matchBondOnAttributes bondObj l = true ↔
      ∀ attr ∈ l, attr.Key = "owner" ∧ attr.Value.String = some bondObj.Owner := by
    intro l
    induction l with
    | nil => simp [matchBondOnAttributes]
    | cons a rest ih =>
      rw [List.forall_mem_cons, ← ih]
      show (if a.Key = OwnerAttributeName then
              (match a.Value.String with
               | none => false
               | some s =>
                 if bondObj.Owner ≠ s then false else matchBondOnAttributes bondObj rest)
            else false) = true ↔ _
      simp only [OwnerAttributeName]
      by_cases hk : a.Key = "owner"
      · cases hv : a.Value.String with
        | none => simp [hk, hv]
        | some s =>
          by_cases ho : bondObj.Owner = s
          · simp [hk, hv, ho]
          · have ho' : ¬ s = bondObj.Owner := fun e => ho e.symm
            simp [hk, hv, ho, ho']
      · simp [hk]
  refine ⟨hiff _, rfl, ?_, ?_⟩
  · rintro ⟨attr, hmem, hkey⟩
    cases h : matchBondOnAttributes bondObj attributes with
    | false => rfl
    | true => exact absurd ((hiff _).mp h attr hmem).1 hkey
  · rintro ⟨attr, hmem, hnil⟩
    cases h : matchBondOnAttributes bondObj attributes with
    | false => rfl
    | true =>
      have := ((hiff _).mp h attr hmem).2
      rw [hnil] at this; cases this

/-- C23: a record with `Deleted = true` is presented as absent, `nil, nil`, whatever
its attributes and whatever the JSON encoder and the resolver do, and the resolver is
returned as it was given, not called; a record with `Deleted = false` whose attributes
convert to `kvs` and whose references resolve to `refs` is presented as the record with
its own id, bond id and owners, the text of its two times, `kvs` and `refs`. -/
theorem getGQLRecord_deleted_absent {B Q : Type} (env : Env B) (p : Presenter Q)
    (resolver q : Q) (record : Nameservice.Record) (kvs : List Gql.KeyValue)
    (refs : List (Option GqlRecord))
    (hattrs : getAttributes p (record.ToRecordType env) = .ok kvs)
    (hrefs : getReferences p resolver (record.ToRecordType env) = (q, .ok refs)) :
    getGQLRecord env p resolver { record with Deleted := true } = (resolver, .ok none) ∧
    (∀ (p' : Presenter Q) (deleted : Nameservice.Record), deleted.Deleted = true →
      getGQLRecord env p' resolver deleted = (resolver, .ok none)) ∧
    (record.Deleted = false →
      getGQLRecord env p resolver record =
        (q, .ok (some (GqlRecord.mk record.Id record.BondId (p.timeString record.CreateTime)
          (p.timeString record.ExpiryTime) record.Owners kvs refs))) ∧
      ∃ g : GqlRecord, (getGQLRecord env p resolver record).2 = .ok (some g) ∧
        g.ID = record.Id ∧ g.BondID = record.BondId ∧ g.Owners = record.Owners) := by
  have hdel : ∀ (p' : Presenter Q) (deleted : Nameservice.Record), deleted.Deleted = true →
      getGQLRecord env p' resolver deleted = (resolver, .ok none) := by
    intro p' deleted hd
    simp [getGQLRecord, hd]
  have hlive : record.Deleted = false →
      getGQLRecord env p resolver record =
        (q, .ok (some (GqlRecord.mk record.Id record.BondId (p.timeString record.CreateTime)
          (p.timeString record.ExpiryTime) record.Owners kvs refs))) := by
    intro hd
    simp [getGQLRecord, hd, hattrs, hrefs]
  refine ⟨hdel p _ rfl, hdel, fun hd => ⟨hlive hd,
    GqlRecord.mk record.Id record.BondId (p.timeString record.CreateTime)
      (p.timeString record.ExpiryTime) record.Owners kvs refs, ?_, rfl, rfl, rfl⟩⟩
  rw [hlive hd]

theorem getGQLRecord_deleted_absent_witness :
    getAttributes examplePresenter (exampleStoredRecord.ToRecordType exampleEnv) = .ok exampleKeyValues ∧
    getReferences examplePresenter 0 (exampleStoredRecord.ToRecordType exampleEnv) =
      (1, .ok []) ∧
    getGQLRecord exampleEnv examplePresenter 0 { exampleStoredRecord with Deleted := true } =
      (0, .ok none) ∧
    (∀ (p' : Presenter Nat) (deleted : Nameservice.Record), deleted.Deleted = true →
      getGQLRecord exampleEnv p' 0 deleted = (0, .ok none)) ∧
    (exampleStoredRecord.Deleted = false →
      getGQLRecord exampleEnv examplePresenter 0 exampleStoredRecord =
        (1, .ok (some (GqlRecord.mk exampleStoredRecord.Id exampleStoredRecord.BondId
          (examplePresenter.timeString exampleStoredRecord.CreateTime)
          (examplePresenter.timeString exampleStoredRecord.ExpiryTime)
          exampleStoredRecord.Owners exampleKeyValues []))) ∧
      ∃ g : GqlRecord,
        (getGQLRecord exampleEnv examplePresenter 0 exampleStoredRecord).2 = .ok (some g) ∧
        g.ID = exampleStoredRecord.Id ∧ g.BondID = exampleStoredRecord.BondId ∧
        g.Owners = exampleStoredRecord.Owners) :=
  ⟨rfl, rfl,
   getGQLRecord_deleted_absent exampleEnv examplePresenter 0 1 exampleStoredRecord exampleKeyValues []
     rfl rfl⟩

/-! ## Module balances -/

/-- C27: `GetModuleBalances` visits the record-rent module account, then the
authority-rent module account, and returns for each that exists as an account, in this
order, the entry with its name and all its balances, and no entry for one that does
not exist; when the record-rent account exists and the authority-rent account does not,
as when only records have been set, the result is the one entry of the record-rent
account; when neither exists it is empty. -/
theorem GetModuleBalances_entries {A : Type} (k : AccountKeepers A) :
    GetModuleBalances k =
      ([k.RecordRentModuleAccountName, k.AuthorityRentModuleAccountName].filter
          (fun name => k.hasAccount (k.getModuleAddress name))).map
        (fun name => { AccountName := name
                       Balance := k.getAllBalances (k.getModuleAddress name) }) ∧
    (k.hasAccount (k.getModuleAddress k.RecordRentModuleAccountName) = true →
     k.hasAccount (k.getModuleAddress k.AuthorityRentModuleAccountName) = false →
      GetModuleBalances k =
        [{ AccountName := k.RecordRentModuleAccountName
           Balance := k.getAllBalances (k.getModuleAddress k.RecordRentModuleAccountName) }]) ∧
    (k.hasAccount (k.getModuleAddress k.RecordRentModuleAccountName) = true →
     k.hasAccount (k.getModuleAddress k.AuthorityRentModuleAccountName) = true →
      GetModuleBalances k =
        [{ AccountName := k.RecordRentModuleAccountName
           Balance := k.getAllBalances (k.getModuleAddress k.RecordRentModuleAccountName) },
         { AccountName := k.AuthorityRentModuleAccountName
           Balance :=
             k.getAllBalances (k.getModuleAddress k.AuthorityRentModuleAccountName) }]) ∧
    (k.hasAccount (k.getModuleAddress k.RecordRentModuleAccountName) = false →
     k.hasAccount (k.getModuleAddress k.AuthorityRentModuleAccountName) = false →
      GetModuleBalances k = []) ∧
    GetModuleBalances exampleKeepers = [⟨"record_rent", [⟨"aphoton", 1⟩]⟩] := by
  have hmain : GetModuleBalances k =
      ([k.RecordRentModuleAccountName, k.AuthorityRentModuleAccountName].filter
          (fun name => k.hasAccount (k.getModuleAddress name))).map
        (fun name => { AccountName := name
                       Balance := k.getAllBalances (k.getModuleAddress name) }) := by
    unfold GetModuleBalances
    cases h1 : k.hasAccount (k.getModuleAddress k.RecordRentModuleAccountName) <;>
      cases h2 : k.hasAccount (k.getModuleAddress k.AuthorityRentModuleAccountName) <;>
      simp [moduleBalancesLoop, h1, h2, List.filter_cons]
  refine ⟨hmain, ?_, ?_, ?_, by decide⟩
  · intro h1 h2; rw [hmain]; simp [List.filter_cons, h1, h2]
  · intro h1 h2; rw [hmain]; simp [List.filter_cons, h1, h2]
  · intro h1 h2; rw [hmain]; simp [List.filter_cons, h1, h2]

/-! ## Frame of the expiry queue insertion -/

/-- C28: `InsertRecordExpiryQueue(val)` leaves the value, or the absence, of every
store key other than `getRecordExpiryQueueTimeKey(val.ExpiryTime)` as it was: every
record entry under prefix 0x00, every bond index entry under prefix 0x03, every
changeset entry, and every other expiry bucket, whose decoded id list is the same
too; the bond keeper is not touched. -/
theorem InsertRecordExpiryQueue_frame {B : Type} (env : Env B) (st : State B) (val : Record) :
    (∀ k : Bytes, k ≠ getRecordExpiryQueueTimeKey env val.ExpiryTime →
      (InsertRecordExpiryQueue env st val).store.get k = st.store.get k) ∧
    (∀ id : String,
      (InsertRecordExpiryQueue env st val).store.get (GetRecordIndexKey id) =
        st.store.get (GetRecordIndexKey id)) ∧
    (∀ bondID id : String,
      (InsertRecordExpiryQueue env st val).store.get (getBondIDToRecordsIndexKey bondID id) =
        st.store.get (getBondIDToRecordsIndexKey bondID id)) ∧
    (∀ height : Int,
      (InsertRecordExpiryQueue env st val).store.get (getBlockChangesetIndexKey height) =
        st.store.get (getBlockChangesetIndexKey height)) ∧
    (∀ t : Time,
      getRecordExpiryQueueTimeKey env t ≠ getRecordExpiryQueueTimeKey env val.ExpiryTime →
      (InsertRecordExpiryQueue env st val).store.get (getRecordExpiryQueueTimeKey env t) =
        st.store.get (getRecordExpiryQueueTimeKey env t) ∧
      GetRecordExpiryQueueTimeSlice env (InsertRecordExpiryQueue env st val) t =
        GetRecordExpiryQueueTimeSlice env st t) ∧
    (InsertRecordExpiryQueue env st val).bond = st.bond := by
  have hframe : ∀ k : Bytes, k ≠ getRecordExpiryQueueTimeKey env val.ExpiryTime →
      (InsertRecordExpiryQueue env st val).store.get k = st.store.get k := by
    intro k hk
    unfold InsertRecordExpiryQueue SetRecordExpiryQueueTimeSlice
    exact KVStore.get_set_of_ne _ _ _ _ hk
  refine ⟨hframe, ?_, ?_, ?_, ?_, rfl⟩
  · intro id
    apply hframe
    apply key_ne_of_head
    rw [head_GetRecordIndexKey, head_getRecordExpiryQueueTimeKey]; decide
  · intro bondID id
    apply hframe
    apply key_ne_of_head
    rw [head_getBondIDToRecordsIndexKey, head_getRecordExpiryQueueTimeKey]; decide
  · intro height
    apply hframe
    apply key_ne_of_head
    rw [head_getBlockChangesetIndexKey, head_getRecordExpiryQueueTimeKey]; decide
  · intro t ht
    have h := hframe _ ht
    refine ⟨h, ?_⟩
    unfold GetRecordExpiryQueueTimeSlice
    rw [h]

/-! ## Records set without a signature -/

/-- C30: for a message whose record is not yet stored, whose payload carries no
signature and whose bond pays the rent, `ProcessSetRecord` returns no error and stores
under the record key the record with the empty owners list, which `GetRecord` returns
when the record codec round-trips; the signer of the message is not read, the result
being the same for every signer. -/
theorem ProcessSetRecord_no_signature {B : Type} (env : Env B) (ctx : Ctx) (st : State B)
    (msg : MsgSetRecord) (cid : String) (b' : B)
    (hcid : env.getCID (msgRecord env msg) = some cid)
    (hfresh : HasRecord st cid = false)
    (hsigs : msg.Payload.Signatures = [])
    (hpay : env.transferCoinsToModuleAccount st.bond msg.BondId env.recordRentModuleAccountName
        (env.newCoins [ctx.params.RecordRent]) = (b', none)) :
    (ProcessSetRecord env ctx st msg).2 = none ∧
    (ProcessSetRecord env ctx st msg).1.store.get (GetRecordIndexKey cid) =
      some (env.marshalRecord (freshRecord env ctx msg cid [])) ∧
    (freshRecord env ctx msg cid []).Owners = [] ∧
    (env.unmarshalRecord (env.marshalRecord (freshRecord env ctx msg cid [])) =
        some (freshRecord env ctx msg cid []) →
      (GetRecord env (ProcessSetRecord env ctx st msg).1 cid).map (fun r => r.Owners) =
        some []) ∧
    (∀ signer : String,
      ProcessSetRecord env ctx st { msg with Signer := signer } =
        ProcessSetRecord env ctx st msg) := by
  have hs : checkSignatures env (env.getSignBytes (msgRecord env msg))
      msg.Payload.Signatures [] = .ok [] := by
    rw [hsigs]; rfl
  have hpsr := ProcessSetRecord_fresh env ctx st msg cid [] hcid hfresh hs
  have hproc := processRecord_of_transfer_ok env ctx st
    { msgRecord env msg with Id := cid, Owners := sortStrings [] } b' hpay
  have heq : ProcessSetRecord env ctx st msg =
      (freshState env ctx ⟨st.store, b'⟩ (freshRecord env ctx msg cid []), none) := by
    rw [hpsr, hproc.1, hproc.2]
    rfl
  have hget : (ProcessSetRecord env ctx st msg).1.store.get (GetRecordIndexKey cid) =
      some (env.marshalRecord (freshRecord env ctx msg cid [])) := by
    rw [heq]
    show (freshState env ctx ⟨st.store, b'⟩ (freshRecord env ctx msg cid [])).store.get _ = _
    rw [freshState_get_head0 env ctx _ _ _ (head_GetRecordIndexKey _)]
    have hid : (freshRecord env ctx msg cid []).Id = cid := rfl
    rw [hid, if_pos rfl]
  refine ⟨by rw [heq], hget, rfl, ?_, fun _ => rfl⟩
  intro hrt
  unfold GetRecord
  rw [hget]
  simp only [Option.getD_some, hrt, Option.map_some']
  rfl

theorem ProcessSetRecord_no_signature_witness :
    exampleEnv.getCID (msgRecord exampleEnv exampleUnsignedMsg) = some "Qma" ∧
    HasRecord exampleState "Qma" = false ∧
    exampleUnsignedMsg.Payload.Signatures = [] ∧
    (ProcessSetRecord exampleEnv exampleCtx exampleState exampleUnsignedMsg).2 = none ∧
    (ProcessSetRecord exampleEnv exampleCtx exampleState exampleUnsignedMsg).1.store.get
        (GetRecordIndexKey "Qma") =
      some (exampleEnv.marshalRecord
        (freshRecord exampleEnv exampleCtx exampleUnsignedMsg "Qma" [])) ∧
    (freshRecord exampleEnv exampleCtx exampleUnsignedMsg "Qma" []).Owners = [] ∧
    (exampleEnv.unmarshalRecord (exampleEnv.marshalRecord
        (freshRecord exampleEnv exampleCtx exampleUnsignedMsg "Qma" [])) =
        some (freshRecord exampleEnv exampleCtx exampleUnsignedMsg "Qma" []) →
      (GetRecord exampleEnv
          (ProcessSetRecord exampleEnv exampleCtx exampleState exampleUnsignedMsg).1 "Qma").map
        (fun r => r.Owners) = some []) ∧
    (∀ signer : String,
      ProcessSetRecord exampleEnv exampleCtx exampleState
          { exampleUnsignedMsg with Signer := signer } =
        ProcessSetRecord exampleEnv exampleCtx exampleState exampleUnsignedMsg) :=
  ⟨rfl, rfl, rfl,
   ProcessSetRecord_no_signature exampleEnv exampleCtx exampleState exampleUnsignedMsg "Qma"
     (debitTransfer exampleState.bond "bond1" "record_rent" [⟨"aphoton", 1⟩]).1 rfl rfl rfl rfl⟩

/-! ## The expiry queue query -/

theorem bytes_lt_of_cons_lt_cons (c : Nat) (a b : Bytes) (h : c :: a < c :: b) : a < b := by
  cases h with
  | cons h => exact h
  | rel h => exact absurd h (lt_irrefl _)

theorem KVStore.keys_set (s : KVStore) (k v x : Bytes)
    (hx : x ∈ (KVStore.set s k v).map Prod.fst) : x = k ∨ x ∈ s.map Prod.fst := by
  induction s with
  | nil => simpa [KVStore.set] using hx
  | cons p rest ih =>
    obtain ⟨k', v'⟩ := p
    unfold KVStore.set at hx
    by_cases h1 : k = k'
    · subst h1
      simp only [if_true, List.map_cons, List.mem_cons] at hx ⊢
      rcases hx with hx | hx
      · exact Or.inl hx
      · exact Or.inr (Or.inr hx)
    · by_cases h2 : k < k'
      · simp only [h1, h2, if_true, if_false, List.map_cons, List.mem_cons] at hx ⊢
        rcases hx with hx | hx | hx
        · exact Or.inl hx
        · exact Or.inr (Or.inl hx)
        · exact Or.inr (Or.inr hx)
      · simp only [h1, h2, if_false, List.map_cons, List.mem_cons] at hx ⊢
        rcases hx with hx | hx
        · exact Or.inr (Or.inl hx)
        · rcases ih hx with h | h
          · exact Or.inl h
          · exact Or.inr (Or.inr h)

theorem KVStore.WF_nil : KVStore.WF [] := by
  simp [KVStore.WF]

theorem KVStore.WF_set (s : KVStore) (k v : Bytes) (h : s.WF) : (KVStore.set s k v).WF := by
  induction s with
  | nil => simp [KVStore.set, KVStore.WF]
  | cons p rest ih =>
    obtain ⟨k', v'⟩ := p
    unfold KVStore.WF at h ih ⊢
    simp only [List.map_cons, List.sorted_cons] at h
    unfold KVStore.set
    by_cases h1 : k = k'
    · simp only [h1, if_true, List.map_cons, List.sorted_cons]
      exact h
    · by_cases h2 : k < k'
      · simp only [h1, h2, if_true, if_false, List.map_cons, List.sorted_cons, List.mem_cons]
        refine ⟨?_, h⟩
        intro b hb
        rcases hb with hb | hb
        · rw [hb]; exact h2
        · exact lt_trans h2 (h.1 b hb)
      · simp only [h1, h2, if_false, List.map_cons, List.sorted_cons]
        refine ⟨?_, ih h.2⟩
        intro b hb
        rcases KVStore.keys_set rest k v b hb with hb | hb
        · rw [hb]
          exact lt_of_le_of_ne (not_lt.mp h2) (fun e => h1 e.symm)
        · exact h.1 b hb

theorem KVStore.WF_delete (s : KVStore) (k : Bytes) (h : s.WF) : (KVStore.delete s k).WF := by
  unfold KVStore.WF KVStore.delete at *
  exact List.Pairwise.sublist ((List.filter_sublist s).map Prod.fst) h

theorem KVStore.get_eq_some_iff_mem (s : KVStore) (h : s.WF) (k v : Bytes) :
    s.get k = some v ↔ (k, v) ∈ s := by
  induction s with
  | nil => simp [KVStore.get]
  | cons p rest ih =>
    obtain ⟨k', v'⟩ := p
    unfold KVStore.WF at h ih
    simp only [List.map_cons, List.sorted_cons] at h
    have ih := ih h.2
    simp only [KVStore.get] at ih ⊢
    rw [List.lookup_cons]
    by_cases hk : k = k'
    · subst hk
      simp only [beq_self_eq_true, Option.some.injEq, List.mem_cons, Prod.mk.injEq, true_and]
      constructor
      · intro e; exact Or.inl e.symm
      · rintro (e | hmem)
        · exact e.symm
        · exact absurd (h.1 k (List.mem_map_of_mem Prod.fst hmem)) (lt_irrefl _)
    · have hne : (k == k') = false := by simpa using hk
      simp only [hne, List.mem_cons, Prod.mk.injEq, hk, false_and, false_or]
      exact ih

theorem expiryQueueLoop_eq {B : Type} (env : Env B) (l : List (Bytes × Bytes))
    (records : List ExpiryQueueRecord) :
    expiryQueueLoop env l records =
      records ++ (l.takeWhile (fun p => (env.bytesArrToStringArr p.2).isSome)).map
        (fun p => { Id := p.1.drop 1, Value := (env.bytesArrToStringArr p.2).getD [] }) := by
  induction l generalizing records with
  | nil => simp [expiryQueueLoop]
  | cons p rest ih =>
    obtain ⟨key, value⟩ := p
    unfold expiryQueueLoop
    cases hd : env.bytesArrToStringArr value with
    | none => simp [List.takeWhile_cons, hd]
    | some record =>
      simp only [ih, List.takeWhile_cons, hd, Option.isSome_some, if_true, List.map_cons,
        Option.getD_some, List.append_assoc, List.singleton_append]
      rfl

theorem prefix_append_drop (k : Bytes)
    (h : PrefixExpiryTimeToRecordsIndex.isPrefixOf k = true) :
    PrefixExpiryTimeToRecordsIndex ++ k.drop 1 = k := by
  cases k with
  | nil => simp [PrefixExpiryTimeToRecordsIndex, List.isPrefixOf] at h
  | cons a rest =>
    simp [PrefixExpiryTimeToRecordsIndex, List.isPrefixOf] at h
    simp [PrefixExpiryTimeToRecordsIndex, h]

theorem KVStore.mem_prefixIterator (s : KVStore) (pre : Bytes) (p : Bytes × Bytes) :
    p ∈ s.prefixIterator pre ↔ p ∈ s ∧ pre.isPrefixOf p.1 = true := by
  simp [KVStore.prefixIterator, List.mem_filter]

theorem KVStore.prefixIterator_keys_sorted (s : KVStore) (pre : Bytes) (h : s.WF) :
    ((s.prefixIterator pre).map Prod.fst).Sorted (fun a b => a < b) := by
  unfold KVStore.WF KVStore.prefixIterator at *
  exact List.Pairwise.sublist ((List.filter_sublist s).map Prod.fst) h

/-! ## Key order of the reachable stores -/

theorem freshState_WF {B : Type} (env : Env B) (ctx : Ctx) (st : State B) (r : Record)
    (h : st.store.WF) : (freshState env ctx st r).store.WF := by
  unfold freshState AddBondToRecordIndexEntry InsertRecordExpiryQueue
    SetRecordExpiryQueueTimeSlice PutRecord updateBlockChangeSetForRecord
  exact KVStore.WF_set _ _ _ (KVStore.WF_set _ _ _ (KVStore.WF_set _ _ _
    (KVStore.WF_set _ _ _ h)))

theorem ProcessSetRecord_WF {B : Type} (env : Env B) (ctx : Ctx) (st : State B)
    (msg : MsgSetRecord) (h : st.store.WF) :
    (ProcessSetRecord env ctx st msg).1.store.WF := by
  cases hcid : env.getCID (msgRecord env msg) with
  | none =>
    have : ProcessSetRecord env ctx st msg =
        (st, some ⟨ErrKind.invalidRequest, "Invalid record JSON"⟩) := by
      unfold ProcessSetRecord
      simp only [hcid]
    rw [this]; exact h
  | some cid =>
    cases hhas : HasRecord st cid with
    | true =>
      rw [ProcessSetRecord_of_has env ctx st msg cid hcid hhas]; exact h
    | false =>
      cases hs : checkSignatures env (env.getSignBytes (msgRecord env msg))
          msg.Payload.Signatures [] with
      | error e =>
        rw [ProcessSetRecord_sig_error env ctx st msg cid e hcid hhas hs]; exact h
      | ok owners =>
        rw [ProcessSetRecord_fresh env ctx st msg cid owners hcid hhas hs]
        cases htr : env.transferCoinsToModuleAccount st.bond msg.BondId
            env.recordRentModuleAccountName (env.newCoins [ctx.params.RecordRent]) with
        | mk b' oe =>
          cases oe with
          | some e =>
            rw [processRecord_of_transfer_err env ctx st _ false b' e htr]; exact h
          | none =>
            rw [(processRecord_of_transfer_ok env ctx st _ b' htr).1]
            exact freshState_WF env ctx ⟨st.store, b'⟩ _ h

theorem Reachable_WF {B : Type} (env : Env B) (st : State B) (h : Reachable env st) :
    st.store.WF := by
  induction h with
  | empty b => exact KVStore.WF_nil
  | step ctx st msg _ ih => exact ProcessSetRecord_WF env ctx st msg ih

theorem takeWhile_append_stop {α : Type} (f : α → Bool) (pre post : List α) (x : α)
    (hpre : ∀ p ∈ pre, f p = true) (hx : f x = false) :
    (pre ++ x :: post).takeWhile f = pre := by
  induction pre with
  | nil => simp [List.takeWhile_cons, hx]
  | cons a rest ih =>
    have ha : f a = true := hpre a (List.mem_cons_self _ _)
    rw [List.cons_append, List.takeWhile_cons, ha]
    simp only [if_true]
    rw [ih (fun p hp => hpre p (List.mem_cons_of_mem _ hp))]

theorem takeWhile_of_all {α : Type} (f : α → Bool) (l : List α)
    (h : ∀ p ∈ l, f p = true) : l.takeWhile f = l := by
  induction l with
  | nil => rfl
  | cons a rest ih =>
    rw [List.takeWhile_cons, h a (List.mem_cons_self _ _)]
    simp only [if_true]
    rw [ih (fun p hp => h p (List.mem_cons_of_mem _ hp))]

theorem lt_of_FormatTimeBytes_lt (a b : Int)
    (ha : 0 ≤ Time.Year a ∧ Time.Year a ≤ 9999) (hb : 0 ≤ Time.Year b ∧ Time.Year b ≤ 9999)
    (h : FormatTimeBytes a < FormatTimeBytes b) : a < b := by
  by_contra hnot
  rcases lt_or_eq_of_le (not_lt.mp hnot) with hgt | heq
  · exact lt_asymm h (FormatTimeBytes_lt b a hb ha hgt)
  · rw [heq] at h; exact lt_irrefl _ h

set_option maxRecDepth 100000 in
/-- Counterexample to C26: with the SDK's time formatter, in the store that holds the
bucket of 9999-12-31T23:59:59Z with `QmEarly` and the bucket of 10000-01-01T00:00:00Z
with `QmLate`, a store with ascending keys in which every bucket decodes,
`GetRecordExpiryQueue` returns the bucket of the later time first: the entries are in
ascending byte order of the keys, not in ascending expiry time. -/
theorem GetRecordExpiryQueue_year_order :
    sdkEnv.formatTimeBytes = FormatTimeBytes ∧
    exampleLateState.store.WF ∧
    (∀ p ∈ exampleLateState.store.prefixIterator PrefixExpiryTimeToRecordsIndex,
      (sdkEnv.bytesArrToStringArr p.2).isSome = true) ∧
    GetRecordExpiryQueue sdkEnv exampleLateState =
      [{ Id := FormatTimeBytes 253402300800000000000, Value := ["QmLate"] },
       { Id := FormatTimeBytes 253402300799000000000, Value := ["QmEarly"] }] ∧
    (253402300799000000000 : Time) < 253402300800000000000 ∧
    FormatTimeBytes 253402300800000000000 < FormatTimeBytes 253402300799000000000 ∧
    Time.Year 253402300799000000000 = 9999 ∧
    Time.Year 253402300800000000000 = 10000 := by
  refine ⟨rfl, by decide, by decide, by decide, by decide, by decide, by decide, by decide⟩

/-- C26 (amended): on a store whose keys are in ascending order, `GetRecordExpiryQueue`
returns the entries of the buckets under prefix 0x10 that precede the first bucket
whose value does not decode, each entry having as `Id` the key without its first byte
and as `Value` the decoded id list. When every bucket value decodes, the keys of the
entries (prefix put back) are the stored keys under prefix 0x10, one entry per key, in
strictly ascending byte order, and each `Value` is the decoding of the value stored
under the key; with the SDK's time formatter, when the entries are those of the
expiry times `ts`, all with years in 0000..9999, the times `ts` are strictly ascending.
When the bucket after the buckets `pre` does not decode, the result is the entries of
`pre`. -/
theorem GetRecordExpiryQueue_entries {B : Type} (env : Env B) (st : State B)
    (hwf : st.store.WF) :
    GetRecordExpiryQueue env st =
      ((st.store.prefixIterator PrefixExpiryTimeToRecordsIndex).takeWhile
          (fun p => (env.bytesArrToStringArr p.2).isSome)).map
        (fun p => { Id := p.1.drop 1, Value := (env.bytesArrToStringArr p.2).getD [] }) ∧
    ((∀ p ∈ st.store.prefixIterator PrefixExpiryTimeToRecordsIndex,
        (env.bytesArrToStringArr p.2).isSome = true) →
      (GetRecordExpiryQueue env st).map (fun e => PrefixExpiryTimeToRecordsIndex ++ e.Id) =
        (st.store.prefixIterator PrefixExpiryTimeToRecordsIndex).map Prod.fst ∧
      ((GetRecordExpiryQueue env st).map
        (fun e => PrefixExpiryTimeToRecordsIndex ++ e.Id)).Sorted (fun a b => a < b) ∧
      ((GetRecordExpiryQueue env st).map (fun e => e.Id)).Sorted (fun a b => a < b) ∧
      (∀ k : Bytes,
        (st.store.has k = true ∧ PrefixExpiryTimeToRecordsIndex.isPrefixOf k = true) ↔
          ∃ e ∈ GetRecordExpiryQueue env st, PrefixExpiryTimeToRecordsIndex ++ e.Id = k) ∧
      (∀ e ∈ GetRecordExpiryQueue env st, ∃ v : Bytes,
        st.store.get (PrefixExpiryTimeToRecordsIndex ++ e.Id) = some v ∧
        env.bytesArrToStringArr v = some e.Value) ∧
      (env.formatTimeBytes = FormatTimeBytes → ∀ ts : List Time,
        (∀ t ∈ ts, 0 ≤ Time.Year t ∧ Time.Year t ≤ 9999) →
        (GetRecordExpiryQueue env st).map (fun e => PrefixExpiryTimeToRecordsIndex ++ e.Id) =
          ts.map (getRecordExpiryQueueTimeKey env) →
        ts.Sorted (fun a b => a < b))) ∧
    (∀ (pre post : List (Bytes × Bytes)) (k v : Bytes),
      st.store.prefixIterator PrefixExpiryTimeToRecordsIndex = pre ++ (k, v) :: post →
      (∀ p ∈ pre, (env.bytesArrToStringArr p.2).isSome = true) →
      env.bytesArrToStringArr v = none →
      GetRecordExpiryQueue env st =
        pre.map (fun p => { Id := p.1.drop 1
                            Value := (env.bytesArrToStringArr p.2).getD [] })) := by
  have hgen : GetRecordExpiryQueue env st =
      ((st.store.prefixIterator PrefixExpiryTimeToRecordsIndex).takeWhile
          (fun p => (env.bytesArrToStringArr p.2).isSome)).map
        (fun p => { Id := p.1.drop 1, Value := (env.bytesArrToStringArr p.2).getD [] }) := by
    unfold GetRecordExpiryQueue
    rw [expiryQueueLoop_eq, List.nil_append]
  refine ⟨hgen, ?_, ?_⟩
  · intro hall
    have hres : GetRecordExpiryQueue env st =
        (st.store.prefixIterator PrefixExpiryTimeToRecordsIndex).map
          (fun p => { Id := p.1.drop 1, Value := (env.bytesArrToStringArr p.2).getD [] }) := by
      rw [hgen, takeWhile_of_all _ _ hall]
    have hkeys : (GetRecordExpiryQueue env st).map
          (fun e => PrefixExpiryTimeToRecordsIndex ++ e.Id) =
        (st.store.prefixIterator PrefixExpiryTimeToRecordsIndex).map Prod.fst := by
      rw [hres, List.map_map]
      apply List.map_congr_left
      intro p hp
      exact prefix_append_drop p.1 ((KVStore.mem_prefixIterator _ _ _).mp hp).2
    have hsorted : ((GetRecordExpiryQueue env st).map
        (fun e => PrefixExpiryTimeToRecordsIndex ++ e.Id)).Sorted (fun a b => a < b) := by
      rw [hkeys]
      exact KVStore.prefixIterator_keys_sorted _ _ hwf
    have hmemres : ∀ e, e ∈ GetRecordExpiryQueue env st ↔
        ∃ p ∈ st.store.prefixIterator PrefixExpiryTimeToRecordsIndex,
          ({ Id := p.1.drop 1, Value := (env.bytesArrToStringArr p.2).getD [] } :
            ExpiryQueueRecord) = e := by
      intro e; rw [hres, List.mem_map]
    refine ⟨hkeys, hsorted, ?_, ?_, ?_, ?_⟩
    · unfold List.Sorted at hsorted ⊢
      rw [List.pairwise_map] at hsorted ⊢
      exact hsorted.imp (fun h => bytes_lt_of_cons_lt_cons 16 _ _ h)
    · intro k
      constructor
      · rintro ⟨hhas, hpre⟩
        unfold KVStore.has at hhas
        obtain ⟨v, hv⟩ := Option.isSome_iff_exists.mp hhas
        have hmem : (k, v) ∈ st.store.prefixIterator PrefixExpiryTimeToRecordsIndex :=
          (KVStore.mem_prefixIterator _ _ _).mpr
            ⟨(KVStore.get_eq_some_iff_mem _ hwf _ _).mp hv, hpre⟩
        exact ⟨_, (hmemres _).mpr ⟨(k, v), hmem, rfl⟩, prefix_append_drop k hpre⟩
      · rintro ⟨e, he, hk⟩
        obtain ⟨p, hp, hpe⟩ := (hmemres e).mp he
        obtain ⟨hmem, hpre⟩ := (KVStore.mem_prefixIterator _ _ _).mp hp
        have hkp : k = p.1 := by
          rw [← hk, ← hpe]; exact prefix_append_drop p.1 hpre
        rw [hkp]
        refine ⟨?_, hpre⟩
        unfold KVStore.has
        rw [(KVStore.get_eq_some_iff_mem _ hwf _ _).mpr hmem]; rfl
    · intro e he
      obtain ⟨p, hp, hpe⟩ := (hmemres e).mp he
      obtain ⟨hmem, hpre⟩ := (KVStore.mem_prefixIterator _ _ _).mp hp
      refine ⟨p.2, ?_, ?_⟩
      · rw [← hpe]
        show st.store.get (PrefixExpiryTimeToRecordsIndex ++ p.1.drop 1) = some p.2
        rw [prefix_append_drop p.1 hpre]
        exact (KVStore.get_eq_some_iff_mem _ hwf _ _).mpr hmem
      · obtain ⟨ids, hids⟩ := Option.isSome_iff_exists.mp (hall p hp)
        rw [← hpe, hids]; rfl
    · intro hfmt ts hyears hts
      rw [hts] at hsorted
      unfold List.Sorted at hsorted ⊢
      rw [List.pairwise_map] at hsorted
      refine hsorted.imp_of_mem ?_
      intro a b ha hb hab
      have hkey : ∀ t, getRecordExpiryQueueTimeKey env t = 16 :: FormatTimeBytes t := by
        intro t; unfold getRecordExpiryQueueTimeKey; rw [hfmt]; rfl
      rw [hkey, hkey] at hab
      exact lt_of_FormatTimeBytes_lt a b (hyears a ha) (hyears b hb)
        (bytes_lt_of_cons_lt_cons 16 _ _ hab)
  · intro pre post k v hsplit hpre hv
    rw [hgen, hsplit,
      takeWhile_append_stop (fun p => (env.bytesArrToStringArr p.2).isSome) pre post (k, v)
        hpre (by simp [hv])]

set_option maxRecDepth 100000 in
/-- Witness of C26 (amended): in the example state `QmLate`, expiring in 2020, is queued
before `QmEarly`, expiring in 1970; the query returns the bucket of 1970 first. -/
theorem GetRecordExpiryQueue_entries_witness :
    exampleQueueState.store.WF ∧
    (∀ p ∈ exampleQueueState.store.prefixIterator PrefixExpiryTimeToRecordsIndex,
      (sdkEnv.bytesArrToStringArr p.2).isSome = true) ∧
    GetRecordExpiryQueue sdkEnv exampleQueueState =
      [{ Id := FormatTimeBytes 0, Value := ["QmEarly"] },
       { Id := FormatTimeBytes 1600000000123456789, Value := ["QmLate"] }] ∧
    ([0, 1600000000123456789] : List Time).Sorted (fun a b => a < b) :=
  ⟨by decide, by decide, by decide,
   ((GetRecordExpiryQueue_entries sdkEnv exampleQueueState (by decide)).2.1
      (by decide)).2.2.2.2.2 rfl [0, 1600000000123456789] (by decide) (by decide)⟩

/-! ## The bond index key -/

theorem utf8Char_prefix_free (c d : Char) (r1 r2 : Bytes)
    (h : utf8Char c ++ r1 = utf8Char d ++ r2) : c = d ∧ r1 = r2 := by
  have hn : c.toNat = d.toNat ∧ r1 = r2 := by
    unfold utf8Char at h
    simp only [] at h
    split_ifs at h <;>
      simp only [List.cons_append, List.nil_append, List.cons.injEq] at h <;>
      first
      | (exfalso; omega)
      | exact ⟨by omega, h.2⟩
      | exact ⟨by omega, h.2.2⟩
      | exact ⟨by omega, h.2.2.2⟩
      | exact ⟨by omega, h.2.2.2.2⟩
  refine ⟨?_, hn.2⟩
  rw [← Char.ofNat_toNat c, ← Char.ofNat_toNat d, hn.1]

theorem stringBytes_data_injective (l1 l2 : List Char)
    (h : l1.flatMap utf8Char = l2.flatMap utf8Char) : l1 = l2 := by
  induction l1 generalizing l2 with
  | nil =>
    cases l2 with
    | nil => rfl
    | cons d rest =>
      exfalso
      simp only [List.flatMap_nil, List.flatMap_cons] at h
      have : utf8Char d = [] := (List.append_eq_nil.mp h.symm).1
      exact utf8Char_ne_nil d this
  | cons c rest ih =>
    cases l2 with
    | nil =>
      exfalso
      simp only [List.flatMap_nil, List.flatMap_cons] at h
      exact utf8Char_ne_nil c (List.append_eq_nil.mp h).1
    | cons d rest2 =>
      simp only [List.flatMap_cons] at h
      obtain ⟨hcd, hrest⟩ := utf8Char_prefix_free c d _ _ h
      rw [hcd, ih rest2 hrest]

theorem stringBytes_injective (s t : String) (h : stringBytes s = stringBytes t) : s = t := by
  unfold stringBytes at h
  exact String.ext (stringBytes_data_injective _ _ h)

/-- C29: the key `getBondIDToRecordsIndexKey(b, i)` is the prefix 0x03, the bytes of
`b` and the bytes of `i`, with nothing between them; for bond ids of equal length in
bytes, equal keys come from equal bond ids and equal record ids. Two bond ids of
different length can share a key: `ab` with `c` and `a` with `bc`. -/
theorem getBondIDToRecordsIndexKey_injective (b1 b2 i1 i2 : String)
    (hlen : goLen b1 = goLen b2)
    (hkey : getBondIDToRecordsIndexKey b1 i1 = getBondIDToRecordsIndexKey b2 i2) :
    (b1 = b2 ∧ i1 = i2) ∧
    getBondIDToRecordsIndexKey b1 i1 = [0x03] ++ stringBytes b1 ++ stringBytes i1 ∧
    getBondIDToRecordsIndexKey "ab" "c" = getBondIDToRecordsIndexKey "a" "bc" := by
  refine ⟨?_, rfl, by decide⟩
  unfold getBondIDToRecordsIndexKey PrefixBondIDToRecordsIndex at hkey
  simp only [List.cons_append, List.nil_append, List.cons.injEq, true_and] at hkey
  obtain ⟨hb, hi⟩ := List.append_inj hkey hlen
  exact ⟨stringBytes_injective _ _ hb, stringBytes_injective _ _ hi⟩

theorem getBondIDToRecordsIndexKey_injective_witness :
    goLen "bond1" = goLen "bond1" ∧
    getBondIDToRecordsIndexKey "bond1" "Qma" = getBondIDToRecordsIndexKey "bond1" "Qma" ∧
    ("bond1" = "bond1" ∧ "Qma" = "Qma") ∧
    getBondIDToRecordsIndexKey "bond1" "Qma" =
      [0x03] ++ stringBytes "bond1" ++ stringBytes "Qma" ∧
    getBondIDToRecordsIndexKey "ab" "c" = getBondIDToRecordsIndexKey "a" "bc" :=
  ⟨rfl, rfl, getBondIDToRecordsIndexKey_injective "bond1" "bond1" "Qma" "Qma" rfl rfl⟩

end Nameservice
